import Mathlib

/-!
Reflected-light occultation solver (`starry/_core/ops/lib/include/reflected/occultation.h`),
tabulated factorials (`cpp/src/fact.h`), index parsing (`include/pybind/interface.h`) and
map operations (`include/maps/inline/oper.h`).

A shallow embedding of the class `Occultation<T>`:

* `computeA2`  : the change-of-basis pair `(A2, A2Inv)`,
* `computeI`   : the illumination matrix,
* `compute`    : the per-observation solution vector `sT`.

Conventions of the embedding.

* C++ `int` values are `Int`; `/` and `%` on them are the truncating `Int.tdiv` and
  `Int.tmod`.  In the solver the indices stay far below `2^31` for every degree whose
  dense `N2 x N2` matrix fits in memory, so no wrap-around is modelled there; the index
  parsers, which receive arbitrary Python integers, store every `int` through `wrap32`.
* The scalar type `T` / `Scalar` is a type `R` with field operations; `sqrt`, `sin`
  and `cos` are passed in a record `ScalarFns R`.
* Dense matrices of run-time size `r x c` are `Matrix (Fin r) (Fin c) R`.  The
  loops additionally keep a log of the `(row, column)` pairs they touch.
* Routines of `geometry.h`, `primitive.h`, `utils.h` and `constants.h` are parameters.
-/

namespace starry
namespace reflected
namespace occultation

/-! ## Control flow and dense-matrix primitives -/

/-- The loop `for (x = lo; x < hi; ++x) body`, threading the state `σ`. -/
def forLoop {σ : Type} (lo hi : Int) (body : Int → σ → σ) (init : σ) : σ :=
  (List.range (hi - lo).toNat).foldl (fun st (k : Nat) => body (lo + (k : Int)) st) init

/-- The assignment `M(i, j) = v` on a dense matrix. -/
def assignCoeff {R : Type} {r c : Nat} (M : Matrix (Fin r) (Fin c) R) (i j : Int) (v : R) :
    Matrix (Fin r) (Fin c) R :=
  fun a b => if ((a : Nat) : Int) = i ∧ ((b : Nat) : Int) = j then v else M a b

/-- The update `M(i, j) += v` on a dense matrix. -/
def addCoeff {R : Type} [Add R] {r c : Nat} (M : Matrix (Fin r) (Fin c) R) (i j : Int) (v : R) :
    Matrix (Fin r) (Fin c) R :=
  fun a b => if ((a : Nat) : Int) = i ∧ ((b : Nat) : Int) = j then M a b + v else M a b

/-- The update `M(i, j) -= v` on a dense matrix. -/
def subCoeff {R : Type} [Sub R] {r c : Nat} (M : Matrix (Fin r) (Fin c) R) (i j : Int) (v : R) :
    Matrix (Fin r) (Fin c) R :=
  fun a b => if ((a : Nat) : Int) = i ∧ ((b : Nat) : Int) = j then M a b - v else M a b

/-- The read `v(k)` of a dense vector of run-time size `n` (zero outside the storage). -/
def vecCoeff {R : Type} [Zero R] {n : Nat} (v : Fin n → R) (k : Int) : R :=
  if h : 0 ≤ k ∧ k.toNat < n then v ⟨k.toNat, h.2⟩ else 0

/-- Modelled from the spec: `is_even` of `utils.h` (not among the sources), the parity
test used by `computeI` ("Determine a parity flag `odd1` from `(l1+m1)` parity"). -/
def is_even (n : Int) : Bool := decide (n.tmod 2 = 0)

/-- The member `N2 = (ydeg + 2) * (ydeg + 2)`, as a size. -/
def N2_of (ydeg : Nat) : Nat := (ydeg + 2) * (ydeg + 2)

/-- The member `N1 = (ydeg + 1) * (ydeg + 1)`, as a size. -/
def N1_of (ydeg : Nat) : Nat := (ydeg + 1) * (ydeg + 1)

/-! ## `computeA2` -/

/-- The variables live across the iterations of the loop of `computeA2`. -/
structure A2Loop (R : Type) (ydeg : Nat) where
  /-- the local `A2InvDense` -/
  A2InvDense : Matrix (Fin (N2_of ydeg)) (Fin (N2_of ydeg)) R
  /-- the running column counter `n` -/
  n : Int
  /-- log of the `(row, column)` pairs assigned so far, oldest first -/
  log : List (Int × Int)

/-- One iteration of the body of the double loop of `computeA2`, at `(l, m)`. -/
def computeA2_body {R : Type} [Ring R] {ydeg : Nat} (l m : Int) (st : A2Loop R ydeg) :
    A2Loop R ydeg :=
  let n := st.n
  let mu := l - m
  let nu := l + m
  let A := st.A2InvDense
  if nu.tmod 2 = 0 then
    { A2InvDense := assignCoeff A n n (((mu + 2).tdiv 2 : Int) : R)
      n := n + 1
      log := st.log ++ [(n, n)] }
  else if l = 1 ∧ m = 0 then
    { A2InvDense := assignCoeff A n n ((1 : Int) : R)
      n := n + 1
      log := st.log ++ [(n, n)] }
  else if mu = 1 ∧ l.tmod 2 = 0 then
    { A2InvDense := assignCoeff A (l * l + 3) n ((3 : Int) : R)
      n := n + 1
      log := st.log ++ [(l * l + 3, n)] }
  else if mu = 1 ∧ l.tmod 2 = 1 then
    let A := assignCoeff A (1 + (l - 2) * (l - 2)) n ((-1 : Int) : R)
    let A := assignCoeff A (l * l + 1) n ((1 : Int) : R)
    let A := assignCoeff A (l * l + 5) n ((4 : Int) : R)
    { A2InvDense := A
      n := n + 1
      log := st.log ++ [(1 + (l - 2) * (l - 2), n), (l * l + 1, n), (l * l + 5, n)] }
  else if mu ≠ 3 then
    let i1 := nu + ((mu - 4 + nu) * (mu - 4 + nu)).tdiv 4
    let A := assignCoeff A i1 n (((mu - 3).tdiv 2 : Int) : R)
    let i2 := nu + 4 + ((mu + nu) * (mu + nu)).tdiv 4
    let A := assignCoeff A i2 n (((-(mu - 3)).tdiv 2 : Int) : R)
    let i3 := nu + ((mu + nu) * (mu + nu)).tdiv 4
    let A := assignCoeff A i3 n (((-(mu + 3)).tdiv 2 : Int) : R)
    { A2InvDense := A
      n := n + 1
      log := st.log ++ [(i1, n), (i2, n), (i3, n)] }
  else
    let i3 := nu + ((mu + nu) * (mu + nu)).tdiv 4
    { A2InvDense := assignCoeff A i3 n (((-(mu + 3)).tdiv 2 : Int) : R)
      n := n + 1
      log := st.log ++ [(i3, n)] }

/-- The populating double loop of `computeA2` (lines 54-95), started from
`A2InvDense = Zero(N2, N2)` and `n = 0`. -/
def computeA2_loop (R : Type) [Ring R] (ydeg : Nat) : A2Loop R ydeg :=
  forLoop 0 ((ydeg : Int) + 2)
    (fun l st => forLoop (-l) (l + 1) (fun m st => computeA2_body l m st) st)
    { A2InvDense := 0, n := 0, log := [] }

/-- The matrix `A2InvDense` once the loop of `computeA2` has populated it
("`A2InvFull`", the pre-truncation matrix). -/
def A2InvFull (R : Type) [Ring R] (ydeg : Nat) :
    Matrix (Fin (N2_of ydeg)) (Fin (N2_of ydeg)) R :=
  (computeA2_loop R ydeg).A2InvDense

/-- Exact-arithmetic model of an `Eigen::SparseLU` solver object after `compute(A)`:
`info` reports success exactly when `A` is nonsingular, and `solve B` is then the
solution `X` of `A X = B`. -/
structure SparseLU (R : Type) (n : Nat) where
  /-- whether `info() == Eigen::Success` -/
  success : Bool
  /-- the map `B ↦ solve(B)` -/
  solve : Matrix (Fin n) (Fin n) R → Matrix (Fin n) (Fin n) R

/-- The call `solver.compute(A)`. -/
def SparseLU.compute {R : Type} [Field R] [DecidableEq R] {n : Nat}
    (A : Matrix (Fin n) (Fin n) R) : SparseLU R n :=
  { success := decide (A.det ≠ 0)
    solve := fun B => A.det⁻¹ • (A.adjugate * B) }

/-- The inclusion of the leading `N1` indices among the `N2` ones. -/
def leading (ydeg : Nat) (i : Fin (N1_of ydeg)) : Fin (N2_of ydeg) :=
  ⟨i.1, lt_of_lt_of_le i.2 (Nat.mul_le_mul (Nat.le_succ _) (Nat.le_succ _))⟩

/-- The method `computeA2`: the pair `(A2, A2Inv)` it stores, or the
`std::runtime_error` it throws. -/
def computeA2 (R : Type) [Field R] [DecidableEq R] (ydeg : Nat) :
    Except String
      (Matrix (Fin (N2_of ydeg)) (Fin (N2_of ydeg)) R ×
        Matrix (Fin (N1_of ydeg)) (Fin (N1_of ydeg)) R) :=
  let A2InvDense := (computeA2_loop R ydeg).A2InvDense
  -- `A2Inv = A2InvDense.sparseView(); solver.compute(A2Inv);`
  let solver := SparseLU.compute A2InvDense
  if solver.success = false then
    .error "Error computing the change of basis matrix `A2`."
  else
    let A2 := solver.solve 1
    if solver.success = false then
      .error "Error computing the change of basis matrix `A2`."
    else
      -- `A2Inv = A2InvDense.block(0, 0, N1, N1).sparseView();`
      .ok (A2, A2InvDense.submatrix (leading ydeg) (leading ydeg))

/-! ## `computeI` -/

/-- The scalar functions of the type `T` that `computeI` and `compute` call. -/
structure ScalarFns (R : Type) where
  /-- the function `sqrt` -/
  sqrt : R → R
  /-- the function `sin` -/
  sin : R → R
  /-- the function `cos` -/
  cos : R → R

/-- The variables live across the iterations of the loops of `computeI`. -/
structure ILoop (R : Type) (ydeg : Nat) where
  /-- the member `I` -/
  I : Matrix (Fin (N2_of ydeg)) (Fin (N1_of ydeg)) R
  /-- the column counter `n1` -/
  n1 : Int
  /-- the dipole counter `n2` -/
  n2 : Int
  /-- log of the `(row, column)` pairs of `I` updated so far, oldest first -/
  log : List (Int × Int)

/-- The dipole `p << 0, 1.5 * x, 1.5 * z, 1.5 * y` of `computeI` (lines 130-135). -/
def dipole {R : Type} [Field R] (fns : ScalarFns R) (b theta : R) : Fin 4 → R :=
  let y0 := fns.sqrt (1 - b * b)
  let x := -y0 * fns.sin theta
  let y := y0 * fns.cos theta
  let z := -b
  ![0, (3 / 2 : R) * x, (3 / 2 : R) * z, (3 / 2 : R) * y]

/-- The body of the two inner loops of `computeI` (lines 149-158), at `(l2, m2)`. -/
def computeI_inner {R : Type} [Field R] {ydeg : Nat} (p : Fin 4 → R) (l1 m1 : Int)
    (odd1 : Bool) (l2 m2 : Int) (st : ILoop R ydeg) : ILoop R ydeg :=
  let l := l1 + l2
  let n := l * l + l + m1 + m2
  if odd1 && !(is_even (l2 + m2)) then
    let I := addCoeff st.I (n - 4 * l + 2) st.n1 (vecCoeff p st.n2)
    let I := subCoeff I (n - 2) st.n1 (vecCoeff p st.n2)
    let I := subCoeff I (n + 2) st.n1 (vecCoeff p st.n2)
    { I := I
      n1 := st.n1
      n2 := st.n2 + 1
      log := st.log ++ [(n - 4 * l + 2, st.n1), (n - 2, st.n1), (n + 2, st.n1)] }
  else
    { I := addCoeff st.I n st.n1 (vecCoeff p st.n2)
      n1 := st.n1
      n2 := st.n2 + 1
      log := st.log ++ [(n, st.n1)] }

/-- The body of the two outer loops of `computeI` (lines 144-161), at `(l1, m1)`. -/
def computeI_body {R : Type} [Field R] {ydeg : Nat} (p : Fin 4 → R) (l1 m1 : Int)
    (st : ILoop R ydeg) : ILoop R ydeg :=
  let odd1 : Bool := if is_even (l1 + m1) then false else true
  let st : ILoop R ydeg := { st with n2 := 0 }
  let st := forLoop 0 2
    (fun l2 st => forLoop (-l2) (l2 + 1) (fun m2 st => computeI_inner p l1 m1 odd1 l2 m2 st) st)
    st
  { st with n1 := st.n1 + 1 }

/-- The state of the loops of `computeI` on exit, for a given dipole, started from
`I.setZero()`, `n1 = 0`, `n2 = 0`. -/
def computeI_loop {R : Type} [Field R] (ydeg : Nat) (p : Fin 4 → R) : ILoop R ydeg :=
  forLoop 0 ((ydeg : Int) + 1)
    (fun l1 st => forLoop (-l1) (l1 + 1) (fun m1 st => computeI_body p l1 m1 st) st)
    { I := 0, n1 := 0, n2 := 0, log := [] }

/-- The method `computeI(b, theta)`: the new content of the member `I`, given its
content `I_old` on entry (which `I.setZero()` discards). -/
def computeI {R : Type} [Field R] (fns : ScalarFns R) (ydeg : Nat) (b theta : R)
    (_I_old : Matrix (Fin (N2_of ydeg)) (Fin (N1_of ydeg)) R) :
    Matrix (Fin (N2_of ydeg)) (Fin (N1_of ydeg)) R :=
  (computeI_loop ydeg (dipole fns b theta)).I

/-! ## The solver object and `compute` -/

/-- A row vector `RowVector<T>` of run-time size. -/
structure RowVector (R : Type) where
  /-- the number of coefficients -/
  size : Nat
  /-- the coefficients -/
  coeff : Fin size → R

/-- The assignment `v = v * M` on a row vector of run-time size (the product is only
defined when the sizes agree; otherwise the vector is kept). -/
def RowVector.mul {R : Type} [Semiring R] {r c : Nat} (v : RowVector R)
    (M : Matrix (Fin r) (Fin c) R) : RowVector R :=
  if h : v.size = r then
    { size := c, coeff := Matrix.vecMul (fun i => v.coeff (Fin.cast h.symm i)) M }
  else v

/-- The members of an `Occultation<T>` object of degree `ydeg`. -/
structure Occultation (R : Type) (deg : Nat) where
  /-- member `int ydeg` -/
  ydeg : Int
  /-- member `int N2` -/
  N2 : Int
  /-- member `int N1` -/
  N1 : Int
  /-- member `A2`, of size `N2 x N2` -/
  A2 : Matrix (Fin (N2_of deg)) (Fin (N2_of deg)) R
  /-- member `A2Inv`, of size `N1 x N1` once `computeA2` has returned -/
  A2Inv : Matrix (Fin (N1_of deg)) (Fin (N1_of deg)) R
  /-- member `I`, of size `N2 x N1` -/
  I : Matrix (Fin (N2_of deg)) (Fin (N1_of deg)) R
  /-- member `kappa` -/
  kappa : List R
  /-- member `lam` -/
  lam : List R
  /-- member `xi` -/
  xi : List R
  /-- member `PIntegral`, of size `N2` -/
  PIntegral : Fin (N2_of deg) → R
  /-- member `QIntegral`, of size `N2` -/
  QIntegral : Fin (N2_of deg) → R
  /-- member `TIntegral`, of size `N2` -/
  TIntegral : Fin (N2_of deg) → R
  /-- member `costheta` -/
  costheta : R
  /-- member `sintheta` -/
  sintheta : R
  /-- member `int code` -/
  code : Int
  /-- member `sT` -/
  sT : RowVector R

/-- The content of the members that the constructor allocates but does not
initialise. -/
structure Uninit (R : Type) (deg : Nat) where
  /-- content of `I(N2, N1)` -/
  I : Matrix (Fin (N2_of deg)) (Fin (N1_of deg)) R
  /-- content of `PIntegral(N2)` -/
  PIntegral : Fin (N2_of deg) → R
  /-- content of `QIntegral(N2)` -/
  QIntegral : Fin (N2_of deg) → R
  /-- content of `TIntegral(N2)` -/
  TIntegral : Fin (N2_of deg) → R
  /-- content of `sT(N2)` -/
  sT : Fin (N2_of deg) → R
  /-- content of `costheta` -/
  costheta : R
  /-- content of `sintheta` -/
  sintheta : R
  /-- content of `code` -/
  code : Int

/-- The constructor `Occultation(int ydeg)`: the object built, or the error thrown by
`computeA2`. -/
def Occultation.construct {R : Type} [Field R] [DecidableEq R] (deg : Nat) (u : Uninit R deg) :
    Except String (Occultation R deg) :=
  match computeA2 R deg with
  | .error e => .error e
  | .ok (A2, A2Inv) =>
    .ok
      { ydeg := (deg : Int)
        N2 := ((deg : Int) + 2) * ((deg : Int) + 2)
        N1 := ((deg : Int) + 1) * ((deg : Int) + 1)
        A2 := A2
        A2Inv := A2Inv
        I := u.I
        kappa := []
        lam := []
        xi := []
        PIntegral := u.PIntegral
        QIntegral := u.QIntegral
        TIntegral := u.TIntegral
        costheta := u.costheta
        sintheta := u.sintheta
        code := u.code
        sT := { size := N2_of deg, coeff := u.sT } }

/-- The status codes of `constants.h` that `compute` tests. -/
structure FluxCodes where
  /-- the constant `FLUX_ZERO` -/
  FLUX_ZERO : Int
  /-- the constant `FLUX_SIMPLE_OCC` -/
  FLUX_SIMPLE_OCC : Int
  /-- the constant `FLUX_SIMPLE_REFL` -/
  FLUX_SIMPLE_REFL : Int
  /-- the constant `FLUX_SIMPLE_OCC_REFL` -/
  FLUX_SIMPLE_OCC_REFL : Int

/-- What a call of `get_angles` hands back: the status code it returns and the values
it leaves in the arguments the caller passes. -/
structure Angles (R : Type) where
  /-- the returned status code -/
  code : Int
  /-- member `costheta` after the call -/
  costheta : R
  /-- member `sintheta` after the call -/
  sintheta : R
  /-- member `kappa` after the call -/
  kappa : List R
  /-- member `lam` after the call -/
  lam : List R
  /-- member `xi` after the call -/
  xi : List R

/-- The routines of `geometry.h` and `primitive.h` that `compute` calls.  Each either
returns its results or raises an error. -/
structure Externals (R : Type) (deg : Nat) where
  /-- the routine `get_angles(b, theta, costheta, sintheta, bo, ro, kappa, lam, xi)` -/
  get_angles : (b theta costheta sintheta bo ro : R) → Except String (Angles R)
  /-- the routine `computeP(deg, bo, ro, kappa, PIntegral)` -/
  computeP : Int → (bo ro : R) → (kappa : List R) → Except String (Fin (N2_of deg) → R)
  /-- the routine `computeQ(deg, lam, QIntegral)` -/
  computeQ : Int → (lam : List R) → Except String (Fin (N2_of deg) → R)
  /-- the routine `computeT(deg, b, theta, xi, TIntegral)` -/
  computeT : Int → (b theta : R) → (xi : List R) → Except String (Fin (N2_of deg) → R)

/-- The method `compute(b, theta, bo, ro)`: whether it returned or raised, and the
object it leaves behind.  Each exit lists the members written on the way to it:
`code = get_angles(...)` (with the results the classifier leaves in `costheta`,
`sintheta`, `kappa`, `lam`, `xi`), then in the general branch `costheta = cos(theta)`,
`sintheta = sin(theta)`, the three integral vectors, `sT = P + Q + T`, `computeI`, and
the three products `sT = sT * A2`, `sT = sT * I`, `sT = sT * A2Inv`; in the other branch
`sT.setZero(N2)`. -/
def Occultation.compute {R : Type} [Field R] {deg : Nat} (fns : ScalarFns R) (codes : FluxCodes)
    (ext : Externals R deg) (b theta bo ro : R) (s : Occultation R deg) :
    Except String Unit × Occultation R deg :=
  match ext.get_angles b theta s.costheta s.sintheta bo ro with
  | .error e => (.error e, s)
  | .ok g =>
    if g.code ≠ codes.FLUX_ZERO ∧ g.code ≠ codes.FLUX_SIMPLE_OCC ∧
        g.code ≠ codes.FLUX_SIMPLE_REFL ∧ g.code ≠ codes.FLUX_SIMPLE_OCC_REFL then
      match ext.computeP (s.ydeg + 1) bo ro g.kappa with
      | .error e =>
        (.error e,
          { s with code := g.code, kappa := g.kappa, lam := g.lam, xi := g.xi,
                   costheta := fns.cos theta, sintheta := fns.sin theta })
      | .ok P =>
        match ext.computeQ (s.ydeg + 1) g.lam with
        | .error e =>
          (.error e,
            { s with code := g.code, kappa := g.kappa, lam := g.lam, xi := g.xi,
                     costheta := fns.cos theta, sintheta := fns.sin theta, PIntegral := P })
        | .ok Q =>
          match ext.computeT (s.ydeg + 1) b theta g.xi with
          | .error e =>
            (.error e,
              { s with code := g.code, kappa := g.kappa, lam := g.lam, xi := g.xi,
                       costheta := fns.cos theta, sintheta := fns.sin theta,
                       PIntegral := P, QIntegral := Q })
          | .ok T =>
            (.ok (),
              { s with code := g.code, kappa := g.kappa, lam := g.lam, xi := g.xi,
                       costheta := fns.cos theta, sintheta := fns.sin theta,
                       PIntegral := P, QIntegral := Q, TIntegral := T,
                       I := computeI fns deg b theta s.I,
                       sT := (((RowVector.mk (N2_of deg) (P + Q + T)).mul s.A2).mul
                                (computeI fns deg b theta s.I)).mul s.A2Inv })
    else
      (.ok (),
        { s with code := g.code, kappa := g.kappa, lam := g.lam, xi := g.xi,
                 costheta := g.costheta, sintheta := g.sintheta,
                 sT := { size := s.N2.toNat, coeff := 0 } })

/-- The objects a caller can hold: a freshly constructed one, or one on which
`compute` has been called (whether it returned or raised). -/
inductive Reachable {R : Type} [Field R] [DecidableEq R] {deg : Nat} (fns : ScalarFns R)
    (codes : FluxCodes) (ext : Externals R deg) : Occultation R deg → Prop
  | construct (u : Uninit R deg) (s : Occultation R deg) :
      Occultation.construct deg u = .ok s → Reachable fns codes ext s
  | compute (b theta bo ro : R) (s : Occultation R deg) :
      Reachable fns codes ext s →
      Reachable fns codes ext (Occultation.compute fns codes ext b theta bo ro s).2

/-! ## The monomial basis -/

/-- The monomial `q_n(X, Y, Z)` of index `n = l^2 + l + m`: with `mu = l - m` and
`nu = l + m`, it is `X^(mu/2) Y^(nu/2)` for even `nu` and
`X^((mu-1)/2) Y^((nu-1)/2) Z` for odd `nu`. -/
def monomial {R : Type} [Monoid R] (X Y Z : R) (n : Nat) : R :=
  let l := Nat.sqrt n
  let nu := n - l * l
  let mu := 2 * l - nu
  if nu % 2 = 0 then X ^ (mu / 2) * Y ^ (nu / 2)
  else X ^ ((mu - 1) / 2) * Y ^ ((nu - 1) / 2) * Z

/-! ## A concrete configuration

A degree-0 solver over the rationals with stub collaborators, on which the general
theorems below are instantiated. -/

/-- Scalar functions for the stub configuration: `sqrt 1 = 1`, `sin 0 = 0`, `cos 0 = 1`. -/
def stubFns : ScalarFns ℚ :=
  { sqrt := fun x => x, sin := fun _ => 0, cos := fun _ => 1 }

/-- Four distinct status codes for the stub configuration. -/
def stubCodes : FluxCodes :=
  { FLUX_ZERO := 0, FLUX_SIMPLE_OCC := 5, FLUX_SIMPLE_REFL := 6, FLUX_SIMPLE_OCC_REFL := 7 }

/-- Stub collaborators of degree `deg`: the classifier returns the status `code`, with
`costheta = 1`, `sintheta = 0`, `kappa = [0, 1]` and empty `lam`, `xi`; each integral
routine returns the constant vector `1`. -/
def stubExt (deg : Nat) (code : Int) : Externals ℚ deg :=
  { get_angles := fun _ _ _ _ _ _ =>
      .ok { code := code, costheta := 1, sintheta := 0, kappa := [0, 1], lam := [], xi := [] }
    computeP := fun _ _ _ _ => .ok (fun _ => 1)
    computeQ := fun _ _ => .ok (fun _ => 1)
    computeT := fun _ _ _ _ => .ok (fun _ => 1) }

/-- Stub collaborators whose classifier raises an error. -/
def failingExt (deg : Nat) : Externals ℚ deg :=
  { get_angles := fun _ _ _ _ _ _ => .error "unsupported configuration"
    computeP := fun _ _ _ _ => .ok (fun _ => 1)
    computeQ := fun _ _ => .ok (fun _ => 1)
    computeT := fun _ _ _ _ => .ok (fun _ => 1) }

/-- All-zero content for the members the constructor leaves uninitialised. -/
def zeroInit (deg : Nat) : Uninit ℚ deg :=
  { I := 0, PIntegral := 0, QIntegral := 0, TIntegral := 0, sT := 0,
    costheta := 0, sintheta := 0, code := 0 }

/-- The object `Occultation(deg)` over the rationals built on all-zero storage. -/
def stubState (deg : Nat) : Occultation ℚ deg :=
  match Occultation.construct deg (zeroInit deg) with
  | .ok s => s
  | .error _ =>
    { ydeg := deg, N2 := 0, N1 := 0, A2 := 0, A2Inv := 0, I := 0, kappa := [], lam := [], xi := [],
      PIntegral := 0, QIntegral := 0, TIntegral := 0, costheta := 0, sintheta := 0, code := 0,
      sT := { size := 0, coeff := 0 } }

end occultation
end reflected
end starry

/-! ## Tabulated factorials (`src/cpp/src/fact.h`) -/

namespace fact

/-- A decimal literal `mantissa * 10 ^ exponent`: what a `double` literal of the source
denotes when it is read as an exact decimal. -/
structure Decimal where
  /-- the digits, as a signed integer -/
  mantissa : Int
  /-- the power of ten -/
  exponent : Int
  deriving DecidableEq

instance : OfScientific Decimal :=
  ⟨fun m s e => { mantissa := (m : Int), exponent := if s then -(e : Int) else (e : Int) }⟩

instance : Neg Decimal :=
  ⟨fun d => { mantissa := -d.mantissa, exponent := d.exponent }⟩

/-- The rational number a decimal literal denotes. -/
def Decimal.toRat (d : Decimal) : ℚ := (d.mantissa : ℚ) * (10 : ℚ) ^ d.exponent

/-- A value of type `double` as `factorial` and `half_factorial` return it: `NAN`,
`INFINITY`, or a table entry. -/
inductive Double where
  | nan
  | inf
  | num (d : Decimal)
  deriving DecidableEq

/-- The row type `struct {int n; double f;}` of the two tables. -/
structure Entry where
  /-- the label `n` -/
  n : Int
  /-- the tabulated value `f` -/
  f : Decimal
  deriving DecidableEq

/-- The constant `STARRY_MAX_FACT`. -/
def STARRY_MAX_FACT : Int := 170

/-- The constant `STARRY_MAX_HALF_FACT`. -/
def STARRY_MAX_HALF_FACT : Int := 341

/-- The array `fact_table`: the table of `n!` for `0 ≤ n ≤ 170` (a literal `k.` of the
source is written `k.0`). -/
def fact_table : List Entry :=
  [Entry.mk 0 1.0,
   Entry.mk 1 1.0,
   Entry.mk 2 2.0,
   Entry.mk 3 6.0,
   Entry.mk 4 24.0,
   Entry.mk 5 120.0,
   Entry.mk 6 720.0,
   Entry.mk 7 5040.0,
   Entry.mk 8 40320.0,
   Entry.mk 9 362880.0,
   Entry.mk 10 3.6288e6,
   Entry.mk 11 3.99168e7,
   Entry.mk 12 4.790016e8,
   Entry.mk 13 6.2270208e9,
   Entry.mk 14 8.71782912e10,
   Entry.mk 15 1.307674368e12,
   Entry.mk 16 2.0922789888e13,
   Entry.mk 17 3.55687428096e14,
   Entry.mk 18 6.402373705728e15,
   Entry.mk 19 1.21645100408832e17,
   Entry.mk 20 2.43290200817664e18,
   Entry.mk 21 5.109094217170944e19,
   Entry.mk 22 1.12400072777760768e21,
   Entry.mk 23 2.585201673888497664e22,
   Entry.mk 24 6.2044840173323943936e23,
   Entry.mk 25 1.5511210043330985984e25,
   Entry.mk 26 4.03291461126605635584e26,
   Entry.mk 27 1.0888869450418352160768e28,
   Entry.mk 28 3.04888344611713860501504e29,
   Entry.mk 29 8.841761993739701954543616e30,
   Entry.mk 30 2.652528598121910586363085e32,
   Entry.mk 31 8.222838654177922817725563e33,
   Entry.mk 32 2.63130836933693530167218e35,
   Entry.mk 33 8.683317618811886495518194e36,
   Entry.mk 34 2.952327990396041408476186e38,
   Entry.mk 35 1.033314796638614492966665e40,
   Entry.mk 36 3.719933267899012174679994e41,
   Entry.mk 37 1.376375309122634504631598e43,
   Entry.mk 38 5.230226174666011117600072e44,
   Entry.mk 39 2.039788208119744335864028e46,
   Entry.mk 40 8.159152832478977343456113e47,
   Entry.mk 41 3.345252661316380710817006e49,
   Entry.mk 42 1.405006117752879898543143e51,
   Entry.mk 43 6.041526306337383563735513e52,
   Entry.mk 44 2.658271574788448768043626e54,
   Entry.mk 45 1.196222208654801945619632e56,
   Entry.mk 46 5.502622159812088949850305e57,
   Entry.mk 47 2.586232415111681806429644e59,
   Entry.mk 48 1.241391559253607267086229e61,
   Entry.mk 49 6.082818640342675608722522e62,
   Entry.mk 50 3.041409320171337804361261e64,
   Entry.mk 51 1.551118753287382280224243e66,
   Entry.mk 52 8.065817517094387857166064e67,
   Entry.mk 53 4.274883284060025564298014e69,
   Entry.mk 54 2.308436973392413804720927e71,
   Entry.mk 55 1.26964033536582759259651e73,
   Entry.mk 56 7.109985878048634518540456e74,
   Entry.mk 57 4.05269195048772167556806e76,
   Entry.mk 58 2.350561331282878571829475e78,
   Entry.mk 59 1.38683118545689835737939e80,
   Entry.mk 60 8.320987112741390144276341e81,
   Entry.mk 61 5.075802138772247988008568e83,
   Entry.mk 62 3.146997326038793752565312e85,
   Entry.mk 63 1.982608315404440064116147e87,
   Entry.mk 64 1.268869321858841641034334e89,
   Entry.mk 65 8.24765059208247066672317e90,
   Entry.mk 66 5.443449390774430640037292e92,
   Entry.mk 67 3.647111091818868528824986e94,
   Entry.mk 68 2.48003554243683059960099e96,
   Entry.mk 69 1.711224524281413113724683e98,
   Entry.mk 70 1.197857166996989179607278e100,
   Entry.mk 71 8.504785885678623175211676e101,
   Entry.mk 72 6.123445837688608686152407e103,
   Entry.mk 73 4.470115461512684340891257e105,
   Entry.mk 74 3.30788544151938641225953e107,
   Entry.mk 75 2.480914081139539809194648e109,
   Entry.mk 76 1.885494701666050254987932e111,
   Entry.mk 77 1.451830920282858696340708e113,
   Entry.mk 78 1.132428117820629783145752e115,
   Entry.mk 79 8.946182130782975286851442e116,
   Entry.mk 80 7.156945704626380229481153e118,
   Entry.mk 81 5.797126020747367985879734e120,
   Entry.mk 82 4.753643337012841748421382e122,
   Entry.mk 83 3.945523969720658651189747e124,
   Entry.mk 84 3.314240134565353266999388e126,
   Entry.mk 85 2.817104114380550276949479e128,
   Entry.mk 86 2.422709538367273238176552e130,
   Entry.mk 87 2.107757298379527717213601e132,
   Entry.mk 88 1.854826422573984391147968e134,
   Entry.mk 89 1.650795516090846108121692e136,
   Entry.mk 90 1.485715964481761497309523e138,
   Entry.mk 91 1.352001527678402962551666e140,
   Entry.mk 92 1.243841405464130725547532e142,
   Entry.mk 93 1.156772507081641574759205e144,
   Entry.mk 94 1.087366156656743080273653e146,
   Entry.mk 95 1.03299784882390592625997e148,
   Entry.mk 96 9.916779348709496892095714e149,
   Entry.mk 97 9.619275968248211985332843e151,
   Entry.mk 98 9.426890448883247745626186e153,
   Entry.mk 99 9.332621544394415268169924e155,
   Entry.mk 100 9.332621544394415268169924e157,
   Entry.mk 101 9.425947759838359420851623e159,
   Entry.mk 102 9.614466715035126609268656e161,
   Entry.mk 103 9.902900716486180407546715e163,
   Entry.mk 104 1.029901674514562762384858e166,
   Entry.mk 105 1.081396758240290900504101e168,
   Entry.mk 106 1.146280563734708354534347e170,
   Entry.mk 107 1.226520203196137939351752e172,
   Entry.mk 108 1.324641819451828974499892e174,
   Entry.mk 109 1.443859583202493582204882e176,
   Entry.mk 110 1.58824554152274294042537e178,
   Entry.mk 111 1.762952551090244663872161e180,
   Entry.mk 112 1.97450685722107402353682e182,
   Entry.mk 113 2.231192748659813646596607e184,
   Entry.mk 114 2.543559733472187557120132e186,
   Entry.mk 115 2.925093693493015690688152e188,
   Entry.mk 116 3.393108684451898201198256e190,
   Entry.mk 117 3.96993716080872089540196e192,
   Entry.mk 118 4.684525849754290656574312e194,
   Entry.mk 119 5.574585761207605881323432e196,
   Entry.mk 120 6.689502913449127057588118e198,
   Entry.mk 121 8.094298525273443739681623e200,
   Entry.mk 122 9.87504420083360136241158e202,
   Entry.mk 123 1.214630436702532967576624e205,
   Entry.mk 124 1.506141741511140879795014e207,
   Entry.mk 125 1.882677176888926099743768e209,
   Entry.mk 126 2.372173242880046885677147e211,
   Entry.mk 127 3.012660018457659544809977e213,
   Entry.mk 128 3.856204823625804217356771e215,
   Entry.mk 129 4.974504222477287440390234e217,
   Entry.mk 130 6.466855489220473672507304e219,
   Entry.mk 131 8.471580690878820510984569e221,
   Entry.mk 132 1.118248651196004307449963e224,
   Entry.mk 133 1.487270706090685728908451e226,
   Entry.mk 134 1.992942746161518876737324e228,
   Entry.mk 135 2.690472707318050483595388e230,
   Entry.mk 136 3.659042881952548657689727e232,
   Entry.mk 137 5.012888748274991661034926e234,
   Entry.mk 138 6.917786472619488492228198e236,
   Entry.mk 139 9.615723196941089004197196e238,
   Entry.mk 140 1.346201247571752460587607e241,
   Entry.mk 141 1.898143759076170969428526e243,
   Entry.mk 142 2.695364137888162776588508e245,
   Entry.mk 143 3.854370717180072770521566e247,
   Entry.mk 144 5.550293832739304789551055e249,
   Entry.mk 145 8.047926057471991944849029e251,
   Entry.mk 146 1.174997204390910823947958e254,
   Entry.mk 147 1.727245890454638911203499e256,
   Entry.mk 148 2.556323917872865588581178e258,
   Entry.mk 149 3.808922637630569726985955e260,
   Entry.mk 150 5.713383956445854590478933e262,
   Entry.mk 151 8.627209774233240431623189e264,
   Entry.mk 152 1.311335885683452545606725e267,
   Entry.mk 153 2.006343905095682394778289e269,
   Entry.mk 154 3.089769613847350887958565e271,
   Entry.mk 155 4.789142901463393876335775e273,
   Entry.mk 156 7.471062926282894447083809e275,
   Entry.mk 157 1.172956879426414428192158e278,
   Entry.mk 158 1.85327186949373479654361e280,
   Entry.mk 159 2.94670227249503832650434e282,
   Entry.mk 160 4.714723635992061322406943e284,
   Entry.mk 161 7.590705053947218729075179e286,
   Entry.mk 162 1.229694218739449434110179e289,
   Entry.mk 163 2.004401576545302577599592e291,
   Entry.mk 164 3.28721858553429622726333e293,
   Entry.mk 165 5.423910666131588774984495e295,
   Entry.mk 166 9.003691705778437366474262e297,
   Entry.mk 167 1.503616514864999040201202e300,
   Entry.mk 168 2.526075744973198387538019e302,
   Entry.mk 169 4.269068009004705274939252e304,
   Entry.mk 170 7.257415615307998967396728e306]

/-- The array `half_fact_table`: the table of `(n / 2)!` for odd `n`, `-341 ≤ n ≤ 341`. -/
def half_fact_table : List Entry :=
  [Entry.mk (-341) 5.648220884223258302751563e-306,
   Entry.mk (-339) (-9.573734398758691626495438e-304),
   Entry.mk (-337) 1.613174246190873678763457e-301,
   Entry.mk (-335) (-2.702066862369875682438955e-299),
   Entry.mk (-333) 4.498941325845179240367467e-297,
   Entry.mk (-331) (-7.445747894274180505561967e-295),
   Entry.mk (-329) 1.224825528608186508481267e-292,
   Entry.mk (-327) (-2.002589739274137506478583e-290),
   Entry.mk (-325) 3.254208326320831153037262e-288,
   Entry.mk (-323) (-5.255546447008042972440442e-286),
   Entry.mk (-321) 8.435152047447189069876869e-284,
   Entry.mk (-319) (-1.345406751567836931205851e-281),
   Entry.mk (-317) 2.132469701235085504149247e-279,
   Entry.mk (-315) (-3.358639779445133337926535e-277),
   Entry.mk (-313) 5.256271254832167930025176e-275,
   Entry.mk (-311) (-8.173501801262896093685259e-273),
   Entry.mk (-309) 1.262806028295134501645689e-270,
   Entry.mk (-307) (-1.938407253433282310401723e-268),
   Entry.mk (-305) 2.956071061485346092913969e-266,
   Entry.mk (-303) (-4.478447658150595683117813e-264),
   Entry.mk (-301) 6.740063725517600664670372e-262,
   Entry.mk (-299) (-1.007639526964678697890431e-259),
   Entry.mk (-297) 1.496344697542484001478583e-257,
   Entry.mk (-295) (-2.207108428875399604071035e-255),
   Entry.mk (-293) 3.233413848302257805714455e-253,
   Entry.mk (-291) (-4.704617149279798215154178e-251),
   Entry.mk (-289) 6.798171780708947545838963e-249,
   Entry.mk (-287) (-9.755376505317351835755373e-247),
   Entry.mk (-285) 1.390141152007910349639894e-244,
   Entry.mk (-283) (-1.967049730091193027670282e-242),
   Entry.mk (-281) 2.76370487077782012730677e-240,
   Entry.mk (-279) (-3.855368294735538482445717e-238),
   Entry.mk (-277) 5.339685088208354934685093e-236,
   Entry.mk (-275) (-7.342066996286476630251334e-234),
   Entry.mk (-273) 1.002192144993158069917549e-231,
   Entry.mk (-271) (-1.357970356465642655571972e-229),
   Entry.mk (-269) 1.826470129446300460200847e-227,
   Entry.mk (-267) (-2.438337622810822407788123e-225),
   Entry.mk (-265) 3.23079735022441864185803e-223,
   Entry.mk (-263) (-4.248498515545340610245927e-221),
   Entry.mk (-261) 5.544290562786242859703507e-219,
   Entry.mk (-259) (-7.179856278808245162708776e-217),
   Entry.mk (-257) 9.226115318268965001588949e-215,
   Entry.mk (-255) (-1.176329703079211292310618e-212),
   Entry.mk (-253) 1.488057074395329261931509e-210,
   Entry.mk (-251) (-1.867511628366077045683961e-208),
   Entry.mk (-249) 2.325051977315885161375243e-206,
   Entry.mk (-247) (-2.871439191984952477636035e-204),
   Entry.mk (-245) 3.517513010181584456759003e-202,
   Entry.mk (-243) (-4.273778307371052788768926e-200),
   Entry.mk (-241) 5.149902860381823346022332e-198,
   Entry.mk (-239) (-6.154133918156128262981544e-196),
   Entry.mk (-237) 7.292648693015065859062661e-194,
   Entry.mk (-235) (-8.568862214292868506342309e-192),
   Entry.mk (-233) 9.982724479650325450402021e-190,
   Entry.mk (-231) (-1.153004677399743186686719e-187),
   Entry.mk (-229) 1.32019035562262528241359e-185,
   Entry.mk (-227) (-1.498416053631705526732367e-183),
   Entry.mk (-225) 1.685718060335619165579182e-181,
   Entry.mk (-223) (-1.879575637274228554723903e-179),
   Entry.mk (-221) 2.076931079187949771200717e-177,
   Entry.mk (-219) (-2.274239531710976436216637e-175),
   Entry.mk (-217) 2.467549891906398818625391e-173,
   Entry.mk (-215) (-2.652616133799474372530455e-171),
   Entry.mk (-213) 2.825036182496245167921318e-169,
   Entry.mk (-211) (-2.980413172533546762690521e-167),
   Entry.mk (-209) 3.114531765297561463615559e-165,
   Entry.mk (-207) (-3.223540377083161035223113e-163),
   Entry.mk (-205) 3.304128886510081924090079e-161,
   Entry.mk (-203) (-3.353690819807807582505163e-159),
   Entry.mk (-201) 3.370459273906888121078096e-157,
   Entry.mk (-199) (-3.353606977537328234348968e-155),
   Entry.mk (-197) 3.303302872874071861971359e-153,
   Entry.mk (-195) (-3.220720301052419627557364e-151),
   Entry.mk (-193) 3.10799509051548603637549e-149,
   Entry.mk (-191) (-2.968135311442299473216426e-147),
   Entry.mk (-189) 2.804887869312893585797852e-145,
   Entry.mk (-187) (-2.622570157807618012031648e-143),
   Entry.mk (-185) 2.425877395971948697571819e-141,
   Entry.mk (-183) (-2.219677817314298366796864e-139),
   Entry.mk (-181) 2.008808424669588851275868e-137,
   Entry.mk (-179) (-1.797883540079342349725074e-135),
   Entry.mk (-177) 1.591126932970221495738444e-133,
   Entry.mk (-175) (-1.392236066348803341330776e-131),
   Entry.mk (-173) 1.204284197391773930430296e-129,
   Entry.mk (-171) (-1.029662988769939595105295e-127),
   Entry.mk (-169) 8.700652255106339044326175e-126,
   Entry.mk (-167) (-7.265044633013580262115327e-124),
   Entry.mk (-165) 5.993661822236589124996108e-122,
   Entry.mk (-163) (-4.884834385122833379149212e-120),
   Entry.mk (-161) 3.932291680023602434995258e-118,
   Entry.mk (-159) (-3.126171885618868584070501e-116),
   Entry.mk (-157) 2.454044930210605860345039e-114,
   Entry.mk (-155) (-1.901884820913334818751417e-112),
   Entry.mk (-153) 1.454941887998695190306604e-110,
   Entry.mk (-151) (-1.098481125439025542004769e-108),
   Entry.mk (-149) 8.183684384520632420745202e-107,
   Entry.mk (-147) (-6.015008022622747176284238e-105),
   Entry.mk (-145) 4.360880816401374800873939e-103,
   Entry.mk (-143) (-3.118029783727024950368159e-101),
   Entry.mk (-141) 2.198210997527553088080637e-99,
   Entry.mk (-139) (-1.527756643281665444129869e-97),
   Entry.mk (-137) 1.046513300647911884509894e-95,
   Entry.mk (-135) (-7.063964779373463509583421e-94),
   Entry.mk (-133) 4.697536578283427226570095e-92,
   Entry.mk (-131) (-3.076886458775545139234902e-90),
   Entry.mk (-129) 1.984591765910315943397587e-88,
   Entry.mk (-127) (-1.260215771353010159066841e-86),
   Entry.mk (-125) 7.876348570956253183723686e-85,
   Entry.mk (-123) (-4.84395437113804515365775e-83),
   Entry.mk (-121) 2.930592394538565125925152e-81,
   Entry.mk (-119) (-1.743702474750413908905207e-79),
   Entry.mk (-117) 1.020065947729006846911187e-77,
   Entry.mk (-115) (-5.865379199441918578613421e-76),
   Entry.mk (-113) 3.31393924768469058737456e-74,
   Entry.mk (-111) (-1.839236282464997854390058e-72),
   Entry.mk (-109) 1.002383773943416468730384e-70,
   Entry.mk (-107) (-5.362753190597289239300844e-69),
   Entry.mk (-105) 2.815445425063558201031797e-67,
   Entry.mk (-103) (-1.449954393907755702605656e-65),
   Entry.mk (-101) 7.322269689234132689631519e-64,
   Entry.mk (-99) (-3.624523496170893623530563e-62),
   Entry.mk (-97) 1.757893895642883277869795e-60,
   Entry.mk (-95) (-8.349996004303695542245786e-59),
   Entry.mk (-93) 3.882748142001216631926661e-57,
   Entry.mk (-91) (-1.766650404610554730615412e-55),
   Entry.mk (-89) 7.861594300516968352013645e-54,
   Entry.mk (-87) (-3.419793520724879222040726e-52),
   Entry.mk (-85) 1.453412246308074311059972e-50,
   Entry.mk (-83) (-6.031660822178508011076176e-49),
   Entry.mk (-81) 2.442822632982295053208519e-47,
   Entry.mk (-79) (-9.649149400280068693224558e-46),
   Entry.mk (-77) 3.714922519107826407997609e-44,
   Entry.mk (-75) (-1.393095944665434611761988e-42),
   Entry.mk (-73) 5.084800198028836946271644e-41,
   Entry.mk (-71) (-1.805104070300237217884316e-39),
   Entry.mk (-69) 6.227609042535819135797642e-38,
   Entry.mk (-67) (-2.086249029249499901195106e-36),
   Entry.mk (-65) 6.780309345060872724424901e-35,
   Entry.mk (-63) (-2.135797443694174865429608e-33),
   Entry.mk (-61) 6.514182203267231851364915e-32,
   Entry.mk (-59) (-1.921683749963834146066281e-30),
   Entry.mk (-57) 5.476798687396924128334895e-29,
   Entry.mk (-55) (-1.506119639034154309053106e-27),
   Entry.mk (-53) 3.991217043440508685814666e-26,
   Entry.mk (-51) (-1.017760346077329608697947e-24),
   Entry.mk (-49) 2.493512847889458983127261e-23,
   Entry.mk (-47) (-5.859755192540226244666681e-22),
   Entry.mk (-45) 1.318444918321550740480794e-20,
   Entry.mk (-43) (-2.834656574391334588562521e-19),
   Entry.mk (-41) 5.811045977502235497293055e-18,
   Entry.mk (-39) (-1.133153965612936599899486e-16),
   Entry.mk (-37) 2.09633483638393241399121e-15,
   Entry.mk (-35) (-3.668585963671881211725029e-14),
   Entry.mk (-33) 6.053166840058602453178924e-13,
   Entry.mk (-31) (-9.382408602090834913143487e-12),
   Entry.mk (-29) 1.360449247303170408093016e-10,
   Entry.mk (-27) (-1.836606483859280386967696e-9),
   Entry.mk (-25) 2.29575810482410127987096e-8,
   Entry.mk (-23) (-2.640121820547716058261297e-7),
   Entry.mk (-21) 2.772127911575102152341938e-6,
   Entry.mk (-19) (-0.00002633521515996347574120433),
   Entry.mk (-17) 0.0002238493288596894845079305,
   Entry.mk (-15) (-0.00167886996644767117446706),
   Entry.mk (-13) 0.01091265478190986577822219,
   Entry.mk (-11) (-0.06001960130050425223924293),
   Entry.mk (-9) 0.2700882058522691142599115,
   Entry.mk (-7) (-0.9453087204829418999096902),
   Entry.mk (-5) 2.363271801207354805285377,
   Entry.mk (-3) (-3.544907701811032207928065),
   Entry.mk (-1) 1.772453850905516103964032,
   Entry.mk 1 0.8862269254527580519820162,
   Entry.mk 3 1.329340388179137022461873,
   Entry.mk 5 3.323350970447842556154683,
   Entry.mk 7 11.63172839656744983471981,
   Entry.mk 9 52.34277778455351892716862,
   Entry.mk 11 287.8852778150443896265642,
   Entry.mk 13 1871.254305797788447307539,
   Entry.mk 15 14034.40729348341301374603,
   Entry.mk 17 119292.4619946090097073466,
   Entry.mk 19 1.133278388948785606771708e6,
   Entry.mk 21 1.189942308396224863827229e7,
   Entry.mk 23 1.368433654655658602714539e8,
   Entry.mk 25 1.710542068319573163986206e9,
   Entry.mk 27 2.309231792231423950195313e10,
   Entry.mk 29 3.348386098735564575195312e11,
   Entry.mk 31 5.1899984530401259765625e12,
   Entry.mk 33 8.5634974475162078125e13,
   Entry.mk 35 1.49861205331533575e15,
   Entry.mk 37 2.772432298633372e16,
   Entry.mk 39 5.40624298233507392e17,
   Entry.mk 41 1.1082798113786906624e19,
   Entry.mk 43 2.38280159446418456576e20,
   Entry.mk 45 5.36130358754441428992e21,
   Entry.mk 47 1.25990634307293762551808e23,
   Entry.mk 49 3.086770540528697685835776e24,
   Entry.mk 51 7.871264878348179259942502e25,
   Entry.mk 53 2.085885192762267873251951e27,
   Entry.mk 55 5.736184280096232899359434e28,
   Entry.mk 57 1.634812519827426706170927e30,
   Entry.mk 59 4.822696933490906841026896e31,
   Entry.mk 61 1.470922564714727171981155e33,
   Entry.mk 63 4.633406078851391384374172e34,
   Entry.mk 65 1.50585697562670228754364e36,
   Entry.mk 67 5.044620868349450877626368e37,
   Entry.mk 69 1.740394199580560699174458e39,
   Entry.mk 71 6.178399408510990270507308e40,
   Entry.mk 73 2.255115784106512246626208e42,
   Entry.mk 75 8.456684190399417582410175e43,
   Entry.mk 77 3.255823413303776398101457e45,
   Entry.mk 79 1.286050248254991864228539e47,
   Entry.mk 81 5.208503505432716015722694e48,
   Entry.mk 83 2.161528954754577350971607e50,
   Entry.mk 85 9.186498057706951041634962e51,
   Entry.mk 87 3.996126655102524287971527e53,
   Entry.mk 89 1.778276361520623116738498e55,
   Entry.mk 91 8.091157444918834350871191e56,
   Entry.mk 93 3.762388211887258199647047e58,
   Entry.mk 95 1.787134400646447321471542e60,
   Entry.mk 97 8.667601843135271257515402e61,
   Entry.mk 99 4.290462912352008712330199e63,
   Entry.mk 101 2.16668377073772795352967e65,
   Entry.mk 103 1.115842141929947815247055e67,
   Entry.mk 105 5.858171245132187650312521e68,
   Entry.mk 107 3.134121616145726843765616e70,
   Entry.mk 109 1.708096280799408437724191e72,
   Entry.mk 111 9.479934358436688533371595e73,
   Entry.mk 113 5.356162912516739548054562e75,
   Entry.mk 115 3.079793674697194033149048e77,
   Entry.mk 117 1.801679299697884212687598e79,
   Entry.mk 119 1.071999183320221192652968e81,
   Entry.mk 121 6.485595059087443348811231e82,
   Entry.mk 123 3.98864096133873640406052e84,
   Entry.mk 125 2.492900600836691139014036e86,
   Entry.mk 127 1.582991881531247990839146e88,
   Entry.mk 129 1.021029763587700890348086e90,
   Entry.mk 131 6.687744951499224581007056e91,
   Entry.mk 133 4.447350392747054444005714e93,
   Entry.mk 135 3.001961515104286436577283e95,
   Entry.mk 137 2.056343637846379701033752e97,
   Entry.mk 139 1.429158828303248505869314e99,
   Entry.mk 141 1.007556973953790301056319e101,
   Entry.mk 143 7.20403236376969944115119e102,
   Entry.mk 145 5.222923463732891720377904e104,
   Entry.mk 147 3.838848745843728358315932e106,
   Entry.mk 149 2.859942315653539693261418e108,
   Entry.mk 151 2.159256448318443244223775e110,
   Entry.mk 153 1.651831182963602660520161e112,
   Entry.mk 155 1.28016916679686956512473e114,
   Entry.mk 157 1.004932795935458235426204e116,
   Entry.mk 159 7.989215727687161609772341e117,
   Entry.mk 161 6.431318660787708383916995e119,
   Entry.mk 163 5.241524708541995993543483e121,
   Entry.mk 165 4.324257884547425460256152e123,
   Entry.mk 167 3.610755333596995162033308e125,
   Entry.mk 169 3.051088256889582607758282e127,
   Entry.mk 171 2.608680459640524657104009e129,
   Entry.mk 173 2.256508597589164457223068e131,
   Entry.mk 175 1.974445022890319720958762e133,
   Entry.mk 177 1.747383845257936909640358e135,
   Entry.mk 179 1.563908541505905932819866e137,
   Entry.mk 181 1.415337230062949639342732e139,
   Entry.mk 183 1.295033565507578675820611e141,
   Entry.mk 185 1.197906048094461687414591e143,
   Entry.mk 187 1.120042154968348810904977e145,
   Entry.mk 189 1.058439836445059618394271e147,
   Entry.mk 191 1.0108100438050354561916e149,
   Entry.mk 193 9.754316922718280406577346e150,
   Entry.mk 195 9.510458999650912760860895e152,
   Entry.mk 197 9.367802114655591517858755e154,
   Entry.mk 199 9.320963104082245205332179e156,
   Entry.mk 201 9.367567919602771500107894e158,
   Entry.mk 203 9.508081438397021927342993e160,
   Entry.mk 205 9.745783474356481311059046e162,
   Entry.mk 207 1.008688589595953748155197e165,
   Entry.mk 209 1.054079576127773273852382e167,
   Entry.mk 211 1.112053952814803936549075e169,
   Entry.mk 213 1.184337459747684307589784e171,
   Entry.mk 215 1.273162769228806665563077e173,
   Entry.mk 217 1.381381604613249030477733e175,
   Entry.mk 219 1.512612857051621962540887e177,
   Entry.mk 221 1.67143720704198363089001e179,
   Entry.mk 223 1.863652485851825142968424e181,
   Entry.mk 225 2.096609046583241459563444e183,
   Entry.mk 227 2.379651267872019842524052e185,
   Entry.mk 229 2.724700701713296239640386e187,
   Entry.mk 231 3.147029310479213612064425e189,
   Entry.mk 233 3.666289146707966065695506e191,
   Entry.mk 235 4.307889747381943581614149e193,
   Entry.mk 237 5.104849350647640550636806e195,
   Entry.mk 239 6.100294974023781547457899e197,
   Entry.mk 241 7.350855443698236315851655e199,
   Entry.mk 243 8.931289364094250646582316e201,
   Entry.mk 245 1.09408294710155095541895e204,
   Entry.mk 247 1.351192439670337511454292e206,
   Entry.mk 249 1.682234587389656496938689e208,
   Entry.mk 251 2.111204407173950103194152e210,
   Entry.mk 253 2.670673575075274751454751e212,
   Entry.mk 255 3.405108808220737958643626e214,
   Entry.mk 257 4.375564818563823902302154e216,
   Entry.mk 259 5.666356440040199907425296e218,
   Entry.mk 261 7.394595154251890339563226e220,
   Entry.mk 263 9.723892627841764761798807e222,
   Entry.mk 265 1.288415773189065378911623e225,
   Entry.mk 267 1.720035057207410048588329e227,
   Entry.mk 269 2.313447151943980606203356e229,
   Entry.mk 271 3.134720890883893680709591e231,
   Entry.mk 273 4.27889401605674597310385e233,
   Entry.mk 275 5.883479272078017523377313e235,
   Entry.mk 277 8.148618791827496244719338e237,
   Entry.mk 279 1.136732321460076725495384e240,
   Entry.mk 281 1.597108911651230999426634e242,
   Entry.mk 283 2.259909109986492022908647e244,
   Entry.mk 285 3.220370481731186206130486e246,
   Entry.mk 287 4.621231641284257109813772e248,
   Entry.mk 289 6.677679721655396933516677e250,
   Entry.mk 291 9.71602399500862981886628e252,
   Entry.mk 293 1.423397515268675050398239e255,
   Entry.mk 295 2.099511335021519885275777e257,
   Entry.mk 297 3.117774332506824245462319e259,
   Entry.mk 299 4.661072627096764694690952e261,
   Entry.mk 301 7.01491430378162459212595e263,
   Entry.mk 303 1.062759517022986450996809e266,
   Entry.mk 305 1.620708263459829927614864e268,
   Entry.mk 307 2.48778718441116065962921e270,
   Entry.mk 309 3.843631199915295741245644e272,
   Entry.mk 311 5.976846515867460083820123e274,
   Entry.mk 313 9.353764797333527037165304e276,
   Entry.mk 315 1.473217955579975375387065e279,
   Entry.mk 317 2.335050459594330613155076e281,
   Entry.mk 319 3.724405483052985774114877e283,
   Entry.mk 321 5.977670800299531909228718e285,
   Entry.mk 323 9.653938342483561771791138e287,
   Entry.mk 325 1.568764980653751287491638e290,
   Entry.mk 327 2.564930743368566519361964e292,
   Entry.mk 329 4.219311072841580243440584e294,
   Entry.mk 331 6.982959825553198918359215e296,
   Entry.mk 333 1.162662810954436182395427e299,
   Entry.mk 335 1.947460208348797528722468e301,
   Entry.mk 337 3.281470451067793253415487e303,
   Entry.mk 339 5.562092414560065367747007e305,
   Entry.mk 341 9.483367566825812901350953e307]

/-- The read `table[i].f` of an array of rows, when `i` is within the array. -/
def tableAt (table : List Entry) (i : Int) : Option Decimal :=
  if 0 ≤ i then (table[i.toNat]?).map Entry.f else none

/-- The function `factorial(int n)`: the value returned and the lines written to
`std::cout`; `none` would be a read outside `fact_table`. -/
def factorial (n : Int) : Option (Double × List String) :=
  if n < 0 ∨ n > STARRY_MAX_FACT then
    some (Double.nan, ["ERROR: Factorial argument out of bounds."])
  else
    (tableAt fact_table n).map fun f => (Double.num f, [])

/-- The function `half_factorial(int n)`: the value returned and the lines written to
`std::cout`; `none` would be a read outside the tables. -/
def half_factorial (n : Int) : Option (Double × List String) :=
  if n < -STARRY_MAX_HALF_FACT ∨ n > STARRY_MAX_HALF_FACT then
    some (Double.nan, ["ERROR: Half factorial argument out of bounds."])
  else if n.tmod 2 = 0 then
    if n < 0 then
      some (Double.inf, [])
    else
      (tableAt fact_table (n.tdiv 2)).map fun f => (Double.num f, [])
  else
    (tableAt half_fact_table ((n + STARRY_MAX_HALF_FACT).tdiv 2)).map fun f => (Double.num f, [])

end fact

/-! ## Index parsing (`src/include/pybind/interface.h`) -/

namespace interface

/-- Exceptions that leave the index parsers: the two error classes thrown by
`interface.h` itself, and the two pybind11 exceptions (`py::cast_error` from a failed
`py::cast<int>`, `error_already_set` after a failed `slice.compute`). -/
inductive Error where
  | IndexError (msg : String)
  | ValueError (msg : String)
  | cast_error
  | error_already_set
  deriving DecidableEq

/-- The Python objects the parsers tell apart with `py::isinstance`: an integer
(`py::int_` or a numpy integer, of unbounded size), a slice whose three attributes are
each `None` or an integer, and anything else. -/
inductive PyObject where
  | int_ (v : Int)
  | slice (start stop step : Option Int)
  | other
  deriving DecidableEq

/-- The outcome of a call: `none` when the model ran out of fuel, otherwise the value
returned or the exception thrown. -/
abbrev Outcome (α : Type) := Option (Except Error α)

/-- A value stored into a C `int` (32-bit two's complement). -/
def wrap32 (x : Int) : Int := (x + 2147483648) % 4294967296 - 2147483648

/-- A value stored into a C `ssize_t` (64-bit two's complement). -/
def wrap64 (x : Int) : Int :=
  (x + 9223372036854775808) % 18446744073709551616 - 9223372036854775808

/-- CPython's `PyLong_AsSsize_t` on an integer object: its value when it fits a
`ssize_t`, and `-1` otherwise. -/
def PyLong_AsSsize_t (v : Int) : Int :=
  if -9223372036854775808 ≤ v ∧ v < 9223372036854775808 then v else -1

/-- pybind11's `py::cast<int>` on an integer object: its value when it fits a C `int`,
a `cast_error` otherwise. -/
def cast_int (v : Int) : Except Error Int :=
  if -2147483648 ≤ v ∧ v < 2147483648 then .ok v else .error Error.cast_error

/-- The function `reinterpret_slice`: the triple `(start, stop, step)` it stores, the stop
being inclusive, or the `ValueError` it throws. -/
def reinterpret_slice (start stop step : Option Int) (smin smax : Int) :
    Except Error (Int × Int × Int) :=
  let start' : Int :=
    match start with
    | none => smin
    | some v => wrap32 (PyLong_AsSsize_t v)
  let stop' : Int :=
    match stop with
    | none => smax
    | some v => wrap32 (wrap64 (PyLong_AsSsize_t v - 1))
  if step = none ∨ step.map PyLong_AsSsize_t = some 1 then .ok (start', stop', 1)
  else .error (Error.ValueError "Slices with steps different from one are not supported.")

/-- The loop `for (i = start; i < bound; i += step) body`, on a state `σ`, the counter
being stored through `wrap` (`wrap32` for an `int`, `wrap64` for a `ssize_t`), with a
bound `fuel` on the number of iterations: `bound - start` of them are enough for every
positive step. -/
def forInt {σ : Type} (wrap : Int → Int) (fuel : Nat) (i bound step : Int)
    (body : Int → σ → Outcome σ) (s : σ) : Outcome σ :=
  if i < bound then
    match fuel with
    | 0 => none
    | fuel + 1 =>
      match body i s with
      | some (.ok s') => forInt wrap fuel (wrap (i + step)) bound step body s'
      | r => r
  else some (.ok s)

/-- The statements `n = l * l + l + m; if ((n < 0) || (n >= N)) throw ...;
inds.push_back(n);` shared by the four branches of `get_Ylm_inds`. -/
def pushYlm (N l m : Int) (inds : List Int) : Outcome (List Int) :=
  let n := wrap32 (wrap32 (wrap32 (l * l) + l) + m)
  if n < 0 ∨ n ≥ N then some (.error (Error.IndexError "Invalid value for `l` and/or `m`."))
  else some (.ok (inds ++ [n]))

/-- The loop over `m` of the `(slice, slice)` and `(l, slice)` branches, after the
clamping of `mstart` and `mstop` to `[-l, l]`. -/
def mLoop (N l mstart mstop mstep : Int) (inds : List Int) : Outcome (List Int) :=
  let mstart := if mstart < wrap32 (-l) then wrap32 (-l) else mstart
  let mstop := if mstop > l then l else mstop
  forInt wrap32 (wrap32 (mstop + 1) - mstart).toNat mstart (wrap32 (mstop + 1)) mstep
    (fun m inds => pushYlm N l m inds) inds

/-- The function `get_Ylm_inds`: a user-provided `(l, m)` tuple parsed into spherical
harmonic map indices. -/
def get_Ylm_inds (lmax : Int) (lm : List PyObject) : Outcome (List Int) :=
  let N := wrap32 (wrap32 (lmax + 1) * wrap32 (lmax + 1))
  if lm.length ≠ 2 then some (.error (Error.IndexError "Invalid `l`, `m` tuple."))
  else
    match lm with
    | [PyObject.int_ l0, PyObject.int_ m0] =>
      match cast_int l0 with
      | .error e => some (.error e)
      | .ok l =>
        match cast_int m0 with
        | .error e => some (.error e)
        | .ok m => pushYlm N l m []
    | [PyObject.slice ls le lt, PyObject.slice ms me mt] =>
      match reinterpret_slice ls le lt 0 lmax with
      | .error e => some (.error e)
      | .ok (lstart, lstop, lstep) =>
        if lstart < 0 ∨ lstart > lmax then
          some (.error (Error.IndexError "Invalid value for `l`."))
        else
          forInt wrap32 (wrap32 (lstop + 1) - lstart).toNat lstart (wrap32 (lstop + 1)) lstep
            (fun l inds =>
              match reinterpret_slice ms me mt (wrap32 (-l)) l with
              | .error e => some (.error e)
              | .ok (mstart, mstop, mstep) => mLoop N l mstart mstop mstep inds) []
    | [PyObject.int_ l0, PyObject.slice ms me mt] =>
      match cast_int l0 with
      | .error e => some (.error e)
      | .ok l =>
        match reinterpret_slice ms me mt (wrap32 (-l)) l with
        | .error e => some (.error e)
        | .ok (mstart, mstop, mstep) => mLoop N l mstart mstop mstep []
    | [PyObject.slice ls le lt, PyObject.int_ m0] =>
      match cast_int m0 with
      | .error e => some (.error e)
      | .ok m =>
        match reinterpret_slice ls le lt 0 lmax with
        | .error e => some (.error e)
        | .ok (lstart, lstop, lstep) =>
          if lstart < 0 ∨ lstart > lmax then
            some (.error (Error.IndexError "Invalid value for `l`."))
          else
            forInt wrap32 (wrap32 (lstop + 1) - lstart).toNat lstart (wrap32 (lstop + 1)) lstep
              (fun l inds =>
                if m < wrap32 (-l) ∨ m > l then some (.ok inds) else pushYlm N l m inds) []
    | _ => some (.error (Error.IndexError "Unsupported input type for `l` and/or `m`."))

/-- The function `get_Ul_inds`: a user-provided `l` parsed into limb darkening map
indices. The pybind11 call `slice.compute(length, &start, &stop, &step, &slicelength)`
is the parameter `compute`, `none` standing for its failure. -/
def get_Ul_inds (compute : Int → Option Int → Option Int → Option Int →
      Option (Int × Int × Int × Int)) (lmax : Int) (l : PyObject) : Outcome (List Int) :=
  match l with
  | PyObject.int_ v =>
    match cast_int v with
    | .error e => some (.error e)
    | .ok n =>
      if n < 1 ∨ n > lmax then some (.error (Error.IndexError "Invalid value for `l`."))
      else some (.ok [n])
  | PyObject.slice a b c =>
    match compute (wrap32 (lmax + 1)) a b c with
    | none => some (.error Error.error_already_set)
    | some (start, stop, step, _) =>
      if start < 0 ∨ start > lmax then
        some (.error (Error.IndexError "Invalid value for `l`."))
      else if step < 0 then
        some (.error (Error.ValueError "Slices with negative steps are not supported."))
      else
        let start := if start = 0 then 1 else start
        forInt wrap64 (stop - start).toNat start stop step
          (fun i inds => some (.ok (inds ++ [wrap32 i]))) []
  | PyObject.other => some (.error (Error.IndexError "Unsupported input type for `l`."))

end interface

/-! ## Map operations (`src/include/maps/inline/oper.h`) -/

namespace maps

/-- The assignment `v(i) = x` on a dense vector. -/
def assignVec {R : Type} {n : Nat} (v : Fin n → R) (i : Int) (x : R) : Fin n → R :=
  fun a => if ((a : Nat) : Int) = i then x else v a

/-- The members of a temporal map that `computeTaylor` reads and writes: the Taylor
expansion basis `taylor`, of size `ncol`, and the cached time `cache.taylort`. -/
structure TaylorState (R : Type) (ncol : Nat) where
  /-- member `taylor` -/
  taylor : Fin ncol → R
  /-- member `cache.taylort` -/
  taylort : R

/-- The method `computeTaylor(t)`, temporal specialization. -/
def computeTaylor {R : Type} [Field R] [DecidableEq R] {ncol : Nat} (t : R)
    (st : TaylorState R ncol) : TaylorState R ncol :=
  if t ≠ st.taylort then
    { taylor := starry.reflected.occultation.forLoop 1 (ncol : Int)
        (fun n taylor =>
          assignVec taylor n
            (starry.reflected.occultation.vecCoeff taylor (n - 1) * t / ((n : Int) : R)))
        st.taylor
      taylort := t }
  else st

/-- The method `contract(mat, t)`, temporal specialization: the vector `mat * taylor`
returned and the members left by `computeTaylor(t)`. -/
def contract {R : Type} [Field R] [DecidableEq R] {rows ncol : Nat}
    (mat : Matrix (Fin rows) (Fin ncol) R) (t : R) (st : TaylorState R ncol) :
    (Fin rows → R) × TaylorState R ncol :=
  let st := computeTaylor t st
  (Matrix.mulVec mat st.taylor, st)

/-- The method `contract_deriv(mat, t)`, temporal specialization: the vector
`mat.block(0, 1, mat.rows(), ncol - 1) * taylor.segment(0, ncol - 1)` returned and the
members left by `computeTaylor(t)`. -/
def contract_deriv {R : Type} [Field R] [DecidableEq R] {rows ncol : Nat}
    (mat : Matrix (Fin rows) (Fin ncol) R) (t : R) (st : TaylorState R ncol) :
    (Fin rows → R) × TaylorState R ncol :=
  let st := computeTaylor t st
  (Matrix.mulVec
      (fun (i : Fin rows) (k : Fin (ncol - 1)) =>
        mat i ⟨(k : Nat) + 1, Nat.add_lt_of_lt_sub k.2⟩)
      (fun (k : Fin (ncol - 1)) => st.taylor ⟨(k : Nat), Nat.lt_of_lt_of_le k.2 (Nat.sub_le _ _)⟩),
    st)

/-- The method `normalizeC(c, dcdu)`, default specialization: the new `c` and `dcdu`.
The constant `pi<Scalar>()` is the parameter `pi`; `c` has at least the two
coefficients the method reads. -/
def normalizeC {R : Type} [Field R] {m r s : Nat} (pi : R) (c : Fin (m + 2) → R)
    (dcdu : Matrix (Fin r) (Fin s) R) : (Fin (m + 2) → R) × Matrix (Fin r) (Fin s) R :=
  let norm : R := 1 / (pi * (c 0 + 2 * c 1 / 3))
  (fun a => c a * norm, fun a b => dcdu a b * norm)

/-- The assignment `M.col(n) = M.col(n) * x`. -/
def scaleCol {R : Type} [Mul R] {r c : Nat} (M : Matrix (Fin r) (Fin c) R) (n : Int) (x : R) :
    Matrix (Fin r) (Fin c) R :=
  fun a b => if ((b : Nat) : Int) = n then M a b * x else M a b

/-- The assignment `M.block(i0, j0, h, w) = M.block(i0, j0, h, w) * x`. -/
def scaleBlock {R : Type} [Mul R] {r c : Nat} (M : Matrix (Fin r) (Fin c) R)
    (i0 j0 h w : Int) (x : R) : Matrix (Fin r) (Fin c) R :=
  fun a b =>
    if i0 ≤ ((a : Nat) : Int) ∧ ((a : Nat) : Int) < i0 + h ∧
        j0 ≤ ((b : Nat) : Int) ∧ ((b : Nat) : Int) < j0 + w then M a b * x
    else M a b

/-- The read `M(i, j)` of a dense matrix (zero outside the storage). -/
def matCoeff {R : Type} [Zero R] {r c : Nat} (M : Matrix (Fin r) (Fin c) R) (i j : Int) : R :=
  if h : (0 ≤ i ∧ i.toNat < r) ∧ (0 ≤ j ∧ j.toNat < c) then M ⟨i.toNat, h.1.2⟩ ⟨j.toNat, h.2.2⟩
  else 0

/-- The method `normalizeC(c, dcdu)`, spectral specialization: the new `c` and `dcdu`.
The constant `pi<Scalar>()` and the members `ncol`, `lmax` are parameters; `c` has at
least the two rows the method reads. -/
def normalizeC_spectral {R : Type} [Field R] {m r s : Nat} (pi : R) (ncol lmax : Nat)
    (c : Matrix (Fin (m + 2)) (Fin ncol) R) (dcdu : Matrix (Fin r) (Fin s) R) :
    Matrix (Fin (m + 2)) (Fin ncol) R × Matrix (Fin r) (Fin s) R :=
  starry.reflected.occultation.forLoop 0 (ncol : Int)
    (fun n st =>
      let norm : R := 1 / (pi * (matCoeff st.1 0 n + 2 * matCoeff st.1 1 n / 3))
      (scaleCol st.1 n norm,
        scaleBlock st.2 (n * (lmax : Int)) 0 (lmax : Int) ((lmax : Int) + 1) norm))
    (c, dcdu)

end maps

namespace starry
namespace reflected
namespace occultation

/-! ## Loop rules -/

/-- Invariant rule for `forLoop`: a property that holds on entry and is carried by
every iteration holds on exit. -/
theorem forLoop_invariant {σ : Type} (P : Int → σ → Prop) (lo hi : Int) (hle : lo ≤ hi)
    (body : Int → σ → σ) (init : σ) (h0 : P lo init)
    (hstep : ∀ x st, lo ≤ x → x < hi → P x st → P (x + 1) (body x st)) :
    P hi (forLoop lo hi body init) := by
  unfold forLoop
  have key : ∀ k : Nat, (k : Int) ≤ hi - lo →
      P (lo + k) ((List.range k).foldl (fun st (k : Nat) => body (lo + (k : Int)) st) init) := by
    intro k
    induction k with
    | zero => intro _; simpa using h0
    | succ k ih =>
      intro hk
      rw [List.range_succ, List.foldl_append]
      simp only [List.foldl_cons, List.foldl_nil]
      push_cast at hk
      have := hstep (lo + k) _ (by omega) (by omega) (ih (by omega))
      push_cast
      rw [← add_assoc]
      exact this
  have h := key (hi - lo).toNat (by omega)
  rwa [Int.toNat_of_nonneg (by omega), add_sub_cancel] at h

/-- Index order: the index `l^2 + l + m` of an earlier pair `(l', m')` is smaller. -/
theorem index_lt_of_degree_lt {l' m' l m : Int} (hl' : 0 ≤ l') (hm' : m' ≤ l') (hlt : l' < l)
    (hm : -l ≤ m) : l' * l' + l' + m' < l * l + l + m := by
  nlinarith [mul_nonneg (show (0 : Int) ≤ l - l' - 1 by omega) (show (0 : Int) ≤ l + l' + 1 by omega)]

/-- A double loop over the pairs `(l, m)`, `0 ≤ l < L`, `-l ≤ m ≤ l`, whose body fills
the column given by a counter and then increments the counter, fills column
`l^2 + l + m` at the pair `(l, m)`. -/
theorem nested_fill {σ R : Type} [Zero R] {r c : Nat} (col : σ → Int)
    (mat : σ → Matrix (Fin r) (Fin c) R) (body : Int → Int → σ → σ)
    (F : Int → Int → Int → Fin r → Fin c → R) (L : Int) (hL : 0 ≤ L) (init : σ)
    (hcol0 : col init = 0) (hmat0 : ∀ (a : Fin r) (b : Fin c), mat init a b = 0)
    (hcol : ∀ l m st, col (body l m st) = col st + 1)
    (hframe : ∀ l m st (a : Fin r) (b : Fin c), ((b : Nat) : Int) ≠ col st → mat (body l m st) a b = mat st a b)
    (hval : ∀ l m st (b : Fin c), ((b : Nat) : Int) = col st → (∀ a, mat st a b = 0) →
      ∀ a, mat (body l m st) a b = F l m (col st) a b) :
    col (forLoop 0 L (fun l st => forLoop (-l) (l + 1) (fun m st => body l m st) st) init)
        = L * L ∧
      (∀ (a : Fin r) (b : Fin c), L * L ≤ ((b : Nat) : Int) →
        mat (forLoop 0 L (fun l st => forLoop (-l) (l + 1) (fun m st => body l m st) st) init)
          a b = 0) ∧
      ∀ l m, 0 ≤ l → l < L → -l ≤ m → m ≤ l → ∀ (a : Fin r) (b : Fin c), ((b : Nat) : Int) = l * l + l + m →
        mat (forLoop 0 L (fun l st => forLoop (-l) (l + 1) (fun m st => body l m st) st) init)
          a b = F l m (l * l + l + m) a b := by
  have inner : ∀ l st, 0 ≤ l →
      (col st = l * l + l + -l ∧ (∀ (a : Fin r) (b : Fin c), col st ≤ ((b : Nat) : Int) → mat st a b = 0) ∧
        ∀ l' m', 0 ≤ l' → -l' ≤ m' → m' ≤ l' → (l' < l ∨ (l' = l ∧ m' < -l)) →
          ∀ (a : Fin r) (b : Fin c), ((b : Nat) : Int) = l' * l' + l' + m' → mat st a b = F l' m' (l' * l' + l' + m') a b) →
      (col (forLoop (-l) (l + 1) (fun m st => body l m st) st) = l * l + l + (l + 1) ∧
        (∀ (a : Fin r) (b : Fin c), col (forLoop (-l) (l + 1) (fun m st => body l m st) st) ≤ ((b : Nat) : Int) →
          mat (forLoop (-l) (l + 1) (fun m st => body l m st) st) a b = 0) ∧
        ∀ l' m', 0 ≤ l' → -l' ≤ m' → m' ≤ l' → (l' < l ∨ (l' = l ∧ m' < l + 1)) →
          ∀ (a : Fin r) (b : Fin c), ((b : Nat) : Int) = l' * l' + l' + m' →
            mat (forLoop (-l) (l + 1) (fun m st => body l m st) st) a b
              = F l' m' (l' * l' + l' + m') a b) := by
    intro l st hl h
    refine forLoop_invariant (fun m st =>
      col st = l * l + l + m ∧ (∀ (a : Fin r) (b : Fin c), col st ≤ ((b : Nat) : Int) → mat st a b = 0) ∧
        ∀ l' m', 0 ≤ l' → -l' ≤ m' → m' ≤ l' → (l' < l ∨ (l' = l ∧ m' < m)) →
          ∀ (a : Fin r) (b : Fin c), ((b : Nat) : Int) = l' * l' + l' + m' →
            mat st a b = F l' m' (l' * l' + l' + m') a b) (-l) (l + 1) (by omega) _ st h ?_
    rintro m st' hm1 hm2 ⟨h1, h2, h3⟩
    refine ⟨by rw [hcol, h1]; ring, ?_, ?_⟩
    · intro a b hb
      rw [hcol] at hb
      rw [hframe _ _ _ _ _ (by omega)]
      exact h2 a b (by omega)
    · intro l' m' hl' hm'1 hm'2 hlt a b hb
      by_cases hcase : l' = l ∧ m' = m
      · obtain ⟨rfl, rfl⟩ := hcase
        rw [hval l' m' st' b (by rw [hb, h1]) (fun a => h2 a b (by rw [hb, h1])) a, h1]
      · have hlt' : l' < l ∨ (l' = l ∧ m' < m) := by omega
        have hbc : ((b : Nat) : Int) < col st' := by
          rw [hb, h1]
          rcases hlt' with h | ⟨rfl, h⟩
          · exact index_lt_of_degree_lt hl' hm'2 h hm1
          · omega
        rw [hframe _ _ _ _ _ (by omega)]
        exact h3 l' m' hl' hm'1 hm'2 hlt' a b hb
  have outer := forLoop_invariant (fun l st =>
      col st = l * l + l + -l ∧ (∀ (a : Fin r) (b : Fin c), col st ≤ ((b : Nat) : Int) → mat st a b = 0) ∧
        ∀ l' m', 0 ≤ l' → -l' ≤ m' → m' ≤ l' → (l' < l ∨ (l' = l ∧ m' < -l)) →
          ∀ (a : Fin r) (b : Fin c), ((b : Nat) : Int) = l' * l' + l' + m' →
            mat st a b = F l' m' (l' * l' + l' + m') a b) 0 L hL
      (fun l st => forLoop (-l) (l + 1) (fun m st => body l m st) st) init
      ⟨by simpa using hcol0, fun a b _ => hmat0 a b, by
        intro l' m' h1 h2 h3 h4; omega⟩
      (by
        intro l st hl1 hl2 h
        obtain ⟨h1, h2, h3⟩ := inner l st hl1 h
        refine ⟨by rw [h1]; ring, h2, ?_⟩
        intro l' m' hl' hm'1 hm'2 hlt a b hb
        exact h3 l' m' hl' hm'1 hm'2 (by omega) a b hb)
  obtain ⟨h1, h2, h3⟩ := outer
  refine ⟨by rw [h1]; ring, ?_, ?_⟩
  · intro a b hb
    exact h2 a b (by rw [h1]; linarith)
  · intro l m hl1 hl2 hm1 hm2 a b hb
    exact h3 l m hl1 hm1 hm2 (Or.inl hl2) a b hb

/-! ## Sums against a column written by assignments -/

/-- Reading a vector through `vecCoeff` is the sum of its entries at the matching index. -/
theorem sum_ite_coe_eq {R : Type} [AddCommMonoid R] {r : Nat} (f : Fin r → R) (i : Int) :
    (∑ a : Fin r, if ((a : Nat) : Int) = i then f a else 0) = vecCoeff f i := by
  unfold vecCoeff
  split_ifs with h
  · rw [Finset.sum_eq_single (⟨i.toNat, h.2⟩ : Fin r)]
    · simp [Int.toNat_of_nonneg h.1]
    · intro a _ ha
      rw [if_neg]
      intro h'
      apply ha
      apply Fin.ext
      simp [← h']
    · simp
  · apply Finset.sum_eq_zero
    intro a _
    rw [if_neg]
    intro h'
    apply h
    subst h'
    exact ⟨by omega, by simp⟩

/-- The dot product of a vector with a column after one more assignment into a cell
that was zero. -/
theorem dot_assignCoeff {R : Type} [Semiring R] {r c : Nat} (v : Fin r → R)
    (M : Matrix (Fin r) (Fin c) R) (i n : Int) (x : R) (b : Fin c) (hb : ((b : Nat) : Int) = n)
    (hz : ∀ a : Fin r, ((a : Nat) : Int) = i → M a b = 0) :
    (∑ a : Fin r, v a * assignCoeff M i n x a b) = (∑ a : Fin r, v a * M a b) + vecCoeff v i * x := by
  rw [← sum_ite_coe_eq, Finset.sum_mul, ← Finset.sum_add_distrib]
  apply Finset.sum_congr rfl
  intro a _
  unfold assignCoeff
  by_cases h : ((a : Nat) : Int) = i
  · simp [h, hb, hz a h]
  · simp [h]

/-- The index `l^2 + l + m` of a pair of degree `l < L` is below `L^2`. -/
theorem index_lt_sq {l m L : Int} (hl : 0 ≤ l) (hL : l < L) (hm : m ≤ l) :
    l * l + l + m < L * L := by
  nlinarith [mul_nonneg (show (0 : Int) ≤ L - l - 1 by omega) (show (0 : Int) ≤ L + l + 1 by omega)]

/-! ## The columns of `A2InvFull` -/

/-- Column `l^2 + l + m` of the populated matrix is what the loop body writes at `(l, m)`
into a zero matrix. -/
theorem A2InvFull_col (R : Type) [Ring R] (ydeg : Nat) (l m : Int) (hl : 0 ≤ l)
    (hl2 : l < (ydeg : Int) + 2) (hm1 : -l ≤ m) (hm2 : m ≤ l)
    (a b : Fin (N2_of ydeg)) (hb : ((b : Nat) : Int) = l * l + l + m) :
    A2InvFull R ydeg a b =
      (computeA2_body l m ({ A2InvDense := 0, n := l * l + l + m, log := [] } : A2Loop R ydeg)).A2InvDense
        a b := by
  have h := nested_fill (fun st : A2Loop R ydeg => st.n) (fun st => st.A2InvDense)
    (fun l m st => computeA2_body l m st)
    (fun l m n a b =>
      (computeA2_body l m ({ A2InvDense := 0, n := n, log := [] } : A2Loop R ydeg)).A2InvDense a b)
    ((ydeg : Int) + 2) (by omega) { A2InvDense := 0, n := 0, log := [] } rfl (fun _ _ => rfl)
    (by intro l m st; simp only [computeA2_body]; split_ifs <;> rfl)
    (by
      intro l m st a b hb
      simp only [computeA2_body]
      split_ifs <;> simp [assignCoeff, hb])
    (by
      intro l m st b hb hz a
      have hz' : st.A2InvDense a b = 0 := hz a
      simp only [computeA2_body]
      split_ifs <;> simp [assignCoeff, hb, hz'])
  exact h.2.2 l m hl hl2 hm1 hm2 a b hb

/-! ## The column equations of a left null vector of `A2InvFull` -/

/-- A vector annihilated by `A2InvFull` from the left is orthogonal to every column,
and column `l^2 + l + m` is the one the loop body writes at `(l, m)`. -/
theorem col_equation {R : Type} [Ring R] (ydeg : Nat) (v : Fin (N2_of ydeg) → R)
    (hv : Matrix.vecMul v (A2InvFull R ydeg) = 0) (l m : Int) (hl : 0 ≤ l)
    (hl2 : l < (ydeg : Int) + 2) (hm1 : -l ≤ m) (hm2 : m ≤ l) :
    ∃ b : Fin (N2_of ydeg), ((b : Nat) : Int) = l * l + l + m ∧
      (∑ a : Fin (N2_of ydeg), v a *
        (computeA2_body l m
          ({ A2InvDense := 0, n := l * l + l + m, log := [] } : A2Loop R ydeg)).A2InvDense a b) = 0 := by
  have h0 : 0 ≤ l * l + l + m := by nlinarith
  have hlt : l * l + l + m < ((ydeg : Int) + 2) * ((ydeg : Int) + 2) := index_lt_sq hl hl2 hm2
  have hb' : (l * l + l + m).toNat < N2_of ydeg := by
    unfold N2_of
    zify
    rw [Int.toNat_of_nonneg h0]
    exact hlt
  refine ⟨⟨(l * l + l + m).toNat, hb'⟩, by simp [Int.toNat_of_nonneg h0], ?_⟩
  have h := congrFun hv ⟨(l * l + l + m).toNat, hb'⟩
  simp only [Matrix.vecMul, Matrix.dotProduct, Pi.zero_apply] at h
  rw [← h]
  apply Finset.sum_congr rfl
  intro a _
  rw [A2InvFull_col R ydeg l m hl hl2 hm1 hm2 a _ (by simp [Int.toNat_of_nonneg h0])]

/-- Column equation, `nu` even: the single diagonal entry `(mu + 2) / 2 = l - t + 1`,
where `nu = 2 t`. -/
theorem col_even {R : Type} [Ring R] (ydeg : Nat) (v : Fin (N2_of ydeg) → R)
    (hv : Matrix.vecMul v (A2InvFull R ydeg) = 0) (l t : Int) (hl2 : l < (ydeg : Int) + 2)
    (ht : 0 ≤ t) (htl : t ≤ l) :
    vecCoeff v (l * l + 2 * t) * ((l - t + 1 : Int) : R) = 0 := by
  obtain ⟨b, hb, h⟩ := col_equation ydeg v hv l (2 * t - l) (by omega) hl2 (by omega) (by omega)
  have e1 : (l + (2 * t - l)).tmod 2 = 0 := by
    rw [show l + (2 * t - l) = 2 * t by ring]; exact Int.mul_tmod_right 2 t
  have e2 : (l - (2 * t - l) + 2).tdiv 2 = l - t + 1 := by
    rw [show l - (2 * t - l) + 2 = 2 * (l - t + 1) by ring]
    exact Int.mul_tdiv_cancel_left _ (by norm_num)
  have e3 : l * l + l + (2 * t - l) = l * l + 2 * t := by ring
  simp only [computeA2_body, e1, if_true, e2, e3] at h
  rw [e3] at hb
  rw [dot_assignCoeff v _ _ _ _ b hb (fun _ _ => rfl)] at h
  simpa using h

/-- Truncated remainder of a nonnegative integer is the Euclidean one. -/
theorem tmod_two_of_nonneg {x : Int} (hx : 0 ≤ x) : x.tmod 2 = x % 2 :=
  Int.tmod_eq_emod hx (by norm_num)

/-- Column equation at `(l, m) = (1, 0)`: the diagonal entry `1`. -/
theorem col_z {R : Type} [Ring R] (ydeg : Nat) (v : Fin (N2_of ydeg) → R)
    (hv : Matrix.vecMul v (A2InvFull R ydeg) = 0) :
    vecCoeff v 2 = 0 := by
  obtain ⟨b, hb, h⟩ := col_equation ydeg v hv 1 0 (by omega) (by omega) (by omega) (by omega)
  have c1 : ¬ ((1 : Int) + 0).tmod 2 = 0 := by decide
  simp only [computeA2_body, c1, if_false, true_and, if_true] at h
  rw [dot_assignCoeff v _ _ _ _ b hb (fun _ _ => rfl)] at h
  simpa using h

/-- Column equation for `mu = 1`, `l` even: the single entry `3` in row `l^2 + 3`. -/
theorem col_mu1_even {R : Type} [Ring R] (ydeg : Nat) (v : Fin (N2_of ydeg) → R)
    (hv : Matrix.vecMul v (A2InvFull R ydeg) = 0) (l : Int) (hl : 1 ≤ l)
    (hl2 : l < (ydeg : Int) + 2) (hev : l % 2 = 0) :
    vecCoeff v (l * l + 3) * ((3 : Int) : R) = 0 := by
  obtain ⟨b, hb, h⟩ := col_equation ydeg v hv l (l - 1) (by omega) hl2 (by omega) (by omega)
  have c1 : ¬ (l + (l - 1)).tmod 2 = 0 := by rw [tmod_two_of_nonneg (by omega)]; omega
  have c2 : ¬ (l = 1 ∧ l - 1 = 0) := by omega
  have c3 : l - (l - 1) = 1 ∧ l.tmod 2 = 0 := ⟨by ring, by rw [tmod_two_of_nonneg (by omega)]; exact hev⟩
  simp only [computeA2_body, if_neg c1, if_neg c2, if_pos c3] at h
  rw [dot_assignCoeff v _ _ _ _ b hb (fun _ _ => rfl)] at h
  simpa using h

/-- Column equation for `mu = 1`, `l` odd, `l ≥ 3`: the entries `-1`, `1`, `4` in rows
`1 + (l - 2)^2`, `l^2 + 1`, `l^2 + 5`. -/
theorem col_mu1_odd {R : Type} [Ring R] (ydeg : Nat) (v : Fin (N2_of ydeg) → R)
    (hv : Matrix.vecMul v (A2InvFull R ydeg) = 0) (l : Int) (hl : 3 ≤ l)
    (hl2 : l < (ydeg : Int) + 2) (hodd : l % 2 = 1) :
    vecCoeff v (1 + (l - 2) * (l - 2)) * ((-1 : Int) : R) + vecCoeff v (l * l + 1) * ((1 : Int) : R)
      + vecCoeff v (l * l + 5) * ((4 : Int) : R) = 0 := by
  obtain ⟨b, hb, h⟩ := col_equation ydeg v hv l (l - 1) (by omega) hl2 (by omega) (by omega)
  have c1 : ¬ (l + (l - 1)).tmod 2 = 0 := by rw [tmod_two_of_nonneg (by omega)]; omega
  have c2 : ¬ (l = 1 ∧ l - 1 = 0) := by omega
  have c3 : ¬ (l - (l - 1) = 1 ∧ l.tmod 2 = 0) := by
    rw [tmod_two_of_nonneg (by omega)]; omega
  have c4 : l - (l - 1) = 1 ∧ l.tmod 2 = 1 := ⟨by ring, by rw [tmod_two_of_nonneg (by omega)]; exact hodd⟩
  simp only [computeA2_body, if_neg c1, if_neg c2, if_neg c3, if_pos c4] at h
  have d12 : (1 + (l - 2) * (l - 2) : Int) ≠ l * l + 1 := by
    intro e; have : (l - 2) * (l - 2) = l * l - 4 * l + 4 := by ring
    omega
  have d13 : (1 + (l - 2) * (l - 2) : Int) ≠ l * l + 5 := by
    intro e; have : (l - 2) * (l - 2) = l * l - 4 * l + 4 := by ring
    omega
  rw [dot_assignCoeff v _ _ _ _ b hb, dot_assignCoeff v _ _ _ _ b hb,
    dot_assignCoeff v _ _ _ _ b hb (fun _ _ => rfl)] at h
  · simpa using h
  · intro a ha
    simp only [assignCoeff, Matrix.zero_apply]
    rw [if_neg (by intro h'; omega)]
  · intro a ha
    simp only [assignCoeff, Matrix.zero_apply]
    rw [if_neg (by intro h'; omega), if_neg (by intro h'; omega)]

/-- Column equation for `mu = 3` (`nu = 2 l - 3`): the single diagonal entry `-3`. -/
theorem col_mu3 {R : Type} [Ring R] (ydeg : Nat) (v : Fin (N2_of ydeg) → R)
    (hv : Matrix.vecMul v (A2InvFull R ydeg) = 0) (l : Int) (hl : 2 ≤ l)
    (hl2 : l < (ydeg : Int) + 2) :
    vecCoeff v (l * l + (2 * l - 3)) * ((-3 : Int) : R) = 0 := by
  obtain ⟨b, hb, h⟩ := col_equation ydeg v hv l (l - 3) (by omega) hl2 (by omega) (by omega)
  have c1 : ¬ (l + (l - 3)).tmod 2 = 0 := by rw [tmod_two_of_nonneg (by omega)]; omega
  have c2 : ¬ (l = 1 ∧ l - 3 = 0) := by omega
  have c3 : ¬ (l - (l - 3) = 1 ∧ l.tmod 2 = 0) := by omega
  have c4 : ¬ (l - (l - 3) = 1 ∧ l.tmod 2 = 1) := by omega
  have c5 : ¬ (l - (l - 3) ≠ 3) := by omega
  have e1 : l + (l - 3) + ((l - (l - 3) + (l + (l - 3))) * (l - (l - 3) + (l + (l - 3)))).tdiv 4
      = l * l + (2 * l - 3) := by
    rw [show (l - (l - 3) + (l + (l - 3))) * (l - (l - 3) + (l + (l - 3))) = 4 * (l * l) by ring,
      Int.mul_tdiv_cancel_left _ (by norm_num)]
    ring
  have e2 : (-(l - (l - 3) + 3)).tdiv 2 = -3 := by
    rw [show -(l - (l - 3) + 3) = 2 * (-3) by ring]
    exact Int.mul_tdiv_cancel_left _ (by norm_num)
  simp only [computeA2_body, if_neg c1, if_neg c2, if_neg c3, if_neg c4, if_neg c5, e1, e2] at h
  rw [dot_assignCoeff v _ _ _ _ b hb (fun _ _ => rfl)] at h
  simpa using h

/-- Column equation for `nu = 2 t + 1` odd and `mu ≥ 5` (with `j = (mu - 3) / 2 = l - t - 2`):
the entries `j`, `-j`, `-(j + 3)` in rows `nu + (l - 2)^2`, `nu + 4 + l^2`, `nu + l^2`. -/
theorem col_mu5 {R : Type} [Ring R] (ydeg : Nat) (v : Fin (N2_of ydeg) → R)
    (hv : Matrix.vecMul v (A2InvFull R ydeg) = 0) (l t : Int) (ht : 0 ≤ t) (htl : t + 3 ≤ l)
    (hl2 : l < (ydeg : Int) + 2) :
    vecCoeff v ((l - 2) * (l - 2) + (2 * t + 1)) * ((l - t - 2 : Int) : R)
      + vecCoeff v (l * l + (2 * t + 5)) * ((-(l - t - 2) : Int) : R)
      + vecCoeff v (l * l + (2 * t + 1)) * ((-(l - t + 1) : Int) : R) = 0 := by
  obtain ⟨b, hb, h⟩ := col_equation ydeg v hv l (2 * t + 1 - l) (by omega) hl2 (by omega) (by omega)
  have c1 : ¬ (l + (2 * t + 1 - l)).tmod 2 = 0 := by rw [tmod_two_of_nonneg (by omega)]; omega
  have c2 : ¬ (l = 1 ∧ 2 * t + 1 - l = 0) := by omega
  have c3 : ¬ (l - (2 * t + 1 - l) = 1 ∧ l.tmod 2 = 0) := by omega
  have c4 : ¬ (l - (2 * t + 1 - l) = 1 ∧ l.tmod 2 = 1) := by omega
  have c5 : l - (2 * t + 1 - l) ≠ 3 := by omega
  have e1 : l + (2 * t + 1 - l)
      + ((l - (2 * t + 1 - l) - 4 + (l + (2 * t + 1 - l)))
          * (l - (2 * t + 1 - l) - 4 + (l + (2 * t + 1 - l)))).tdiv 4
      = (l - 2) * (l - 2) + (2 * t + 1) := by
    rw [show (l - (2 * t + 1 - l) - 4 + (l + (2 * t + 1 - l)))
          * (l - (2 * t + 1 - l) - 4 + (l + (2 * t + 1 - l))) = 4 * ((l - 2) * (l - 2)) by ring,
      Int.mul_tdiv_cancel_left _ (by norm_num)]
    ring
  have e0 : ((l - (2 * t + 1 - l) + (l + (2 * t + 1 - l)))
      * (l - (2 * t + 1 - l) + (l + (2 * t + 1 - l)))).tdiv 4 = l * l := by
    rw [show (l - (2 * t + 1 - l) + (l + (2 * t + 1 - l)))
          * (l - (2 * t + 1 - l) + (l + (2 * t + 1 - l))) = 4 * (l * l) by ring,
      Int.mul_tdiv_cancel_left _ (by norm_num)]
  have e2 : l + (2 * t + 1 - l) + 4 + l * l = l * l + (2 * t + 5) := by ring
  have e3 : l + (2 * t + 1 - l) + l * l = l * l + (2 * t + 1) := by ring
  have f1 : (l - (2 * t + 1 - l) - 3).tdiv 2 = l - t - 2 := by
    rw [show l - (2 * t + 1 - l) - 3 = 2 * (l - t - 2) by ring]
    exact Int.mul_tdiv_cancel_left _ (by norm_num)
  have f2 : (-(l - (2 * t + 1 - l) - 3)).tdiv 2 = -(l - t - 2) := by
    rw [show -(l - (2 * t + 1 - l) - 3) = 2 * (-(l - t - 2)) by ring]
    exact Int.mul_tdiv_cancel_left _ (by norm_num)
  have f3 : (-(l - (2 * t + 1 - l) + 3)).tdiv 2 = -(l - t + 1) := by
    rw [show -(l - (2 * t + 1 - l) + 3) = 2 * (-(l - t + 1)) by ring]
    exact Int.mul_tdiv_cancel_left _ (by norm_num)
  simp only [computeA2_body, if_neg c1, if_neg c2, if_neg c3, if_neg c4, if_pos c5, e1, e0, e2, e3,
    f1, f2, f3] at h
  have hsq : (l - 2) * (l - 2) = l * l - 4 * l + 4 := by ring
  rw [dot_assignCoeff v _ _ _ _ b hb, dot_assignCoeff v _ _ _ _ b hb,
    dot_assignCoeff v _ _ _ _ b hb (fun _ _ => rfl)] at h
  · simpa using h
  · intro a ha
    simp only [assignCoeff, Matrix.zero_apply]
    rw [if_neg (by intro h'; omega)]
  · intro a ha
    simp only [assignCoeff, Matrix.zero_apply]
    rw [if_neg (by intro h'; omega), if_neg (by intro h'; omega)]

/-! ## `A2InvFull` is nonsingular -/

/-- A left null vector of `A2InvFull` vanishes on every row `l^2 + nu`, by induction on
the degree `l`: the even rows by their diagonal entry, the odd rows by the two-step
recurrences that the columns with `mu ≥ 5` give inside a degree. -/
theorem null_vector_rows {R : Type} [Field R] [CharZero R] (ydeg : Nat)
    (v : Fin (N2_of ydeg) → R) (hv : Matrix.vecMul v (A2InvFull R ydeg) = 0) :
    ∀ (L : Nat) (l : Int), 0 ≤ l → l < L → l < (ydeg : Int) + 2 →
      ∀ nu : Int, 0 ≤ nu → nu ≤ 2 * l → vecCoeff v (l * l + nu) = 0 := by
  intro L
  induction L with
  | zero => intro l h0 h1; omega
  | succ L ih =>
    intro l hl0 hlL hl2 nu hnu0 hnu2
    by_cases hlt : l < (L : Int)
    · exact ih l hl0 hlt hl2 nu hnu0 hnu2
    have ih' : ∀ l' : Int, 0 ≤ l' → l' < l → ∀ nu : Int, 0 ≤ nu → nu ≤ 2 * l' →
        vecCoeff v (l' * l' + nu) = 0 := by
      intro l' h0 h1 nu' h2 h3
      exact ih l' h0 (by push_cast at hlL; omega) (by omega) nu' h2 h3
    rcases Int.emod_two_eq_zero_or_one nu with hev | hodd
    · -- even row
      obtain ⟨t, rfl⟩ : ∃ t, nu = 2 * t := ⟨nu / 2, by omega⟩
      have h := col_even ydeg v hv l t hl2 (by omega) (by omega)
      rcases mul_eq_zero.1 h with h | h
      · exact h
      · exact absurd h (Int.cast_ne_zero.2 (by omega))
    -- odd row `nu = 2 t + 1`
    obtain ⟨t, rfl⟩ : ∃ t, nu = 2 * t + 1 := ⟨nu / 2, by omega⟩
    have rec : ∀ t : Int, 0 ≤ t → t + 3 ≤ l →
        ((l - t - 2 : Int) : R) * vecCoeff v (l * l + (2 * (t + 2) + 1))
          + ((l - t + 1 : Int) : R) * vecCoeff v (l * l + (2 * t + 1)) = 0 := by
      intro t ht0 ht3
      have h := col_mu5 ydeg v hv l t ht0 ht3 hl2
      rw [ih' (l - 2) (by omega) (by omega) (2 * t + 1) (by omega) (by omega)] at h
      rw [show l * l + (2 * (t + 2) + 1) = l * l + (2 * t + 5) by ring]
      push_cast at h ⊢
      linear_combination -h
    have desc : ∀ s : Nat, 0 ≤ l - 2 - 2 * (s : Int) →
        vecCoeff v (l * l + (2 * (l - 2 - 2 * (s : Int)) + 1)) = 0 := by
      intro s
      induction s with
      | zero =>
        intro hs
        have h := col_mu3 ydeg v hv l (by push_cast at hs; omega) hl2
        rw [show l * l + (2 * (l - 2 - 2 * ((0 : Nat) : Int)) + 1) = l * l + (2 * l - 3) by
          push_cast; ring]
        rcases mul_eq_zero.1 h with h | h
        · exact h
        · exact absurd h (Int.cast_ne_zero.2 (by norm_num))
      | succ s ihs =>
        intro hs
        push_cast at hs
        have h := rec (l - 2 - 2 * ((s + 1 : Nat) : Int)) (by push_cast; omega) (by push_cast; omega)
        rw [show l - 2 - 2 * ((s + 1 : Nat) : Int) + 2 = l - 2 - 2 * (s : Int) by push_cast; ring,
          ihs (by omega), mul_zero, zero_add] at h
        rcases mul_eq_zero.1 h with h | h
        · exact absurd h (Int.cast_ne_zero.2 (by push_cast; omega))
        · exact h
    have asc : ∀ t0 : Int, 0 ≤ t0 → vecCoeff v (l * l + (2 * t0 + 1)) = 0 →
        ∀ s : Nat, t0 + 2 * (s : Int) ≤ l - 1 →
          vecCoeff v (l * l + (2 * (t0 + 2 * (s : Int)) + 1)) = 0 := by
      intro t0 ht0 h0 s
      induction s with
      | zero => intro _; simpa using h0
      | succ s ihs =>
        intro hs
        push_cast at hs
        have h := rec (t0 + 2 * (s : Int)) (by omega) (by omega)
        rw [ihs (by omega), mul_zero, add_zero] at h
        rw [show t0 + 2 * ((s + 1 : Nat) : Int) = t0 + 2 * (s : Int) + 2 by push_cast; ring]
        rcases mul_eq_zero.1 h with h | h
        · exact absurd h (Int.cast_ne_zero.2 (by omega))
        · exact h
    by_cases hpar : (l - t) % 2 = 0
    · -- same parity as `l - 2`: descend from the column with `mu = 3`
      have h := desc ((l - 2 - t) / 2).toNat (by omega)
      rwa [show l - 2 - 2 * (((l - 2 - t) / 2).toNat : Int) = t by omega] at h
    · -- the other parity: ascend from the column with `mu = 1`
      rcases Int.emod_two_eq_zero_or_one l with hle | hlo
      · -- `l` even, start at `t0 = 1`
        have h3 := col_mu1_even ydeg v hv l (by omega) hl2 hle
        have h1 : vecCoeff v (l * l + (2 * 1 + 1)) = 0 := by
          rcases mul_eq_zero.1 h3 with h | h
          · simpa using h
          · exact absurd h (Int.cast_ne_zero.2 (by norm_num))
        have h := asc 1 (by norm_num) h1 ((t - 1) / 2).toNat (by omega)
        rwa [show (1 : Int) + 2 * (((t - 1) / 2).toNat : Int) = t by omega] at h
      · -- `l` odd, start at `t0 = 0`
        have h0 : vecCoeff v (l * l + (2 * 0 + 1)) = 0 := by
          by_cases hl1 : l = 1
          · subst hl1
            simpa using col_z ydeg v hv
          · have h4 := col_mu1_odd ydeg v hv l (by omega) hl2 hlo
            rw [show (1 : Int) + (l - 2) * (l - 2) = (l - 2) * (l - 2) + 1 by ring,
              ih' (l - 2) (by omega) (by omega) 1 (by omega) (by omega)] at h4
            have h5 := rec 0 le_rfl (by omega)
            rw [show l * l + (2 * ((0 : Int) + 2) + 1) = l * l + 5 by ring,
              show l * l + (2 * (0 : Int) + 1) = l * l + 1 by ring] at h5
            push_cast at h4 h5
            have h6 : ((3 : R) * (l : R) + 6) * vecCoeff v (l * l + 5) = 0 := by
              linear_combination (-(1 : R)) * h5 + ((l : R) + 1) * h4
            have h7 : vecCoeff v (l * l + 5) = 0 := by
              rcases mul_eq_zero.1 h6 with h | h
              · exfalso
                have : ((3 * l + 6 : Int) : R) = 0 := by push_cast; exact h
                exact absurd this (Int.cast_ne_zero.2 (by omega))
              · exact h
            rw [h7] at h4
            rw [show l * l + (2 * (0 : Int) + 1) = l * l + 1 by ring]
            simpa using h4
        have h := asc 0 le_rfl h0 (t / 2).toNat (by omega)
        rwa [show (0 : Int) + 2 * ((t / 2).toNat : Int) = t by omega] at h

/-- A left null vector of `A2InvFull` is zero. -/
theorem null_vector_eq_zero {R : Type} [Field R] [CharZero R] (ydeg : Nat)
    (v : Fin (N2_of ydeg) → R) (hv : Matrix.vecMul v (A2InvFull R ydeg) = 0) : v = 0 := by
  funext a
  have ha : (a : Nat) < (ydeg + 2) * (ydeg + 2) := a.2
  have h1 : Nat.sqrt a * Nat.sqrt a ≤ a := Nat.sqrt_le a
  have h2 : (a : Nat) < (Nat.sqrt a + 1) * (Nat.sqrt a + 1) := Nat.lt_succ_sqrt a
  have h3 : Nat.sqrt a < ydeg + 2 := by
    by_contra hc
    have : (ydeg + 2) * (ydeg + 2) ≤ Nat.sqrt a * Nat.sqrt a := Nat.mul_le_mul (by omega) (by omega)
    omega
  have h := null_vector_rows ydeg v hv (Nat.sqrt a + 1) (Nat.sqrt a) (by omega) (by push_cast; omega)
    (by omega) (((a : Nat) : Int) - (Nat.sqrt a : Int) * (Nat.sqrt a : Int))
    (by zify at h1; omega) (by zify at h2; nlinarith)
  rw [show ((Nat.sqrt a : Int)) * (Nat.sqrt a : Int)
      + ((((a : Nat) : Int)) - (Nat.sqrt a : Int) * (Nat.sqrt a : Int)) = ((a : Nat) : Int) by ring] at h
  simpa [vecCoeff] using h

/-- The determinant of `A2InvFull` is nonzero over every field of characteristic zero. -/
theorem A2InvFull_det_ne_zero (R : Type) [Field R] [CharZero R] (ydeg : Nat) :
    (A2InvFull R ydeg).det ≠ 0 := by
  intro h
  obtain ⟨v, hv0, hv⟩ := Matrix.exists_vecMul_eq_zero_iff.2 h
  exact hv0 (null_vector_eq_zero ydeg v hv)

/-! ## The result of `computeA2` -/

/-- The method `computeA2` does not throw: it stores the inverse of `A2InvFull` in `A2`
and the leading `N1 x N1` block of `A2InvFull` in `A2Inv`. -/
theorem computeA2_eq (R : Type) [Field R] [CharZero R] [DecidableEq R] (ydeg : Nat) :
    computeA2 R ydeg =
      .ok ((A2InvFull R ydeg)⁻¹, (A2InvFull R ydeg).submatrix (leading ydeg) (leading ydeg)) := by
  have h := A2InvFull_det_ne_zero R ydeg
  have e : (A2InvFull R ydeg)⁻¹ = (A2InvFull R ydeg).det⁻¹ • (A2InvFull R ydeg).adjugate := by
    rw [Matrix.inv_def, Ring.inverse_eq_inv']
  rw [e]
  unfold A2InvFull at h ⊢
  simp only [computeA2, SparseLU.compute, decide_eq_false_iff_not, not_not, ne_eq, if_neg h,
    mul_one]

/-- The inverse stored in `A2` is two-sided. -/
theorem A2InvFull_inv_mul (R : Type) [Field R] [CharZero R] (ydeg : Nat) :
    (A2InvFull R ydeg)⁻¹ * A2InvFull R ydeg = 1 ∧ A2InvFull R ydeg * (A2InvFull R ydeg)⁻¹ = 1 := by
  have h : IsUnit (A2InvFull R ydeg).det := isUnit_iff_ne_zero.2 (A2InvFull_det_ne_zero R ydeg)
  exact ⟨Matrix.nonsing_inv_mul _ h, Matrix.mul_nonsing_inv _ h⟩

/-! ## The columns of the illumination matrix -/

/-- The four iterations of the inner loops of `computeI`, spelled out. -/
theorem computeI_body_eq {R : Type} [Field R] {ydeg : Nat} (p : Fin 4 → R) (l1 m1 : Int)
    (st : ILoop R ydeg) :
    computeI_body p l1 m1 st =
      let odd1 : Bool := if is_even (l1 + m1) then false else true
      let s0 : ILoop R ydeg := { st with n2 := 0 }
      let s1 := computeI_inner p l1 m1 odd1 0 0 s0
      let s2 := computeI_inner p l1 m1 odd1 1 (-1) s1
      let s3 := computeI_inner p l1 m1 odd1 1 0 s2
      let s4 := computeI_inner p l1 m1 odd1 1 1 s3
      { s4 with n1 := s4.n1 + 1 } := by
  rfl

/-- The entries of a matrix after `M(i, j) += x`. -/
theorem addCoeff_apply {R : Type} [AddMonoid R] {r c : Nat} (M : Matrix (Fin r) (Fin c) R)
    (i j : Int) (x : R) (a : Fin r) (b : Fin c) :
    addCoeff M i j x a b = M a b + if ((a : Nat) : Int) = i ∧ ((b : Nat) : Int) = j then x else 0 := by
  unfold addCoeff
  split_ifs <;> simp

/-- The entries of a matrix after `M(i, j) -= x`. -/
theorem subCoeff_apply {R : Type} [AddGroup R] {r c : Nat} (M : Matrix (Fin r) (Fin c) R)
    (i j : Int) (x : R) (a : Fin r) (b : Fin c) :
    subCoeff M i j x a b = M a b - if ((a : Nat) : Int) = i ∧ ((b : Nat) : Int) = j then x else 0 := by
  unfold subCoeff
  split_ifs <;> simp

/-- The counter `n1` after one iteration of the outer loops of `computeI`. -/
theorem computeI_body_n1 {R : Type} [Field R] {ydeg : Nat} (p : Fin 4 → R) (l1 m1 : Int)
    (st : ILoop R ydeg) : (computeI_body p l1 m1 st).n1 = st.n1 + 1 := by
  rw [computeI_body_eq]
  simp only [computeI_inner]
  split_ifs <;> rfl

/-- The entries of `I` after one iteration of the outer loops of `computeI`: only the
column `n1` changes, by the four dipole contributions. -/
theorem computeI_body_I {R : Type} [Field R] {ydeg : Nat} (p : Fin 4 → R) (l1 m1 : Int)
    (st : ILoop R ydeg) (a : Fin (N2_of ydeg)) (b : Fin (N1_of ydeg)) :
    (computeI_body p l1 m1 st).I a b =
      st.I a b +
        (if ((b : Nat) : Int) = st.n1 then
          (if ((a : Nat) : Int) = l1 * l1 + l1 + m1 then p 0 else 0)
          + (if ((a : Nat) : Int) = (l1 + 1) * (l1 + 1) + (l1 + 1) + m1 + -1 then p 1 else 0)
          + (if (l1 + m1).tmod 2 = 0 then
              (if ((a : Nat) : Int) = (l1 + 1) * (l1 + 1) + (l1 + 1) + m1 + 0 then p 2 else 0)
            else
              (if ((a : Nat) : Int) = (l1 + 1) * (l1 + 1) + (l1 + 1) + m1 + 0 - 4 * (l1 + 1) + 2
                then p 2 else 0)
              - (if ((a : Nat) : Int) = (l1 + 1) * (l1 + 1) + (l1 + 1) + m1 + 0 - 2 then p 2 else 0)
              - (if ((a : Nat) : Int) = (l1 + 1) * (l1 + 1) + (l1 + 1) + m1 + 0 + 2 then p 2 else 0))
          + (if ((a : Nat) : Int) = (l1 + 1) * (l1 + 1) + (l1 + 1) + m1 + 1 then p 3 else 0)
        else 0) := by
  have v0 : vecCoeff p 0 = p 0 := rfl
  have v1 : vecCoeff p (0 + 1) = p 1 := rfl
  have v2 : vecCoeff p (0 + 1 + 1) = p 2 := rfl
  have v3 : vecCoeff p (0 + 1 + 1 + 1) = p 3 := rfl
  have e0 : is_even (0 + 0) = true := rfl
  have e1 : is_even (1 + -1) = true := rfl
  have e2 : is_even (1 + 0) = false := rfl
  have e3 : is_even (1 + 1) = true := rfl
  have e0' : is_even 0 = true := rfl
  have e2' : is_even 1 = false := rfl
  rw [computeI_body_eq]
  by_cases hpar : (l1 + m1).tmod 2 = 0
  · have ho : (if is_even (l1 + m1) then false else true) = false := by simp [is_even, hpar]
    simp only [ho, computeI_inner, e0, e1, e2, e3, Bool.not_true, Bool.not_false, Bool.and_false,
      Bool.false_and, Bool.false_eq_true, if_false, addCoeff_apply, subCoeff_apply, v0, v1, v2, v3,
      add_zero, if_pos hpar]
    by_cases hb : ((b : Nat) : Int) = st.n1
    · simp only [hb, and_true, if_true, sub_eq_add_neg]
      ring
    · simp only [hb, and_false, if_false, add_zero]
  · have ho : (if is_even (l1 + m1) then false else true) = true := by simp [is_even, hpar]
    simp only [ho, computeI_inner, e0, e1, e2, e3, e0', e2', Bool.not_true, Bool.not_false,
      Bool.and_false, Bool.true_and, Bool.and_self, Bool.false_eq_true, if_false, if_true, addCoeff_apply, subCoeff_apply, v0, v1,
      v2, v3, add_zero, if_neg hpar]
    by_cases hb : ((b : Nat) : Int) = st.n1
    · simp only [hb, and_true, if_true, sub_eq_add_neg]
      ring
    · simp only [hb, and_false, if_false, add_zero, sub_zero]

/-- Column `l1^2 + l1 + m1` of the matrix left by the loops of `computeI`: the four
dipole contributions of the pair `(l1, m1)`. -/
theorem computeI_loop_col {R : Type} [Field R] (ydeg : Nat) (p : Fin 4 → R) (l1 m1 : Int)
    (hl : 0 ≤ l1) (hl2 : l1 < (ydeg : Int) + 1) (hm1 : -l1 ≤ m1) (hm2 : m1 ≤ l1)
    (a : Fin (N2_of ydeg)) (b : Fin (N1_of ydeg)) (hb : ((b : Nat) : Int) = l1 * l1 + l1 + m1) :
    (computeI_loop ydeg p).I a b =
      (if ((a : Nat) : Int) = l1 * l1 + l1 + m1 then p 0 else 0)
      + (if ((a : Nat) : Int) = (l1 + 1) * (l1 + 1) + (l1 + 1) + m1 + -1 then p 1 else 0)
      + (if (l1 + m1).tmod 2 = 0 then
          (if ((a : Nat) : Int) = (l1 + 1) * (l1 + 1) + (l1 + 1) + m1 + 0 then p 2 else 0)
        else
          (if ((a : Nat) : Int) = (l1 + 1) * (l1 + 1) + (l1 + 1) + m1 + 0 - 4 * (l1 + 1) + 2
            then p 2 else 0)
          - (if ((a : Nat) : Int) = (l1 + 1) * (l1 + 1) + (l1 + 1) + m1 + 0 - 2 then p 2 else 0)
          - (if ((a : Nat) : Int) = (l1 + 1) * (l1 + 1) + (l1 + 1) + m1 + 0 + 2 then p 2 else 0))
      + (if ((a : Nat) : Int) = (l1 + 1) * (l1 + 1) + (l1 + 1) + m1 + 1 then p 3 else 0) := by
  have h := nested_fill (fun st : ILoop R ydeg => st.n1) (fun st => st.I)
    (fun l m st => computeI_body p l m st)
    (fun l1 m1 _ a _ =>
      (if ((a : Nat) : Int) = l1 * l1 + l1 + m1 then p 0 else 0)
      + (if ((a : Nat) : Int) = (l1 + 1) * (l1 + 1) + (l1 + 1) + m1 + -1 then p 1 else 0)
      + (if (l1 + m1).tmod 2 = 0 then
          (if ((a : Nat) : Int) = (l1 + 1) * (l1 + 1) + (l1 + 1) + m1 + 0 then p 2 else 0)
        else
          (if ((a : Nat) : Int) = (l1 + 1) * (l1 + 1) + (l1 + 1) + m1 + 0 - 4 * (l1 + 1) + 2
            then p 2 else 0)
          - (if ((a : Nat) : Int) = (l1 + 1) * (l1 + 1) + (l1 + 1) + m1 + 0 - 2 then p 2 else 0)
          - (if ((a : Nat) : Int) = (l1 + 1) * (l1 + 1) + (l1 + 1) + m1 + 0 + 2 then p 2 else 0))
      + (if ((a : Nat) : Int) = (l1 + 1) * (l1 + 1) + (l1 + 1) + m1 + 1 then p 3 else 0))
    ((ydeg : Int) + 1) (by omega) { I := 0, n1 := 0, n2 := 0, log := [] } rfl (fun _ _ => rfl)
    (fun l m st => computeI_body_n1 p l m st)
    (by
      intro l m st a b hb
      show (computeI_body p l m st).I a b = st.I a b
      rw [computeI_body_I, if_neg hb, add_zero])
    (by
      intro l m st b hb hz a
      show (computeI_body p l m st).I a b = _
      rw [computeI_body_I, if_pos hb, show st.I a b = 0 from hz a, zero_add])
  exact h.2.2 l1 m1 hl hl2 hm1 hm2 a b hb

/-! ## Monomials -/

/-- The monomial of index `l^2 + nu`, `nu ≤ 2 l`. -/
theorem monomial_index {R : Type} [Monoid R] (X Y Z : R) (l nu : Nat) (h : nu ≤ l + l) :
    monomial X Y Z (l * l + nu) =
      if nu % 2 = 0 then X ^ ((2 * l - nu) / 2) * Y ^ (nu / 2)
      else X ^ ((2 * l - nu - 1) / 2) * Y ^ ((nu - 1) / 2) * Z := by
  unfold monomial
  simp only [Nat.sqrt_add_eq l h, Nat.add_sub_cancel_left]

/-- Reading the vector of monomials at the row `l^2 + nu` of the degree-`ydeg + 1`
basis. -/
theorem vecCoeff_monomial {R : Type} [MonoidWithZero R] (X Y Z : R) (ydeg : Nat) (l nu : Nat)
    (hl : l < ydeg + 2) (h : nu ≤ l + l) (i : Int) (hi : i = (l : Int) * l + nu) :
    vecCoeff (fun a : Fin (N2_of ydeg) => monomial X Y Z a) i = monomial X Y Z (l * l + nu) := by
  have hlt : l * l + nu < N2_of ydeg := by
    unfold N2_of
    have : (l + 1) * (l + 1) ≤ (ydeg + 2) * (ydeg + 2) := Nat.mul_le_mul (by omega) (by omega)
    nlinarith
  subst hi
  have e : ((l : Int) * l + nu).toNat = l * l + nu := by
    rw [show ((l : Int) * l + nu) = ((l * l + nu : Nat) : Int) by push_cast; ring, Int.toNat_ofNat]
  unfold vecCoeff
  rw [dif_pos ⟨by positivity, by rw [e]; exact hlt⟩]
  simp only [e]

/-- The monomial of index `l^2 + 2 t` is `X^(l - t) Y^t`. -/
theorem monomial_even {R : Type} [Monoid R] (X Y Z : R) (l t : Nat) (h : t ≤ l) :
    monomial X Y Z (l * l + 2 * t) = X ^ (l - t) * Y ^ t := by
  rw [monomial_index X Y Z l (2 * t) (by omega), if_pos (by omega)]
  congr 2 <;> omega

/-- The monomial of index `l^2 + 2 t + 1` is `X^(l - t - 1) Y^t Z`. -/
theorem monomial_odd {R : Type} [Monoid R] (X Y Z : R) (l t : Nat) (h : t + 1 ≤ l) :
    monomial X Y Z (l * l + (2 * t + 1)) = X ^ (l - t - 1) * Y ^ t * Z := by
  rw [monomial_index X Y Z l (2 * t + 1) (by omega), if_neg (by omega)]
  congr 3 <;> omega

/-- The sum of the monomials against a single matrix entry. -/
theorem sum_ite_mul {R : Type} [Semiring R] {r : Nat} (g : Fin r → R) (i : Int) (x : R) :
    (∑ a : Fin r, (if ((a : Nat) : Int) = i then x else 0) * g a) = x * vecCoeff g i := by
  rw [← sum_ite_coe_eq, Finset.mul_sum]
  apply Finset.sum_congr rfl
  intro a _
  split_ifs <;> simp

/-- Column `k^2 + nu1` of the matrix left by the loops of `computeI`, paired with the
monomials of degree up to `ydeg + 1`, is the product of the monomial `k^2 + nu1` with
`p(0) + p(1) X + p(2) Z + p(3) Y`, on the unit sphere. -/
theorem computeI_loop_monomial {R : Type} [Field R] (ydeg : Nat) (p : Fin 4 → R) (X Y Z : R)
    (hXYZ : X ^ 2 + Y ^ 2 + Z ^ 2 = 1) (k nu1 : Nat) (hk : k ≤ ydeg) (hnu : nu1 ≤ 2 * k)
    (b : Fin (N1_of ydeg)) (hb : (b : Nat) = k * k + nu1) :
    (∑ a : Fin (N2_of ydeg), (computeI_loop ydeg p).I a b * monomial X Y Z a) =
      (p 0 + p 1 * X + p 2 * Z + p 3 * Y) * monomial X Y Z b := by
  have hb' : ((b : Nat) : Int) = (k : Int) * k + k + ((nu1 : Int) - k) := by
    rw [hb]; push_cast; ring
  have hcol := fun a => computeI_loop_col ydeg p (k : Int) ((nu1 : Int) - k) (by omega) (by omega)
    (by omega) (by omega) a b hb'
  simp only [hcol]
  have hpar : ((k : Int) + ((nu1 : Int) - k)).tmod 2 = 0 ↔ nu1 % 2 = 0 := by
    rw [show (k : Int) + ((nu1 : Int) - k) = (nu1 : Int) by ring, tmod_two_of_nonneg (by omega)]
    omega
  rw [hb]
  rcases Nat.even_or_odd' nu1 with ⟨t, rfl | rfl⟩
  · -- `nu1 = 2 t`
    simp only [if_pos (hpar.2 (by omega)), add_mul, Finset.sum_add_distrib, sum_ite_mul]
    rw [vecCoeff_monomial X Y Z ydeg k (2 * t) (by omega) (by omega) _ (by push_cast; ring),
      vecCoeff_monomial X Y Z ydeg (k + 1) (2 * t) (by omega) (by omega) _ (by push_cast; ring),
      vecCoeff_monomial X Y Z ydeg (k + 1) (2 * t + 1) (by omega) (by omega) _ (by push_cast; ring),
      vecCoeff_monomial X Y Z ydeg (k + 1) (2 * (t + 1)) (by omega) (by omega) _
        (by push_cast; ring),
      monomial_even X Y Z k t (by omega), monomial_even X Y Z (k + 1) t (by omega),
      monomial_odd X Y Z (k + 1) t (by omega), monomial_even X Y Z (k + 1) (t + 1) (by omega)]
    obtain ⟨d, rfl⟩ : ∃ d, k = t + d := ⟨k - t, by omega⟩
    rw [show t + d - t = d by omega, show t + d + 1 - t - 1 = d by omega,
      show t + d + 1 - t = d + 1 by omega, show t + d + 1 - (t + 1) = d by omega]
    ring
  · -- `nu1 = 2 t + 1`
    have hodd : ¬ ((k : Int) + (((2 * t + 1 : Nat) : Int) - k)).tmod 2 = 0 := fun h => by
      have := hpar.1 h; omega
    simp only [if_neg hodd, add_mul, sub_mul, Finset.sum_add_distrib, Finset.sum_sub_distrib,
      sum_ite_mul]
    obtain ⟨d, rfl⟩ : ∃ d, k = t + 1 + d := ⟨k - t - 1, by omega⟩
    rw [vecCoeff_monomial X Y Z ydeg (t + 1 + d) (2 * t + 1) (by omega) (by omega) _
        (by push_cast; ring),
      vecCoeff_monomial X Y Z ydeg (t + 1 + d + 1) (2 * t + 1) (by omega) (by omega) _
        (by push_cast; ring),
      vecCoeff_monomial X Y Z ydeg (t + d) (2 * t) (by omega) (by omega) _ (by push_cast; ring),
      vecCoeff_monomial X Y Z ydeg (t + 1 + d + 1) (2 * t) (by omega) (by omega) _
        (by push_cast; ring),
      vecCoeff_monomial X Y Z ydeg (t + 1 + d + 1) (2 * (t + 2)) (by omega) (by omega) _
        (by push_cast; ring),
      vecCoeff_monomial X Y Z ydeg (t + 1 + d + 1) (2 * (t + 1) + 1) (by omega) (by omega) _
        (by push_cast; ring),
      monomial_odd X Y Z (t + 1 + d) t (by omega), monomial_odd X Y Z (t + 1 + d + 1) t (by omega),
      monomial_even X Y Z (t + d) t (by omega), monomial_even X Y Z (t + 1 + d + 1) t (by omega),
      monomial_even X Y Z (t + 1 + d + 1) (t + 2) (by omega),
      monomial_odd X Y Z (t + 1 + d + 1) (t + 1) (by omega)]
    rw [show t + 1 + d + 1 - (t + 1) - 1 = d by omega, show t + 1 + d + 1 - t - 1 = d + 1 by omega,
      show t + 1 + d - t - 1 = d by omega, show t + 1 + d + 1 - t = d + 2 by omega,
      show t + 1 + d + 1 - (t + 2) = d by omega, show t + d - t = d by omega]
    linear_combination (-(p 2 * X ^ d * Y ^ t)) * hXYZ

/-! ## The solver object: construction and `compute` -/

/-- The product of a row vector of matching size with a matrix. -/
theorem RowVector.mul_mk {R : Type} [Semiring R] {r c : Nat} (v : Fin r → R)
    (M : Matrix (Fin r) (Fin c) R) :
    RowVector.mul { size := r, coeff := v } M = { size := c, coeff := Matrix.vecMul v M } := by
  unfold RowVector.mul
  rw [dif_pos rfl]
  rfl

/-- The constructor does not throw, and builds this object. -/
theorem construct_eq (R : Type) [Field R] [CharZero R] [DecidableEq R] (deg : Nat)
    (u : Uninit R deg) :
    Occultation.construct deg u = .ok
      { ydeg := (deg : Int)
        N2 := ((deg : Int) + 2) * ((deg : Int) + 2)
        N1 := ((deg : Int) + 1) * ((deg : Int) + 1)
        A2 := (A2InvFull R deg)⁻¹
        A2Inv := (A2InvFull R deg).submatrix (leading deg) (leading deg)
        I := u.I
        kappa := []
        lam := []
        xi := []
        PIntegral := u.PIntegral
        QIntegral := u.QIntegral
        TIntegral := u.TIntegral
        costheta := u.costheta
        sintheta := u.sintheta
        code := u.code
        sT := { size := N2_of deg, coeff := u.sT } } := by
  unfold Occultation.construct
  rw [computeA2_eq]

/-- The run of `compute` when the classifier raises: the error is passed on and the
object is left as it was. -/
theorem compute_angles_error {R : Type} [Field R] {deg : Nat} (fns : ScalarFns R)
    (codes : FluxCodes) (ext : Externals R deg) (b theta bo ro : R) (s : Occultation R deg)
    (e : String) (hg : ext.get_angles b theta s.costheta s.sintheta bo ro = .error e) :
    Occultation.compute fns codes ext b theta bo ro s = (.error e, s) := by
  unfold Occultation.compute
  rw [hg]

/-- The run of `compute` on one of the four simple status codes. -/
theorem compute_simple {R : Type} [Field R] {deg : Nat} (fns : ScalarFns R)
    (codes : FluxCodes) (ext : Externals R deg) (b theta bo ro : R) (s : Occultation R deg)
    (g : Angles R) (hg : ext.get_angles b theta s.costheta s.sintheta bo ro = .ok g)
    (hcode : g.code = codes.FLUX_ZERO ∨ g.code = codes.FLUX_SIMPLE_OCC ∨
      g.code = codes.FLUX_SIMPLE_REFL ∨ g.code = codes.FLUX_SIMPLE_OCC_REFL) :
    Occultation.compute fns codes ext b theta bo ro s =
      (.ok (), { s with code := g.code, costheta := g.costheta, sintheta := g.sintheta,
                        kappa := g.kappa, lam := g.lam, xi := g.xi,
                        sT := { size := s.N2.toNat, coeff := 0 } }) := by
  unfold Occultation.compute
  rw [hg]
  have hn : ¬ (g.code ≠ codes.FLUX_ZERO ∧ g.code ≠ codes.FLUX_SIMPLE_OCC ∧
      g.code ≠ codes.FLUX_SIMPLE_REFL ∧ g.code ≠ codes.FLUX_SIMPLE_OCC_REFL) := by omega
  simp only
  rw [if_neg hn]

/-- The run of `compute` on any other status code, when the three integral routines
return. -/
theorem compute_general {R : Type} [Field R] {deg : Nat} (fns : ScalarFns R)
    (codes : FluxCodes) (ext : Externals R deg) (b theta bo ro : R) (s : Occultation R deg)
    (g : Angles R) (hg : ext.get_angles b theta s.costheta s.sintheta bo ro = .ok g)
    (hcode : g.code ≠ codes.FLUX_ZERO ∧ g.code ≠ codes.FLUX_SIMPLE_OCC ∧
      g.code ≠ codes.FLUX_SIMPLE_REFL ∧ g.code ≠ codes.FLUX_SIMPLE_OCC_REFL)
    (P Q T : Fin (N2_of deg) → R) (hP : ext.computeP (s.ydeg + 1) bo ro g.kappa = .ok P)
    (hQ : ext.computeQ (s.ydeg + 1) g.lam = .ok Q)
    (hT : ext.computeT (s.ydeg + 1) b theta g.xi = .ok T) :
    Occultation.compute fns codes ext b theta bo ro s =
      (.ok (), { s with code := g.code, costheta := fns.cos theta, sintheta := fns.sin theta,
                        kappa := g.kappa, lam := g.lam, xi := g.xi,
                        PIntegral := P, QIntegral := Q, TIntegral := T,
                        I := computeI fns deg b theta s.I,
                        sT := { size := N1_of deg,
                                coeff := Matrix.vecMul
                                  (Matrix.vecMul (Matrix.vecMul (P + Q + T) s.A2)
                                    (computeI fns deg b theta s.I)) s.A2Inv } }) := by
  unfold Occultation.compute
  rw [hg]
  simp only
  rw [if_pos hcode, hP]
  simp only
  rw [hQ]
  simp only
  rw [hT]
  simp only [RowVector.mul_mk]

/-- The run of `compute` when `computeP` raises: the error is passed on, with `sT` not
yet written. -/
theorem compute_P_error {R : Type} [Field R] {deg : Nat} (fns : ScalarFns R)
    (codes : FluxCodes) (ext : Externals R deg) (b theta bo ro : R) (s : Occultation R deg)
    (g : Angles R) (hg : ext.get_angles b theta s.costheta s.sintheta bo ro = .ok g)
    (hcode : g.code ≠ codes.FLUX_ZERO ∧ g.code ≠ codes.FLUX_SIMPLE_OCC ∧
      g.code ≠ codes.FLUX_SIMPLE_REFL ∧ g.code ≠ codes.FLUX_SIMPLE_OCC_REFL)
    (e : String) (hP : ext.computeP (s.ydeg + 1) bo ro g.kappa = .error e) :
    Occultation.compute fns codes ext b theta bo ro s =
      (.error e, { s with code := g.code, costheta := fns.cos theta, sintheta := fns.sin theta,
                          kappa := g.kappa, lam := g.lam, xi := g.xi }) := by
  unfold Occultation.compute
  rw [hg]
  simp only
  rw [if_pos hcode, hP]

/-- The run of `compute` when `computeQ` raises: the error is passed on, with `sT` not
yet written. -/
theorem compute_Q_error {R : Type} [Field R] {deg : Nat} (fns : ScalarFns R)
    (codes : FluxCodes) (ext : Externals R deg) (b theta bo ro : R) (s : Occultation R deg)
    (g : Angles R) (hg : ext.get_angles b theta s.costheta s.sintheta bo ro = .ok g)
    (hcode : g.code ≠ codes.FLUX_ZERO ∧ g.code ≠ codes.FLUX_SIMPLE_OCC ∧
      g.code ≠ codes.FLUX_SIMPLE_REFL ∧ g.code ≠ codes.FLUX_SIMPLE_OCC_REFL)
    (P : Fin (N2_of deg) → R) (hP : ext.computeP (s.ydeg + 1) bo ro g.kappa = .ok P)
    (e : String) (hQ : ext.computeQ (s.ydeg + 1) g.lam = .error e) :
    Occultation.compute fns codes ext b theta bo ro s =
      (.error e, { s with code := g.code, costheta := fns.cos theta, sintheta := fns.sin theta,
                          kappa := g.kappa, lam := g.lam, xi := g.xi, PIntegral := P }) := by
  unfold Occultation.compute
  rw [hg]
  simp only
  rw [if_pos hcode, hP]
  simp only
  rw [hQ]

/-- The run of `compute` when `computeT` raises: the error is passed on, with `sT` not
yet written. -/
theorem compute_T_error {R : Type} [Field R] {deg : Nat} (fns : ScalarFns R)
    (codes : FluxCodes) (ext : Externals R deg) (b theta bo ro : R) (s : Occultation R deg)
    (g : Angles R) (hg : ext.get_angles b theta s.costheta s.sintheta bo ro = .ok g)
    (hcode : g.code ≠ codes.FLUX_ZERO ∧ g.code ≠ codes.FLUX_SIMPLE_OCC ∧
      g.code ≠ codes.FLUX_SIMPLE_REFL ∧ g.code ≠ codes.FLUX_SIMPLE_OCC_REFL)
    (P Q : Fin (N2_of deg) → R) (hP : ext.computeP (s.ydeg + 1) bo ro g.kappa = .ok P)
    (hQ : ext.computeQ (s.ydeg + 1) g.lam = .ok Q)
    (e : String) (hT : ext.computeT (s.ydeg + 1) b theta g.xi = .error e) :
    Occultation.compute fns codes ext b theta bo ro s =
      (.error e, { s with code := g.code, costheta := fns.cos theta, sintheta := fns.sin theta,
                          kappa := g.kappa, lam := g.lam, xi := g.xi, PIntegral := P,
                          QIntegral := Q }) := by
  unfold Occultation.compute
  rw [hg]
  simp only
  rw [if_pos hcode, hP]
  simp only
  rw [hQ]
  simp only
  rw [hT]

/-- The members `ydeg`, `N2`, `N1`, `A2`, `A2Inv` are not written by `compute`. -/
theorem compute_frame {R : Type} [Field R] {deg : Nat} (fns : ScalarFns R) (codes : FluxCodes)
    (ext : Externals R deg) (b theta bo ro : R) (s : Occultation R deg) :
    (Occultation.compute fns codes ext b theta bo ro s).2.ydeg = s.ydeg ∧
      (Occultation.compute fns codes ext b theta bo ro s).2.N2 = s.N2 ∧
      (Occultation.compute fns codes ext b theta bo ro s).2.N1 = s.N1 ∧
      (Occultation.compute fns codes ext b theta bo ro s).2.A2 = s.A2 ∧
      (Occultation.compute fns codes ext b theta bo ro s).2.A2Inv = s.A2Inv := by
  cases hg : ext.get_angles b theta s.costheta s.sintheta bo ro with
  | error e => rw [compute_angles_error fns codes ext b theta bo ro s e hg]; simp
  | ok g =>
    by_cases hcode : g.code ≠ codes.FLUX_ZERO ∧ g.code ≠ codes.FLUX_SIMPLE_OCC ∧
        g.code ≠ codes.FLUX_SIMPLE_REFL ∧ g.code ≠ codes.FLUX_SIMPLE_OCC_REFL
    · cases hP : ext.computeP (s.ydeg + 1) bo ro g.kappa with
      | error e => rw [compute_P_error fns codes ext b theta bo ro s g hg hcode e hP]; simp
      | ok P =>
        cases hQ : ext.computeQ (s.ydeg + 1) g.lam with
        | error e => rw [compute_Q_error fns codes ext b theta bo ro s g hg hcode P hP e hQ]; simp
        | ok Q =>
          cases hT : ext.computeT (s.ydeg + 1) b theta g.xi with
          | error e =>
            rw [compute_T_error fns codes ext b theta bo ro s g hg hcode P Q hP hQ e hT]; simp
          | ok T =>
            rw [compute_general fns codes ext b theta bo ro s g hg hcode P Q T hP hQ hT]; simp
    · rw [compute_simple fns codes ext b theta bo ro s g hg (by omega)]; simp

/-- What every object a caller can hold satisfies: the dimensions and the change-of-basis
pair are those set by the constructor. -/
theorem reachable_inv {R : Type} [Field R] [CharZero R] [DecidableEq R] {deg : Nat}
    {fns : ScalarFns R} {codes : FluxCodes} {ext : Externals R deg} {s : Occultation R deg}
    (hs : Reachable fns codes ext s) :
    s.ydeg = (deg : Int) ∧ s.N2 = ((deg : Int) + 2) * ((deg : Int) + 2) ∧
      s.N1 = ((deg : Int) + 1) * ((deg : Int) + 1) ∧ s.A2 = (A2InvFull R deg)⁻¹ ∧
      s.A2Inv = (A2InvFull R deg).submatrix (leading deg) (leading deg) := by
  induction hs with
  | construct u s h =>
    rw [construct_eq] at h
    injection h with h
    subst h
    exact ⟨rfl, rfl, rfl, rfl, rfl⟩
  | compute b theta bo ro s _ ih =>
    obtain ⟨h1, h2, h3, h4, h5⟩ := compute_frame fns codes ext b theta bo ro s
    rw [h1, h2, h3, h4, h5]
    exact ih

/-- The member `N2`, read as a size, on an object a caller can hold. -/
theorem reachable_N2_toNat {R : Type} [Field R] [CharZero R] [DecidableEq R] {deg : Nat}
    {fns : ScalarFns R} {codes : FluxCodes} {ext : Externals R deg} {s : Occultation R deg}
    (hs : Reachable fns codes ext s) : s.N2.toNat = N2_of deg := by
  rw [(reachable_inv hs).2.1]
  unfold N2_of
  rw [show ((deg : Int) + 2) * ((deg : Int) + 2) = (((deg + 2) * (deg + 2) : Nat) : Int) by
    push_cast; ring]
  exact Int.toNat_ofNat _

/-- The object built on all-zero storage is the one the constructor returns. -/
theorem construct_stubState (deg : Nat) :
    Occultation.construct deg (zeroInit deg) = .ok (stubState deg) := by
  unfold stubState
  rw [construct_eq]

/-! ## The claims about `compute` -/

/-- C1: on an object reached after construction, when the classifier returns a status
other than `FLUX_ZERO`, `FLUX_SIMPLE_OCC`, `FLUX_SIMPLE_REFL`, `FLUX_SIMPLE_OCC_REFL` and
the integral routines called at degree `ydeg + 1` return `P`, `Q`, `T`, the method
`compute` returns and leaves `sT = ((P + Q + T) * A2) * I * A2Inv`, where `A2` is the
two-sided inverse of the matrix populated by `computeA2`, `I` is the matrix built by
`computeI(b, theta)` and `A2Inv` is the retained leading `N1 x N1` block. -/
theorem compute_general_solution {R : Type} [Field R] [CharZero R] [DecidableEq R] {deg : Nat}
    (fns : ScalarFns R) (codes : FluxCodes) (ext : Externals R deg) (s : Occultation R deg)
    (hs : Reachable fns codes ext s) (b theta bo ro : R) (g : Angles R)
    (hg : ext.get_angles b theta s.costheta s.sintheta bo ro = .ok g)
    (hcode : g.code ≠ codes.FLUX_ZERO ∧ g.code ≠ codes.FLUX_SIMPLE_OCC ∧
      g.code ≠ codes.FLUX_SIMPLE_REFL ∧ g.code ≠ codes.FLUX_SIMPLE_OCC_REFL)
    (P Q T : Fin (N2_of deg) → R) (hP : ext.computeP ((deg : Int) + 1) bo ro g.kappa = .ok P)
    (hQ : ext.computeQ ((deg : Int) + 1) g.lam = .ok Q)
    (hT : ext.computeT ((deg : Int) + 1) b theta g.xi = .ok T) :
    (Occultation.compute fns codes ext b theta bo ro s).1 = .ok () ∧
      (Occultation.compute fns codes ext b theta bo ro s).2.sT =
        { size := N1_of deg,
          coeff := Matrix.vecMul
            (Matrix.vecMul (Matrix.vecMul (P + Q + T) (A2InvFull R deg)⁻¹)
              (computeI fns deg b theta s.I))
            ((A2InvFull R deg).submatrix (leading deg) (leading deg)) } ∧
      (Occultation.compute fns codes ext b theta bo ro s).2.A2 = (A2InvFull R deg)⁻¹ ∧
      (Occultation.compute fns codes ext b theta bo ro s).2.A2Inv =
        (A2InvFull R deg).submatrix (leading deg) (leading deg) ∧
      (Occultation.compute fns codes ext b theta bo ro s).2.I = computeI fns deg b theta s.I ∧
      (A2InvFull R deg)⁻¹ * A2InvFull R deg = 1 ∧ A2InvFull R deg * (A2InvFull R deg)⁻¹ = 1 := by
  obtain ⟨h1, _, _, h4, h5⟩ := reachable_inv hs
  rw [← h1] at hP hQ hT
  rw [compute_general fns codes ext b theta bo ro s g hg hcode P Q T hP hQ hT]
  refine ⟨rfl, ?_, h4, h5, rfl, A2InvFull_inv_mul R deg⟩
  simp only [h4, h5]

/-- C1, instantiated: the degree-0 stub configuration with the general status `1`. -/
theorem compute_general_solution_witness :
    Reachable stubFns stubCodes (stubExt 0 1) (stubState 0) ∧
      (Occultation.compute stubFns stubCodes (stubExt 0 1) 0 0 0 1 (stubState 0)).2.sT =
        { size := N1_of 0,
          coeff := Matrix.vecMul
            (Matrix.vecMul (Matrix.vecMul ((fun _ => 1) + (fun _ => 1) + (fun _ => 1))
              (A2InvFull ℚ 0)⁻¹) (computeI stubFns 0 0 0 (stubState 0).I))
            ((A2InvFull ℚ 0).submatrix (leading 0) (leading 0)) } :=
  ⟨Reachable.construct _ _ (construct_stubState 0),
    (compute_general_solution stubFns stubCodes (stubExt 0 1) (stubState 0)
      (Reachable.construct _ _ (construct_stubState 0)) 0 0 0 1
      { code := 1, costheta := 1, sintheta := 0,
        kappa := [0, 1], lam := [], xi := [] }
      rfl (by decide) (fun _ => 1) (fun _ => 1) (fun _ => 1) rfl rfl rfl).2.1⟩

/-- C2: on an object reached after construction, when the classifier returns one of
`FLUX_ZERO`, `FLUX_SIMPLE_OCC`, `FLUX_SIMPLE_REFL`, `FLUX_SIMPLE_OCC_REFL`, the method
`compute` returns and leaves `sT` equal to the zero vector of length `N2 = (ydeg + 2)^2`,
for all `b`, `theta` and whatever `sT` held before. -/
theorem compute_simple_zero {R : Type} [Field R] [CharZero R] [DecidableEq R] {deg : Nat}
    (fns : ScalarFns R) (codes : FluxCodes) (ext : Externals R deg) (s : Occultation R deg)
    (hs : Reachable fns codes ext s) (b theta bo ro : R) (g : Angles R)
    (hg : ext.get_angles b theta s.costheta s.sintheta bo ro = .ok g)
    (hcode : g.code = codes.FLUX_ZERO ∨ g.code = codes.FLUX_SIMPLE_OCC ∨
      g.code = codes.FLUX_SIMPLE_REFL ∨ g.code = codes.FLUX_SIMPLE_OCC_REFL) :
    (Occultation.compute fns codes ext b theta bo ro s).1 = .ok () ∧
      (Occultation.compute fns codes ext b theta bo ro s).2.sT =
        { size := N2_of deg, coeff := 0 } ∧
      N2_of deg = (deg + 2) ^ 2 := by
  rw [compute_simple fns codes ext b theta bo ro s g hg hcode]
  refine ⟨rfl, ?_, by unfold N2_of; ring⟩
  simp only
  rw [reachable_N2_toNat hs]

/-- C2, instantiated: the degree-0 stub configuration with the status `FLUX_ZERO`. -/
theorem compute_simple_zero_witness :
    Reachable stubFns stubCodes (stubExt 0 0) (stubState 0) ∧
      (Occultation.compute stubFns stubCodes (stubExt 0 0) 3 5 0 1 (stubState 0)).2.sT =
        { size := N2_of 0, coeff := 0 } :=
  ⟨Reachable.construct _ _ (construct_stubState 0),
    (compute_simple_zero stubFns stubCodes (stubExt 0 0) (stubState 0)
      (Reachable.construct _ _ (construct_stubState 0)) 3 5 0 1
      { code := 0, costheta := 1, sintheta := 0,
        kappa := [0, 1], lam := [], xi := [] }
      rfl (by decide)).2.1⟩

/-- C3, as stated, fails: in the degree-0 stub configuration with the general status `1`
the vector `sT` left by `compute` has length `N1 = 1`, not `N2 = 4`. -/
theorem sT_length_counterexample :
    Reachable stubFns stubCodes (stubExt 0 1) (stubState 0) ∧
      (Occultation.compute stubFns stubCodes (stubExt 0 1) 0 0 0 1 (stubState 0)).2.sT.size = 1 ∧
      N2_of 0 = 4 ∧
      (Occultation.compute stubFns stubCodes (stubExt 0 1) 0 0 0 1 (stubState 0)).2.sT.size
        ≠ N2_of 0 := by
  have h := compute_general stubFns stubCodes (stubExt 0 1) 0 0 0 1 (stubState 0)
    { code := 1, costheta := 1, sintheta := 0,
      kappa := [0, 1], lam := [], xi := [] }
    rfl (by decide) (fun _ => 1) (fun _ => 1) (fun _ => 1) rfl rfl rfl
  rw [h]
  exact ⟨Reachable.construct _ _ (construct_stubState 0), rfl, rfl, by decide⟩

/-- C3, amended: on an object reached after construction, when `compute` returns, `sT`
has length `N2 = (ydeg + 2)^2` if the classifier's status is one of the four simple
codes, and length `N1 = (ydeg + 1)^2` otherwise. -/
theorem sT_length {R : Type} [Field R] [CharZero R] [DecidableEq R] {deg : Nat}
    (fns : ScalarFns R) (codes : FluxCodes) (ext : Externals R deg) (s : Occultation R deg)
    (hs : Reachable fns codes ext s) (b theta bo ro : R) (g : Angles R)
    (hg : ext.get_angles b theta s.costheta s.sintheta bo ro = .ok g) :
    ((g.code = codes.FLUX_ZERO ∨ g.code = codes.FLUX_SIMPLE_OCC ∨
        g.code = codes.FLUX_SIMPLE_REFL ∨ g.code = codes.FLUX_SIMPLE_OCC_REFL) →
      (Occultation.compute fns codes ext b theta bo ro s).1 = .ok () ∧
        (Occultation.compute fns codes ext b theta bo ro s).2.sT.size = N2_of deg) ∧
      ((g.code ≠ codes.FLUX_ZERO ∧ g.code ≠ codes.FLUX_SIMPLE_OCC ∧
          g.code ≠ codes.FLUX_SIMPLE_REFL ∧ g.code ≠ codes.FLUX_SIMPLE_OCC_REFL) →
        ∀ P Q T : Fin (N2_of deg) → R,
          ext.computeP ((deg : Int) + 1) bo ro g.kappa = .ok P →
          ext.computeQ ((deg : Int) + 1) g.lam = .ok Q →
          ext.computeT ((deg : Int) + 1) b theta g.xi = .ok T →
          (Occultation.compute fns codes ext b theta bo ro s).1 = .ok () ∧
            (Occultation.compute fns codes ext b theta bo ro s).2.sT.size = N1_of deg) ∧
      N2_of deg = (deg + 2) ^ 2 ∧ N1_of deg = (deg + 1) ^ 2 := by
  refine ⟨?_, ?_, by unfold N2_of; ring, by unfold N1_of; ring⟩
  · intro hcode
    rw [compute_simple fns codes ext b theta bo ro s g hg hcode]
    exact ⟨rfl, reachable_N2_toNat hs⟩
  · intro hcode P Q T hP hQ hT
    rw [← (reachable_inv hs).1] at hP hQ hT
    rw [compute_general fns codes ext b theta bo ro s g hg hcode P Q T hP hQ hT]
    exact ⟨rfl, rfl⟩

/-- C3 amended, instantiated: the degree-0 stub configuration with the general status
`1` leaves `sT` of length `N1 = 1`. -/
theorem sT_length_witness :
    Reachable stubFns stubCodes (stubExt 0 1) (stubState 0) ∧
      (Occultation.compute stubFns stubCodes (stubExt 0 1) 0 0 0 1 (stubState 0)).2.sT.size
        = N1_of 0 :=
  ⟨Reachable.construct _ _ (construct_stubState 0),
    ((sT_length stubFns stubCodes (stubExt 0 1) (stubState 0)
      (Reachable.construct _ _ (construct_stubState 0)) 0 0 0 1
      { code := 1, costheta := 1, sintheta := 0,
        kappa := [0, 1], lam := [], xi := [] } rfl).2.1 (by decide)
      (fun _ => 1) (fun _ => 1) (fun _ => 1) rfl rfl rfl).2⟩

/-! ## The claims about `computeA2` -/

/-- C4: for every `ydeg`, the matrix populated by the loop of `computeA2` has a nonzero
determinant over the rationals, `computeA2` and the constructor do not take the
factorization-failure branch, and the stored `A2` satisfies `A2 * A2InvFull = 1` (and
`A2InvFull * A2 = 1`) on the full `N2`-dimensional space. -/
theorem A2InvFull_invertible (ydeg : Nat) :
    (A2InvFull ℚ ydeg).det ≠ 0 ∧
      (∃ A2 A2Inv, computeA2 ℚ ydeg = .ok (A2, A2Inv) ∧ A2 * A2InvFull ℚ ydeg = 1 ∧
        A2InvFull ℚ ydeg * A2 = 1) ∧
      ∀ u : Uninit ℚ ydeg, ∃ s, Occultation.construct ydeg u = .ok s ∧
        s.A2 * A2InvFull ℚ ydeg = 1 ∧ A2InvFull ℚ ydeg * s.A2 = 1 := by
  refine ⟨A2InvFull_det_ne_zero ℚ ydeg, ⟨_, _, computeA2_eq ℚ ydeg, A2InvFull_inv_mul ℚ ydeg⟩, ?_⟩
  intro u
  exact ⟨_, construct_eq ℚ ydeg u, A2InvFull_inv_mul ℚ ydeg⟩

/-- C5: for every `ydeg`, the constructor returns an object whose `A2Inv` has shape
`N1 x N1`, `N1 = (ydeg + 1)^2`, and whose entry `(i, j)` is the entry `(i, j)` of the
matrix `A2InvFull` populated by `computeA2`, for all `i, j < N1`. -/
theorem A2Inv_is_leading_block {R : Type} [Field R] [CharZero R] [DecidableEq R] (ydeg : Nat)
    (u : Uninit R ydeg) :
    N1_of ydeg = (ydeg + 1) ^ 2 ∧
      ∃ s, Occultation.construct ydeg u = .ok s ∧
        ∀ (i j : Fin (N1_of ydeg)) (i' j' : Fin (N2_of ydeg)),
          (i' : Nat) = (i : Nat) → (j' : Nat) = (j : Nat) → s.A2Inv i j = A2InvFull R ydeg i' j' := by
  refine ⟨by unfold N1_of; ring, _, construct_eq R ydeg u, ?_⟩
  intro i j i' j' hi hj
  have ei : leading ydeg i = i' := Fin.ext hi.symm
  have ej : leading ydeg j = j' := Fin.ext hj.symm
  simp only [Matrix.submatrix_apply, ei, ej]

/-- C5, instantiated over the rationals at degree 1. -/
theorem A2Inv_is_leading_block_witness :
    N1_of 1 = (1 + 1) ^ 2 ∧
      ∃ s, Occultation.construct 1 (zeroInit 1) = .ok s ∧
        ∀ (i j : Fin (N1_of 1)) (i' j' : Fin (N2_of 1)),
          (i' : Nat) = (i : Nat) → (j' : Nat) = (j : Nat) → s.A2Inv i j = A2InvFull ℚ 1 i' j' :=
  A2Inv_is_leading_block 1 (zeroInit 1)

/-! ## The claims about `computeI` -/

/-- C6: the matrix built by `computeI` is multiplication by the illumination dipole in
the monomial basis.  With `p = [0, 1.5 x, 1.5 z, 1.5 y]` the dipole of `(b, theta)`,
for every column `n1 < N1` and all `X, Y, Z` with `X^2 + Y^2 + Z^2 = 1`, the sum over
`n < N2` of `I(n, n1) * q_n(X, Y, Z)` equals `(p(1) X + p(2) Z + p(3) Y) * q_n1(X, Y, Z)`,
where `q_n` is `monomial X Y Z n`. -/
theorem computeI_is_dipole_multiplication {R : Type} [Field R] (fns : ScalarFns R) (ydeg : Nat)
    (b theta : R) (I_old : Matrix (Fin (N2_of ydeg)) (Fin (N1_of ydeg)) R)
    (n1 : Fin (N1_of ydeg)) (X Y Z : R) (hXYZ : X ^ 2 + Y ^ 2 + Z ^ 2 = 1) :
    dipole fns b theta =
        ![0, (3 / 2 : R) * (-fns.sqrt (1 - b * b) * fns.sin theta), (3 / 2 : R) * (-b),
          (3 / 2 : R) * (fns.sqrt (1 - b * b) * fns.cos theta)] ∧
      (∑ n : Fin (N2_of ydeg), computeI fns ydeg b theta I_old n n1 * monomial X Y Z n) =
        (dipole fns b theta 1 * X + dipole fns b theta 2 * Z + dipole fns b theta 3 * Y)
          * monomial X Y Z n1 := by
  refine ⟨rfl, ?_⟩
  have h1 : Nat.sqrt n1 * Nat.sqrt n1 ≤ n1 := Nat.sqrt_le n1
  have h2 : (n1 : Nat) < (Nat.sqrt n1 + 1) * (Nat.sqrt n1 + 1) := Nat.lt_succ_sqrt n1
  have h3 : (n1 : Nat) < (ydeg + 1) * (ydeg + 1) := n1.2
  have hk : Nat.sqrt n1 ≤ ydeg := by
    by_contra hc
    have : (ydeg + 1) * (ydeg + 1) ≤ Nat.sqrt n1 * Nat.sqrt n1 :=
      Nat.mul_le_mul (by omega) (by omega)
    omega
  have h := computeI_loop_monomial ydeg (dipole fns b theta) X Y Z hXYZ (Nat.sqrt n1)
    ((n1 : Nat) - Nat.sqrt n1 * Nat.sqrt n1) hk
    (by
      have e : (Nat.sqrt n1 + 1) * (Nat.sqrt n1 + 1)
          = Nat.sqrt n1 * Nat.sqrt n1 + 2 * Nat.sqrt n1 + 1 := by ring
      omega)
    n1 (by omega)
  have h0 : dipole fns b theta 0 = 0 := rfl
  rw [h0, zero_add] at h
  exact h

/-- C6, instantiated: degree 0, `b = theta = 0` and the point `(1, 0, 0)` of the sphere. -/
theorem computeI_is_dipole_multiplication_witness :
    ((1 : ℚ) ^ 2 + 0 ^ 2 + 0 ^ 2 = 1) ∧
      (∑ n : Fin (N2_of 0), computeI stubFns 0 0 0 0 n ⟨0, by decide⟩ * monomial (1 : ℚ) 0 0 n) =
        (dipole stubFns 0 0 1 * 1 + dipole stubFns 0 0 2 * 0 + dipole stubFns 0 0 3 * 0)
          * monomial (1 : ℚ) 0 0 (⟨0, by decide⟩ : Fin (N1_of 0)) :=
  ⟨by norm_num,
    (computeI_is_dipole_multiplication stubFns 0 0 0 0 ⟨0, by decide⟩ 1 0 0 (by norm_num)).2⟩

/-- C9: for every `ydeg`, `b` and real `theta`, `computeI(b, theta + 2 pi)` builds the
same matrix, entry for entry, as `computeI(b, theta)`, whatever `I` held before either
call. -/
theorem computeI_periodic (ydeg : Nat) (b theta : ℝ)
    (I_old I_old' : Matrix (Fin (N2_of ydeg)) (Fin (N1_of ydeg)) ℝ) :
    computeI { sqrt := Real.sqrt, sin := Real.sin, cos := Real.cos } ydeg b
        (theta + 2 * Real.pi) I_old =
      computeI { sqrt := Real.sqrt, sin := Real.sin, cos := Real.cos } ydeg b theta I_old' := by
  unfold computeI dipole
  simp only [Real.sin_add_two_pi, Real.cos_add_two_pi]

/-- C10: for every `ydeg`, `computeI(b = 0, theta = 0)` over the reals uses the dipole
`p = [0, 0, 0, 1.5]`, and in each column `n1 = l1^2 + l1 + m1` the only nonzero entry
of `I` is `1.5`, in row `(l1 + 1)^2 + (l1 + 1) + m1 + 1`; in particular the rows fed by
`p(1)` and `p(2)`, the three redistributed ones included, hold zero. -/
theorem computeI_at_origin (ydeg : Nat)
    (I_old : Matrix (Fin (N2_of ydeg)) (Fin (N1_of ydeg)) ℝ) :
    dipole { sqrt := Real.sqrt, sin := Real.sin, cos := Real.cos } (0 : ℝ) 0 = ![0, 0, 0, 3 / 2] ∧
      ∀ l1 m1 : Int, 0 ≤ l1 → l1 ≤ (ydeg : Int) → -l1 ≤ m1 → m1 ≤ l1 →
        ∀ n1 : Fin (N1_of ydeg), ((n1 : Nat) : Int) = l1 * l1 + l1 + m1 →
          (∃ a0 : Fin (N2_of ydeg),
            ((a0 : Nat) : Int) = (l1 + 1) * (l1 + 1) + (l1 + 1) + m1 + 1 ∧
            computeI { sqrt := Real.sqrt, sin := Real.sin, cos := Real.cos } ydeg 0 0 I_old a0 n1
              = 3 / 2 ∧
            ∀ a : Fin (N2_of ydeg), a ≠ a0 →
              computeI { sqrt := Real.sqrt, sin := Real.sin, cos := Real.cos } ydeg 0 0 I_old a n1
                = 0) ∧
          ∀ a : Fin (N2_of ydeg),
            (((a : Nat) : Int) = (l1 + 1) * (l1 + 1) + (l1 + 1) + m1 - 1 ∨
              ((a : Nat) : Int) = (l1 + 1) * (l1 + 1) + (l1 + 1) + m1 ∨
              ((a : Nat) : Int) = (l1 + 1) * (l1 + 1) + (l1 + 1) + m1 - 4 * (l1 + 1) + 2 ∨
              ((a : Nat) : Int) = (l1 + 1) * (l1 + 1) + (l1 + 1) + m1 - 2 ∨
              ((a : Nat) : Int) = (l1 + 1) * (l1 + 1) + (l1 + 1) + m1 + 2) →
            computeI { sqrt := Real.sqrt, sin := Real.sin, cos := Real.cos } ydeg 0 0 I_old a n1
              = 0 := by
  have hp : dipole { sqrt := Real.sqrt, sin := Real.sin, cos := Real.cos } (0 : ℝ) 0
      = ![0, 0, 0, 3 / 2] := by
    simp [dipole]
  refine ⟨hp, ?_⟩
  intro l1 m1 hl1 hl2 hm1 hm2 n1 hn1
  have hcol : ∀ a : Fin (N2_of ydeg),
      computeI { sqrt := Real.sqrt, sin := Real.sin, cos := Real.cos } ydeg 0 0 I_old a n1 =
        if ((a : Nat) : Int) = (l1 + 1) * (l1 + 1) + (l1 + 1) + m1 + 1 then 3 / 2 else 0 := by
    intro a
    unfold computeI
    rw [hp, computeI_loop_col ydeg _ l1 m1 hl1 (by omega) hm1 hm2 a n1 hn1]
    simp
  have h0 : 0 ≤ (l1 + 1) * (l1 + 1) + (l1 + 1) + m1 + 1 := by nlinarith
  have hlt : (l1 + 1) * (l1 + 1) + (l1 + 1) + (m1 + 1) < ((ydeg : Int) + 2) * ((ydeg : Int) + 2) :=
    index_lt_sq (by omega) (by omega) (by omega)
  have hb : ((l1 + 1) * (l1 + 1) + (l1 + 1) + m1 + 1).toNat < N2_of ydeg := by
    unfold N2_of
    zify
    rw [Int.toNat_of_nonneg h0]
    linarith
  refine ⟨⟨⟨_, hb⟩, by simp [Int.toNat_of_nonneg h0], ?_, ?_⟩, ?_⟩
  · rw [hcol, if_pos (by simp [Int.toNat_of_nonneg h0])]
  · intro a ha
    rw [hcol, if_neg]
    intro h
    apply ha
    apply Fin.ext
    have : ((a : Nat) : Int) = (((l1 + 1) * (l1 + 1) + (l1 + 1) + m1 + 1).toNat : Int) := by
      rw [Int.toNat_of_nonneg h0]; exact h
    exact_mod_cast this
  · intro a ha
    rw [hcol, if_neg]
    intro h
    omega

/-! ## Errors and repeated calls -/

/-- C7: on an object reached after construction, `compute` has exactly six ways out.  If
the classifier raises, or the status is a general one and `computeP`, `computeQ` or
`computeT` raises, the same error comes out of `compute` and `sT` holds exactly the value
it had before the call.  Otherwise `compute` returns and the full vector is produced: on
one of the four simple status codes `sT` is the zero vector of length `N2`, and on any
other status, the three integral routines having returned `P`, `Q`, `T` at degree
`ydeg + 1`, `sT` is the product `((P + Q + T) * A2) * I * A2Inv` of length `N1`.
Conversely an error of `compute` is one of those four errors and leaves `sT` unchanged,
and a return of `compute` is one of the two returns above, with the vector of its own
status. -/
theorem compute_error_leaves_sT {R : Type} [Field R] [CharZero R] [DecidableEq R] {deg : Nat}
    (fns : ScalarFns R) (codes : FluxCodes) (ext : Externals R deg) (s : Occultation R deg)
    (hs : Reachable fns codes ext s) (b theta bo ro : R) :
    (∀ e, ext.get_angles b theta s.costheta s.sintheta bo ro = .error e →
        (Occultation.compute fns codes ext b theta bo ro s).1 = .error e ∧
          (Occultation.compute fns codes ext b theta bo ro s).2.sT = s.sT) ∧
      (∀ g, ext.get_angles b theta s.costheta s.sintheta bo ro = .ok g →
        (g.code ≠ codes.FLUX_ZERO ∧ g.code ≠ codes.FLUX_SIMPLE_OCC ∧
          g.code ≠ codes.FLUX_SIMPLE_REFL ∧ g.code ≠ codes.FLUX_SIMPLE_OCC_REFL) →
        (∀ e, ext.computeP ((deg : Int) + 1) bo ro g.kappa = .error e →
          (Occultation.compute fns codes ext b theta bo ro s).1 = .error e ∧
            (Occultation.compute fns codes ext b theta bo ro s).2.sT = s.sT) ∧
        (∀ P e, ext.computeP ((deg : Int) + 1) bo ro g.kappa = .ok P →
          ext.computeQ ((deg : Int) + 1) g.lam = .error e →
          (Occultation.compute fns codes ext b theta bo ro s).1 = .error e ∧
            (Occultation.compute fns codes ext b theta bo ro s).2.sT = s.sT) ∧
        (∀ P Q e, ext.computeP ((deg : Int) + 1) bo ro g.kappa = .ok P →
          ext.computeQ ((deg : Int) + 1) g.lam = .ok Q →
          ext.computeT ((deg : Int) + 1) b theta g.xi = .error e →
          (Occultation.compute fns codes ext b theta bo ro s).1 = .error e ∧
            (Occultation.compute fns codes ext b theta bo ro s).2.sT = s.sT) ∧
        (∀ P Q T, ext.computeP ((deg : Int) + 1) bo ro g.kappa = .ok P →
          ext.computeQ ((deg : Int) + 1) g.lam = .ok Q →
          ext.computeT ((deg : Int) + 1) b theta g.xi = .ok T →
          (Occultation.compute fns codes ext b theta bo ro s).1 = .ok () ∧
            (Occultation.compute fns codes ext b theta bo ro s).2.sT =
              { size := N1_of deg,
                coeff := Matrix.vecMul
                  (Matrix.vecMul (Matrix.vecMul (P + Q + T) (A2InvFull R deg)⁻¹)
                    (computeI fns deg b theta s.I))
                  ((A2InvFull R deg).submatrix (leading deg) (leading deg)) })) ∧
      (∀ g, ext.get_angles b theta s.costheta s.sintheta bo ro = .ok g →
        (g.code = codes.FLUX_ZERO ∨ g.code = codes.FLUX_SIMPLE_OCC ∨
          g.code = codes.FLUX_SIMPLE_REFL ∨ g.code = codes.FLUX_SIMPLE_OCC_REFL) →
        (Occultation.compute fns codes ext b theta bo ro s).1 = .ok () ∧
          (Occultation.compute fns codes ext b theta bo ro s).2.sT =
            { size := N2_of deg, coeff := 0 }) ∧
      (∀ e, (Occultation.compute fns codes ext b theta bo ro s).1 = .error e →
        (Occultation.compute fns codes ext b theta bo ro s).2.sT = s.sT ∧
          (ext.get_angles b theta s.costheta s.sintheta bo ro = .error e ∨
            ∃ g, ext.get_angles b theta s.costheta s.sintheta bo ro = .ok g ∧
              (g.code ≠ codes.FLUX_ZERO ∧ g.code ≠ codes.FLUX_SIMPLE_OCC ∧
                g.code ≠ codes.FLUX_SIMPLE_REFL ∧ g.code ≠ codes.FLUX_SIMPLE_OCC_REFL) ∧
              (ext.computeP ((deg : Int) + 1) bo ro g.kappa = .error e ∨
                ∃ P, ext.computeP ((deg : Int) + 1) bo ro g.kappa = .ok P ∧
                  (ext.computeQ ((deg : Int) + 1) g.lam = .error e ∨
                    ∃ Q, ext.computeQ ((deg : Int) + 1) g.lam = .ok Q ∧
                      ext.computeT ((deg : Int) + 1) b theta g.xi = .error e)))) ∧
      ((Occultation.compute fns codes ext b theta bo ro s).1 = .ok () →
        (∃ g, ext.get_angles b theta s.costheta s.sintheta bo ro = .ok g ∧
            (g.code = codes.FLUX_ZERO ∨ g.code = codes.FLUX_SIMPLE_OCC ∨
              g.code = codes.FLUX_SIMPLE_REFL ∨ g.code = codes.FLUX_SIMPLE_OCC_REFL) ∧
            (Occultation.compute fns codes ext b theta bo ro s).2.sT =
              { size := N2_of deg, coeff := 0 }) ∨
          ∃ g P Q T, ext.get_angles b theta s.costheta s.sintheta bo ro = .ok g ∧
            (g.code ≠ codes.FLUX_ZERO ∧ g.code ≠ codes.FLUX_SIMPLE_OCC ∧
              g.code ≠ codes.FLUX_SIMPLE_REFL ∧ g.code ≠ codes.FLUX_SIMPLE_OCC_REFL) ∧
            ext.computeP ((deg : Int) + 1) bo ro g.kappa = .ok P ∧
            ext.computeQ ((deg : Int) + 1) g.lam = .ok Q ∧
            ext.computeT ((deg : Int) + 1) b theta g.xi = .ok T ∧
            (Occultation.compute fns codes ext b theta bo ro s).2.sT =
              { size := N1_of deg,
                coeff := Matrix.vecMul
                  (Matrix.vecMul (Matrix.vecMul (P + Q + T) (A2InvFull R deg)⁻¹)
                    (computeI fns deg b theta s.I))
                  ((A2InvFull R deg).submatrix (leading deg) (leading deg)) }) := by
  obtain ⟨hy, _, _, h4, h5⟩ := reachable_inv hs
  have hN2 := reachable_N2_toNat hs
  rw [← hy]
  have hsimple : ∀ g, ext.get_angles b theta s.costheta s.sintheta bo ro = .ok g →
      (g.code = codes.FLUX_ZERO ∨ g.code = codes.FLUX_SIMPLE_OCC ∨
        g.code = codes.FLUX_SIMPLE_REFL ∨ g.code = codes.FLUX_SIMPLE_OCC_REFL) →
      (Occultation.compute fns codes ext b theta bo ro s).1 = .ok () ∧
        (Occultation.compute fns codes ext b theta bo ro s).2.sT =
          { size := N2_of deg, coeff := 0 } := by
    intro g hg hcode
    rw [compute_simple fns codes ext b theta bo ro s g hg hcode]
    refine ⟨rfl, ?_⟩
    simp only
    rw [hN2]
  have hgeneral : ∀ g P Q T, ext.get_angles b theta s.costheta s.sintheta bo ro = .ok g →
      (g.code ≠ codes.FLUX_ZERO ∧ g.code ≠ codes.FLUX_SIMPLE_OCC ∧
        g.code ≠ codes.FLUX_SIMPLE_REFL ∧ g.code ≠ codes.FLUX_SIMPLE_OCC_REFL) →
      ext.computeP (s.ydeg + 1) bo ro g.kappa = .ok P →
      ext.computeQ (s.ydeg + 1) g.lam = .ok Q →
      ext.computeT (s.ydeg + 1) b theta g.xi = .ok T →
      (Occultation.compute fns codes ext b theta bo ro s).1 = .ok () ∧
        (Occultation.compute fns codes ext b theta bo ro s).2.sT =
          { size := N1_of deg,
            coeff := Matrix.vecMul
              (Matrix.vecMul (Matrix.vecMul (P + Q + T) (A2InvFull R deg)⁻¹)
                (computeI fns deg b theta s.I))
              ((A2InvFull R deg).submatrix (leading deg) (leading deg)) } := by
    intro g P Q T hg hcode hP hQ hT
    rw [compute_general fns codes ext b theta bo ro s g hg hcode P Q T hP hQ hT]
    refine ⟨rfl, ?_⟩
    simp only [h4, h5]
  refine ⟨?_, ?_, hsimple, ?_, ?_⟩
  · intro e hg
    rw [compute_angles_error fns codes ext b theta bo ro s e hg]
    exact ⟨rfl, rfl⟩
  · intro g hg hcode
    refine ⟨?_, ?_, ?_, ?_⟩
    · intro e hP
      rw [compute_P_error fns codes ext b theta bo ro s g hg hcode e hP]
      exact ⟨rfl, rfl⟩
    · intro P e hP hQ
      rw [compute_Q_error fns codes ext b theta bo ro s g hg hcode P hP e hQ]
      exact ⟨rfl, rfl⟩
    · intro P Q e hP hQ hT
      rw [compute_T_error fns codes ext b theta bo ro s g hg hcode P Q hP hQ e hT]
      exact ⟨rfl, rfl⟩
    · intro P Q T hP hQ hT
      exact hgeneral g P Q T hg hcode hP hQ hT
  · intro e he
    cases hg : ext.get_angles b theta s.costheta s.sintheta bo ro with
    | error e0 =>
      rw [compute_angles_error fns codes ext b theta bo ro s e0 hg] at he ⊢
      have : e0 = e := by injection he
      subst this
      exact ⟨rfl, Or.inl rfl⟩
    | ok g =>
      by_cases hcode : g.code ≠ codes.FLUX_ZERO ∧ g.code ≠ codes.FLUX_SIMPLE_OCC ∧
          g.code ≠ codes.FLUX_SIMPLE_REFL ∧ g.code ≠ codes.FLUX_SIMPLE_OCC_REFL
      · cases hP : ext.computeP (s.ydeg + 1) bo ro g.kappa with
        | error e0 =>
          rw [compute_P_error fns codes ext b theta bo ro s g hg hcode e0 hP] at he ⊢
          have : e0 = e := by injection he
          subst this
          exact ⟨rfl, Or.inr ⟨g, rfl, hcode, Or.inl hP⟩⟩
        | ok P =>
          cases hQ : ext.computeQ (s.ydeg + 1) g.lam with
          | error e0 =>
            rw [compute_Q_error fns codes ext b theta bo ro s g hg hcode P hP e0 hQ] at he ⊢
            have : e0 = e := by injection he
            subst this
            exact ⟨rfl, Or.inr ⟨g, rfl, hcode, Or.inr ⟨P, hP, Or.inl hQ⟩⟩⟩
          | ok Q =>
            cases hT : ext.computeT (s.ydeg + 1) b theta g.xi with
            | error e0 =>
              rw [compute_T_error fns codes ext b theta bo ro s g hg hcode P Q hP hQ e0 hT]
                at he ⊢
              have : e0 = e := by injection he
              subst this
              exact ⟨rfl, Or.inr ⟨g, rfl, hcode, Or.inr ⟨P, hP, Or.inr ⟨Q, hQ, hT⟩⟩⟩⟩
            | ok T =>
              rw [(hgeneral g P Q T hg hcode hP hQ hT).1] at he
              cases he
      · rw [(hsimple g hg (by omega)).1] at he
        cases he
  · intro hok
    cases hg : ext.get_angles b theta s.costheta s.sintheta bo ro with
    | error e0 =>
      rw [compute_angles_error fns codes ext b theta bo ro s e0 hg] at hok
      cases hok
    | ok g =>
      by_cases hcode : g.code ≠ codes.FLUX_ZERO ∧ g.code ≠ codes.FLUX_SIMPLE_OCC ∧
          g.code ≠ codes.FLUX_SIMPLE_REFL ∧ g.code ≠ codes.FLUX_SIMPLE_OCC_REFL
      · cases hP : ext.computeP (s.ydeg + 1) bo ro g.kappa with
        | error e0 =>
          rw [compute_P_error fns codes ext b theta bo ro s g hg hcode e0 hP] at hok
          cases hok
        | ok P =>
          cases hQ : ext.computeQ (s.ydeg + 1) g.lam with
          | error e0 =>
            rw [compute_Q_error fns codes ext b theta bo ro s g hg hcode P hP e0 hQ] at hok
            cases hok
          | ok Q =>
            cases hT : ext.computeT (s.ydeg + 1) b theta g.xi with
            | error e0 =>
              rw [compute_T_error fns codes ext b theta bo ro s g hg hcode P Q hP hQ e0 hT]
                at hok
              cases hok
            | ok T =>
              exact Or.inr ⟨g, P, Q, T, rfl, hcode, hP, hQ, hT,
                (hgeneral g P Q T hg hcode hP hQ hT).2⟩
      · exact Or.inl ⟨g, rfl, by omega, (hsimple g hg (by omega)).2⟩

/-- C7, instantiated on the degree-0 stub object: with a classifier that raises, the error
comes out of `compute` and `sT` is the vector held before; with the general status `1`
and integral routines that return, `compute` returns and `sT` is the product. -/
theorem compute_error_leaves_sT_witness :
    Reachable stubFns stubCodes (failingExt 0) (stubState 0) ∧
      ((Occultation.compute stubFns stubCodes (failingExt 0) 0 0 0 1 (stubState 0)).1
          = .error "unsupported configuration" ∧
        (Occultation.compute stubFns stubCodes (failingExt 0) 0 0 0 1 (stubState 0)).2.sT
          = (stubState 0).sT) ∧
      Reachable stubFns stubCodes (stubExt 0 1) (stubState 0) ∧
      ((Occultation.compute stubFns stubCodes (stubExt 0 1) 0 0 0 1 (stubState 0)).1 = .ok () ∧
        (Occultation.compute stubFns stubCodes (stubExt 0 1) 0 0 0 1 (stubState 0)).2.sT =
          { size := N1_of 0,
            coeff := Matrix.vecMul
              (Matrix.vecMul (Matrix.vecMul ((fun _ => 1) + (fun _ => 1) + (fun _ => 1))
                (A2InvFull ℚ 0)⁻¹) (computeI stubFns 0 0 0 (stubState 0).I))
              ((A2InvFull ℚ 0).submatrix (leading 0) (leading 0)) }) :=
  ⟨Reachable.construct _ _ (construct_stubState 0),
    (compute_error_leaves_sT stubFns stubCodes (failingExt 0) (stubState 0)
      (Reachable.construct _ _ (construct_stubState 0)) 0 0 0 1).1 _ rfl,
    Reachable.construct _ _ (construct_stubState 0),
    ((compute_error_leaves_sT stubFns stubCodes (stubExt 0 1) (stubState 0)
      (Reachable.construct _ _ (construct_stubState 0)) 0 0 0 1).2.1
      { code := 1, costheta := 1, sintheta := 0, kappa := [0, 1], lam := [], xi := [] }
      rfl (by decide)).2.2.2 (fun _ => 1) (fun _ => 1) (fun _ => 1) rfl rfl rfl⟩

/-- A column of `A2InvFull` whose loop iteration makes a single diagonal assignment
agrees with a diagonal matrix holding the assigned value. -/
theorem A2InvFull_diag_col (R : Type) [Ring R] (ydeg : Nat) (d : Fin (N2_of ydeg) → R)
    (l m : Int) (v : R) (hl : 0 ≤ l) (hl2 : l < (ydeg : Int) + 2) (hm1 : -l ≤ m) (hm2 : m ≤ l)
    (hbody : (computeA2_body l m
        ({ A2InvDense := 0, n := l * l + l + m, log := [] } : A2Loop R ydeg)).A2InvDense
      = assignCoeff 0 (l * l + l + m) (l * l + l + m) v)
    (a b : Fin (N2_of ydeg)) (hb : ((b : Nat) : Int) = l * l + l + m) (hd : d b = v) :
    A2InvFull R ydeg a b = Matrix.diagonal d a b := by
  rw [A2InvFull_col R ydeg l m hl hl2 hm1 hm2 a b hb, hbody]
  unfold assignCoeff
  by_cases h : a = b
  · subst h
    rw [if_pos ⟨hb, hb⟩, Matrix.diagonal_apply_eq, hd]
  · rw [Matrix.diagonal_apply_ne _ h, if_neg]
    · rfl
    · rintro ⟨h1, _⟩
      apply h
      apply Fin.ext
      omega

/-- The iterations of the loop of `computeA2` at the nine pairs `(l, m)` with `l ≤ 2`:
each makes one assignment, on the diagonal, of `1, 2, 1, 1, 3, -3, 2, 3, 1` in turn. -/
theorem computeA2_body_low (R : Type) [Ring R] (ydeg : Nat) (M : Matrix (Fin (N2_of ydeg)) (Fin (N2_of ydeg)) R) :
    (computeA2_body 0 0 ({ A2InvDense := M, n := 0, log := [] } : A2Loop R ydeg)).A2InvDense
        = assignCoeff M 0 0 1 ∧
      (computeA2_body 1 (-1) ({ A2InvDense := M, n := 1, log := [] } : A2Loop R ydeg)).A2InvDense
        = assignCoeff M 1 1 2 ∧
      (computeA2_body 1 0 ({ A2InvDense := M, n := 2, log := [] } : A2Loop R ydeg)).A2InvDense
        = assignCoeff M 2 2 1 ∧
      (computeA2_body 1 1 ({ A2InvDense := M, n := 3, log := [] } : A2Loop R ydeg)).A2InvDense
        = assignCoeff M 3 3 1 ∧
      (computeA2_body 2 (-2) ({ A2InvDense := M, n := 4, log := [] } : A2Loop R ydeg)).A2InvDense
        = assignCoeff M 4 4 3 ∧
      (computeA2_body 2 (-1) ({ A2InvDense := M, n := 5, log := [] } : A2Loop R ydeg)).A2InvDense
        = assignCoeff M 5 5 (-3) ∧
      (computeA2_body 2 0 ({ A2InvDense := M, n := 6, log := [] } : A2Loop R ydeg)).A2InvDense
        = assignCoeff M 6 6 2 ∧
      (computeA2_body 2 1 ({ A2InvDense := M, n := 7, log := [] } : A2Loop R ydeg)).A2InvDense
        = assignCoeff M 7 7 3 ∧
      (computeA2_body 2 2 ({ A2InvDense := M, n := 8, log := [] } : A2Loop R ydeg)).A2InvDense
        = assignCoeff M 8 8 1 := by
  have t1 : Int.tmod 1 2 = 1 := by decide
  have t2 : Int.tmod 2 2 = 0 := by decide
  have t3 : Int.tmod 3 2 = 1 := by decide
  have t4 : Int.tmod 4 2 = 0 := by decide
  have d2 : Int.tdiv 2 2 = 1 := by decide
  have d4 : Int.tdiv 4 2 = 2 := by decide
  have d6 : Int.tdiv 6 2 = 3 := by decide
  have d16 : Int.tdiv 16 4 = 4 := by decide
  refine ⟨?_, ?_, ?_, ?_, ?_, ?_, ?_, ?_, ?_⟩ <;>
    simp [computeA2_body, t1, t2, t3, t4, d2, d4, d6, d16]

/-- For `ydeg = 0` the populated matrix is `diag(1, 2, 1, 1)`. -/
theorem A2InvFull_zero (R : Type) [Ring R] :
    A2InvFull R 0 = Matrix.diagonal (![1, 2, 1, 1] : Fin 4 → R) := by
  obtain ⟨h0, h1, h2, h3, -⟩ := computeA2_body_low R 0 0
  ext a b
  obtain ⟨b, hb⟩ := b
  have hb' : b < 4 := hb
  interval_cases b
  · exact A2InvFull_diag_col R 0 _ 0 0 1 (by decide) (by decide) (by decide) (by decide) h0
      a ⟨0, hb⟩ rfl rfl
  · exact A2InvFull_diag_col R 0 _ 1 (-1) 2 (by decide) (by decide) (by decide) (by decide) h1
      a ⟨1, hb⟩ rfl rfl
  · exact A2InvFull_diag_col R 0 _ 1 0 1 (by decide) (by decide) (by decide) (by decide) h2
      a ⟨2, hb⟩ rfl rfl
  · exact A2InvFull_diag_col R 0 _ 1 1 1 (by decide) (by decide) (by decide) (by decide) h3
      a ⟨3, hb⟩ rfl rfl

/-- For `ydeg = 1` the populated matrix is `diag(1, 2, 1, 1, 3, -3, 2, 3, 1)`. -/
theorem A2InvFull_one (R : Type) [Ring R] :
    A2InvFull R 1 = Matrix.diagonal (![1, 2, 1, 1, 3, -3, 2, 3, 1] : Fin 9 → R) := by
  obtain ⟨h0, h1, h2, h3, h4, h5, h6, h7, h8⟩ := computeA2_body_low R 1 0
  ext a b
  obtain ⟨b, hb⟩ := b
  have hb' : b < 9 := hb
  interval_cases b
  · exact A2InvFull_diag_col R 1 _ 0 0 1 (by decide) (by decide) (by decide) (by decide) h0
      a ⟨0, hb⟩ rfl rfl
  · exact A2InvFull_diag_col R 1 _ 1 (-1) 2 (by decide) (by decide) (by decide) (by decide) h1
      a ⟨1, hb⟩ rfl rfl
  · exact A2InvFull_diag_col R 1 _ 1 0 1 (by decide) (by decide) (by decide) (by decide) h2
      a ⟨2, hb⟩ rfl rfl
  · exact A2InvFull_diag_col R 1 _ 1 1 1 (by decide) (by decide) (by decide) (by decide) h3
      a ⟨3, hb⟩ rfl rfl
  · exact A2InvFull_diag_col R 1 _ 2 (-2) 3 (by decide) (by decide) (by decide) (by decide) h4
      a ⟨4, hb⟩ rfl rfl
  · exact A2InvFull_diag_col R 1 _ 2 (-1) (-3) (by decide) (by decide) (by decide) (by decide) h5
      a ⟨5, hb⟩ rfl rfl
  · exact A2InvFull_diag_col R 1 _ 2 0 2 (by decide) (by decide) (by decide) (by decide) h6
      a ⟨6, hb⟩ rfl rfl
  · exact A2InvFull_diag_col R 1 _ 2 1 3 (by decide) (by decide) (by decide) (by decide) h7
      a ⟨7, hb⟩ rfl rfl
  · exact A2InvFull_diag_col R 1 _ 2 2 1 (by decide) (by decide) (by decide) (by decide) h8
      a ⟨8, hb⟩ rfl rfl

/-- For `ydeg = 0`, the inverse of the populated matrix is `diag(1, 1/2, 1, 1)`. -/
theorem A2InvFull_zero_inv (R : Type) [Field R] [CharZero R] :
    (A2InvFull R 0)⁻¹ = Matrix.diagonal (![1, 1 / 2, 1, 1] : Fin 4 → R) := by
  apply Matrix.inv_eq_left_inv
  have h : ∀ i, (![1, 1 / 2, 1, 1] : Fin 4 → R) i * (![1, 2, 1, 1] : Fin 4 → R) i = 1 := by
    intro i
    fin_cases i <;> norm_num
  rw [A2InvFull_zero, Matrix.diagonal_mul_diagonal, funext h]
  exact Matrix.diagonal_one

/-- For `ydeg = 1`, the inverse of the populated matrix is
`diag(1, 1/2, 1, 1, 1/3, -1/3, 1/2, 1/3, 1)`. -/
theorem A2InvFull_one_inv (R : Type) [Field R] [CharZero R] :
    (A2InvFull R 1)⁻¹
      = Matrix.diagonal (![1, 1 / 2, 1, 1, 1 / 3, -1 / 3, 1 / 2, 1 / 3, 1] : Fin 9 → R) := by
  apply Matrix.inv_eq_left_inv
  have h : ∀ i, (![1, 1 / 2, 1, 1, 1 / 3, -1 / 3, 1 / 2, 1 / 3, 1] : Fin 9 → R) i
      * (![1, 2, 1, 1, 3, -3, 2, 3, 1] : Fin 9 → R) i = 1 := by
    intro i
    fin_cases i <;> norm_num
  rw [A2InvFull_one, Matrix.diagonal_mul_diagonal, funext h]
  exact Matrix.diagonal_one

/-- The sum of a vector against a single matrix entry. -/
theorem sum_mul_ite {R : Type} [Semiring R] {r : Nat} (g : Fin r → R) (i : Int) (x : R) :
    (∑ a : Fin r, g a * (if ((a : Nat) : Int) = i then x else 0)) = vecCoeff g i * x := by
  rw [← sum_ite_coe_eq, Finset.sum_mul]
  apply Finset.sum_congr rfl
  intro a _
  split_ifs <;> simp

/-- For `ydeg = 1`, the product of a row vector `w` of length 9 with the matrix built by
the loops of `computeI`, column by column. -/
theorem vecMul_computeI_one {R : Type} [Field R] (p : Fin 4 → R) (w : Fin 9 → R) :
    Matrix.vecMul w (computeI_loop 1 p).I
      = ![w 0 * p 0 + w 1 * p 1 + w 2 * p 2 + w 3 * p 3,
          w 1 * p 0 + w 4 * p 1 + w 5 * p 2 + w 6 * p 3,
          w 2 * p 0 + w 5 * p 1 + (w 0 * p 2 - w 4 * p 2 - w 8 * p 2) + w 7 * p 3,
          w 3 * p 0 + w 6 * p 1 + w 7 * p 2 + w 8 * p 3] := by
  have v0 : vecCoeff w 0 = w 0 := rfl
  have v1 : vecCoeff w 1 = w 1 := rfl
  have v2 : vecCoeff w 2 = w 2 := rfl
  have v3 : vecCoeff w 3 = w 3 := rfl
  have v4 : vecCoeff w 4 = w 4 := rfl
  have v5 : vecCoeff w 5 = w 5 := rfl
  have v6 : vecCoeff w 6 = w 6 := rfl
  have v7 : vecCoeff w 7 = w 7 := rfl
  have v8 : vecCoeff w 8 = w 8 := rfl
  funext b
  obtain ⟨b, hb⟩ := b
  have hb' : b < 4 := hb
  have hsum : ∀ j : Fin (N1_of 1), Matrix.vecMul w (computeI_loop 1 p).I j
      = ∑ a : Fin (N2_of 1), w a * (computeI_loop 1 p).I a j := fun _ => rfl
  interval_cases b
  · have hcol : ∀ a : Fin (N2_of 1), (computeI_loop 1 p).I a ⟨0, hb⟩
        = (if ((a : Nat) : Int) = 0 then p 0 else 0) + (if ((a : Nat) : Int) = 1 then p 1 else 0)
          + (if ((a : Nat) : Int) = 2 then p 2 else 0)
          + (if ((a : Nat) : Int) = 3 then p 3 else 0) := by
      intro a
      rw [computeI_loop_col 1 p 0 0 (by decide) (by decide) (by decide) (by decide) a ⟨0, hb⟩
        (by norm_num), if_pos (show (0 + 0 : Int).tmod 2 = 0 by decide)]
      rfl
    rw [hsum]
    simp only [hcol, mul_add, Finset.sum_add_distrib, sum_mul_ite, v0, v1, v2, v3]
    rfl
  · have hcol : ∀ a : Fin (N2_of 1), (computeI_loop 1 p).I a ⟨1, hb⟩
        = (if ((a : Nat) : Int) = 1 then p 0 else 0) + (if ((a : Nat) : Int) = 4 then p 1 else 0)
          + (if ((a : Nat) : Int) = 5 then p 2 else 0)
          + (if ((a : Nat) : Int) = 6 then p 3 else 0) := by
      intro a
      rw [computeI_loop_col 1 p 1 (-1) (by decide) (by decide) (by decide) (by decide) a ⟨1, hb⟩
        (by norm_num), if_pos (show (1 + -1 : Int).tmod 2 = 0 by decide)]
      rfl
    rw [hsum]
    simp only [hcol, mul_add, Finset.sum_add_distrib, sum_mul_ite, v1, v4, v5, v6]
    rfl
  · have hcol : ∀ a : Fin (N2_of 1), (computeI_loop 1 p).I a ⟨2, hb⟩
        = (if ((a : Nat) : Int) = 2 then p 0 else 0) + (if ((a : Nat) : Int) = 5 then p 1 else 0)
          + ((if ((a : Nat) : Int) = 0 then p 2 else 0)
              - (if ((a : Nat) : Int) = 4 then p 2 else 0)
              - (if ((a : Nat) : Int) = 8 then p 2 else 0))
          + (if ((a : Nat) : Int) = 7 then p 3 else 0) := by
      intro a
      rw [computeI_loop_col 1 p 1 0 (by decide) (by decide) (by decide) (by decide) a ⟨2, hb⟩
        (by norm_num), if_neg (show ¬ (1 + 0 : Int).tmod 2 = 0 by decide)]
      rfl
    rw [hsum]
    simp only [hcol, mul_add, mul_sub, Finset.sum_add_distrib, Finset.sum_sub_distrib,
      sum_mul_ite, v0, v2, v4, v5, v7, v8]
    rfl
  · have hcol : ∀ a : Fin (N2_of 1), (computeI_loop 1 p).I a ⟨3, hb⟩
        = (if ((a : Nat) : Int) = 3 then p 0 else 0) + (if ((a : Nat) : Int) = 6 then p 1 else 0)
          + (if ((a : Nat) : Int) = 7 then p 2 else 0)
          + (if ((a : Nat) : Int) = 8 then p 3 else 0) := by
      intro a
      rw [computeI_loop_col 1 p 1 1 (by decide) (by decide) (by decide) (by decide) a ⟨3, hb⟩
        (by norm_num), if_pos (show (1 + 1 : Int).tmod 2 = 0 by decide)]
      rfl
    rw [hsum]
    simp only [hcol, mul_add, Finset.sum_add_distrib, sum_mul_ite, v3, v6, v7, v8]
    rfl

/-- For `ydeg = 0` the retained leading block is the `1 x 1` matrix `[1]`. -/
theorem leading_block_zero (R : Type) [Ring R] :
    (A2InvFull R 0).submatrix (leading 0) (leading 0)
      = (Matrix.of ![![1]] : Matrix (Fin 1) (Fin 1) R) := by
  rw [A2InvFull_zero]
  ext i j
  obtain ⟨i, hi⟩ := i
  obtain ⟨j, hj⟩ := j
  have hi' : i < 1 := hi
  have hj' : j < 1 := hj
  interval_cases i
  interval_cases j
  rfl

/-- For `ydeg = 1` the retained leading block is `diag(1, 2, 1, 1)`. -/
theorem leading_block_one (R : Type) [Ring R] :
    (A2InvFull R 1).submatrix (leading 1) (leading 1)
      = Matrix.diagonal (![1, 2, 1, 1] : Fin 4 → R) := by
  rw [A2InvFull_one]
  ext i j
  obtain ⟨i, hi⟩ := i
  obtain ⟨j, hj⟩ := j
  have hi' : i < 4 := hi
  have hj' : j < 4 := hj
  interval_cases i <;> interval_cases j <;> rfl

/-- For `ydeg = 1`, the chain `((s * A2) * I) * A2Inv` with the diagonal change-of-basis
pair, for a dipole with `p(0) = 0`. -/
theorem chain_one {R : Type} [Field R] [CharZero R] (s : Fin 9 → R) (p : Fin 4 → R)
    (hp0 : p 0 = 0) :
    Matrix.vecMul
        (Matrix.vecMul
          (Matrix.vecMul s
            (Matrix.diagonal (![1, 1 / 2, 1, 1, 1 / 3, -1 / 3, 1 / 2, 1 / 3, 1] : Fin 9 → R)))
          (computeI_loop 1 p).I)
        (Matrix.diagonal (![1, 2, 1, 1] : Fin 4 → R))
      = ![s 1 * p 1 / 2 + s 2 * p 2 + s 3 * p 3,
          2 * s 4 * p 1 / 3 - 2 * s 5 * p 2 / 3 + s 6 * p 3,
          -(s 5) * p 1 / 3 + (s 0 - s 4 / 3 - s 8) * p 2 + s 7 * p 3 / 3,
          s 6 * p 1 / 2 + s 7 * p 2 / 3 + s 8 * p 3] := by
  have e0 : (![1, 1 / 2, 1, 1, 1 / 3, -1 / 3, 1 / 2, 1 / 3, 1] : Fin 9 → R) 0 = 1 := rfl
  have e1 : (![1, 1 / 2, 1, 1, 1 / 3, -1 / 3, 1 / 2, 1 / 3, 1] : Fin 9 → R) 1 = 1 / 2 := rfl
  have e2 : (![1, 1 / 2, 1, 1, 1 / 3, -1 / 3, 1 / 2, 1 / 3, 1] : Fin 9 → R) 2 = 1 := rfl
  have e3 : (![1, 1 / 2, 1, 1, 1 / 3, -1 / 3, 1 / 2, 1 / 3, 1] : Fin 9 → R) 3 = 1 := rfl
  have e4 : (![1, 1 / 2, 1, 1, 1 / 3, -1 / 3, 1 / 2, 1 / 3, 1] : Fin 9 → R) 4 = 1 / 3 := rfl
  have e5 : (![1, 1 / 2, 1, 1, 1 / 3, -1 / 3, 1 / 2, 1 / 3, 1] : Fin 9 → R) 5 = -1 / 3 := rfl
  have e6 : (![1, 1 / 2, 1, 1, 1 / 3, -1 / 3, 1 / 2, 1 / 3, 1] : Fin 9 → R) 6 = 1 / 2 := rfl
  have e7 : (![1, 1 / 2, 1, 1, 1 / 3, -1 / 3, 1 / 2, 1 / 3, 1] : Fin 9 → R) 7 = 1 / 3 := rfl
  have e8 : (![1, 1 / 2, 1, 1, 1 / 3, -1 / 3, 1 / 2, 1 / 3, 1] : Fin 9 → R) 8 = 1 := rfl
  funext j
  rw [Matrix.vecMul_diagonal, vecMul_computeI_one]
  fin_cases j <;>
    simp only [Matrix.vecMul_diagonal, hp0, e0, e1, e2, e3, e4, e5, e6, e7, e8] <;>
    simp <;> ring

/-- C11: end to end for `ydeg = 1` (`N1 = 4`, `N2 = 9`).  On an object reached after
construction, when the classifier returns a general-case status and the integral
routines return `P`, `Q`, `T` of length 9, `compute` returns with
`A2 = diag(1, 1/2, 1, 1, 1/3, -1/3, 1/2, 1/3, 1)`, `A2Inv = diag(1, 2, 1, 1)` and
`sT = ((P + Q + T) * A2) * I * A2Inv`, which for `s = P + Q + T` and the dipole
`p = [0, 1.5 x, 1.5 z, 1.5 y]` is the 4-vector
`[s1 p1 / 2 + s2 p2 + s3 p3, 2 s4 p1 / 3 - 2 s5 p2 / 3 + s6 p3,
  -s5 p1 / 3 + (s0 - s4 / 3 - s8) p2 + s7 p3 / 3, s6 p1 / 2 + s7 p2 / 3 + s8 p3]`. -/
theorem compute_ydeg_one {R : Type} [Field R] [CharZero R] [DecidableEq R]
    (fns : ScalarFns R) (codes : FluxCodes) (ext : Externals R 1) (s : Occultation R 1)
    (hs : Reachable fns codes ext s) (b theta bo ro : R) (g : Angles R)
    (hg : ext.get_angles b theta s.costheta s.sintheta bo ro = .ok g)
    (hcode : g.code ≠ codes.FLUX_ZERO ∧ g.code ≠ codes.FLUX_SIMPLE_OCC ∧
      g.code ≠ codes.FLUX_SIMPLE_REFL ∧ g.code ≠ codes.FLUX_SIMPLE_OCC_REFL)
    (P Q T : Fin 9 → R) (hP : ext.computeP 2 bo ro g.kappa = .ok P)
    (hQ : ext.computeQ 2 g.lam = .ok Q) (hT : ext.computeT 2 b theta g.xi = .ok T) :
    N1_of 1 = 4 ∧ N2_of 1 = 9 ∧
      (Occultation.compute fns codes ext b theta bo ro s).1 = .ok () ∧
      (Occultation.compute fns codes ext b theta bo ro s).2.A2
        = Matrix.diagonal (![1, 1 / 2, 1, 1, 1 / 3, -1 / 3, 1 / 2, 1 / 3, 1] : Fin 9 → R) ∧
      (Occultation.compute fns codes ext b theta bo ro s).2.A2Inv
        = Matrix.diagonal (![1, 2, 1, 1] : Fin 4 → R) ∧
      (Occultation.compute fns codes ext b theta bo ro s).2.sT
        = { size := 4,
            coeff := Matrix.vecMul
              (Matrix.vecMul
                (Matrix.vecMul (P + Q + T)
                  (Matrix.diagonal
                    (![1, 1 / 2, 1, 1, 1 / 3, -1 / 3, 1 / 2, 1 / 3, 1] : Fin 9 → R)))
                (computeI fns 1 b theta s.I))
              (Matrix.diagonal (![1, 2, 1, 1] : Fin 4 → R)) } ∧
      dipole fns b theta
        = ![0, (3 / 2 : R) * (-(fns.sqrt (1 - b * b)) * fns.sin theta), (3 / 2 : R) * (-b),
            (3 / 2 : R) * (fns.sqrt (1 - b * b) * fns.cos theta)] ∧
      (Occultation.compute fns codes ext b theta bo ro s).2.sT
        = (let sv := P + Q + T
           let p := dipole fns b theta
           { size := 4,
             coeff := ![sv 1 * p 1 / 2 + sv 2 * p 2 + sv 3 * p 3,
               2 * sv 4 * p 1 / 3 - 2 * sv 5 * p 2 / 3 + sv 6 * p 3,
               -(sv 5) * p 1 / 3 + (sv 0 - sv 4 / 3 - sv 8) * p 2 + sv 7 * p 3 / 3,
               sv 6 * p 1 / 2 + sv 7 * p 2 / 3 + sv 8 * p 3] }) := by
  obtain ⟨h1, _, _, h4, h5⟩ := reachable_inv hs
  have h1' : s.ydeg + 1 = 2 := by rw [h1]; norm_num
  have hP' : ext.computeP (s.ydeg + 1) bo ro g.kappa = .ok P := by rw [h1']; exact hP
  have hQ' : ext.computeQ (s.ydeg + 1) g.lam = .ok Q := by rw [h1']; exact hQ
  have hT' : ext.computeT (s.ydeg + 1) b theta g.xi = .ok T := by rw [h1']; exact hT
  have hA2 : s.A2
      = Matrix.diagonal (![1, 1 / 2, 1, 1, 1 / 3, -1 / 3, 1 / 2, 1 / 3, 1] : Fin 9 → R) := by
    rw [h4]
    exact A2InvFull_one_inv R
  have hA2Inv : s.A2Inv = Matrix.diagonal (![1, 2, 1, 1] : Fin 4 → R) := by
    rw [h5]
    exact leading_block_one R
  have hsT : (Occultation.compute fns codes ext b theta bo ro s).2.sT
      = { size := 4,
          coeff := Matrix.vecMul
            (Matrix.vecMul
              (Matrix.vecMul (P + Q + T)
                (Matrix.diagonal
                  (![1, 1 / 2, 1, 1, 1 / 3, -1 / 3, 1 / 2, 1 / 3, 1] : Fin 9 → R)))
              (computeI fns 1 b theta s.I))
            (Matrix.diagonal (![1, 2, 1, 1] : Fin 4 → R)) } := by
    rw [compute_general fns codes ext b theta bo ro s g hg hcode P Q T hP' hQ' hT']
    simp only [hA2, hA2Inv]
    rfl
  refine ⟨rfl, rfl, ?_, ?_, ?_, hsT, rfl, ?_⟩
  · rw [compute_general fns codes ext b theta bo ro s g hg hcode P Q T hP' hQ' hT']
  · rw [(compute_frame fns codes ext b theta bo ro s).2.2.2.1, hA2]
  · rw [(compute_frame fns codes ext b theta bo ro s).2.2.2.2, hA2Inv]
  · rw [hsT]
    show RowVector.mk 4 _ = RowVector.mk 4 _
    congr 1
    exact chain_one (P + Q + T) (dipole fns b theta) rfl

/-- C11, instantiated: the degree-1 stub configuration over the rationals with the
general status `1`, `P = Q = T = (1, ..., 1)` and `b = theta = 0`. -/
theorem compute_ydeg_one_witness :
    Reachable stubFns stubCodes (stubExt 1 1) (stubState 1) ∧
      (Occultation.compute stubFns stubCodes (stubExt 1 1) 0 0 0 1 (stubState 1)).2.sT
        = (let sv : Fin 9 → ℚ := (fun _ => 1) + (fun _ => 1) + (fun _ => 1)
           let p := dipole stubFns 0 0
           { size := 4,
             coeff := ![sv 1 * p 1 / 2 + sv 2 * p 2 + sv 3 * p 3,
               2 * sv 4 * p 1 / 3 - 2 * sv 5 * p 2 / 3 + sv 6 * p 3,
               -(sv 5) * p 1 / 3 + (sv 0 - sv 4 / 3 - sv 8) * p 2 + sv 7 * p 3 / 3,
               sv 6 * p 1 / 2 + sv 7 * p 2 / 3 + sv 8 * p 3] }) :=
  ⟨Reachable.construct _ _ (construct_stubState 1),
    (compute_ydeg_one stubFns stubCodes (stubExt 1 1) (stubState 1)
      (Reachable.construct _ _ (construct_stubState 1)) 0 0 0 1
      { code := 1, costheta := 1, sintheta := 0,
        kappa := [0, 1], lam := [], xi := [] }
      rfl (by decide) (fun _ => 1) (fun _ => 1) (fun _ => 1) rfl rfl rfl).2.2.2.2.2.2.2⟩

/-- C12: constructing the solver with `ydeg = 0` raises no error: the object built has
`N1 = 1` and `N2 = 4`, the populated matrix `A2InvFull` is `diag(1, 2, 1, 1)`, `A2` is
`diag(1, 1/2, 1, 1)` and the retained `A2Inv` is the `1 x 1` matrix `[1]`. -/
theorem construct_ydeg_zero {R : Type} [Field R] [CharZero R] [DecidableEq R] (u : Uninit R 0) :
    ∃ s, Occultation.construct 0 u = .ok s ∧ s.ydeg = 0 ∧ s.N1 = 1 ∧ s.N2 = 4 ∧
      N1_of 0 = 1 ∧ N2_of 0 = 4 ∧
      A2InvFull R 0 = Matrix.diagonal (![1, 2, 1, 1] : Fin 4 → R) ∧
      s.A2 = Matrix.diagonal (![1, 1 / 2, 1, 1] : Fin 4 → R) ∧
      s.A2Inv = (Matrix.of ![![1]] : Matrix (Fin 1) (Fin 1) R) := by
  refine ⟨_, construct_eq R 0 u, rfl, rfl, rfl, rfl, rfl, A2InvFull_zero R, ?_,
    leading_block_zero R⟩
  exact A2InvFull_zero_inv R

/-- C12, instantiated over the rationals on all-zero storage. -/
theorem construct_ydeg_zero_witness :
    ∃ s, Occultation.construct 0 (zeroInit 0) = .ok s ∧ s.ydeg = 0 ∧ s.N1 = 1 ∧ s.N2 = 4 ∧
      N1_of 0 = 1 ∧ N2_of 0 = 4 ∧
      A2InvFull ℚ 0 = Matrix.diagonal (![1, 2, 1, 1] : Fin 4 → ℚ) ∧
      s.A2 = Matrix.diagonal (![1, 1 / 2, 1, 1] : Fin 4 → ℚ) ∧
      s.A2Inv = (Matrix.of ![![1]] : Matrix (Fin 1) (Fin 1) ℚ) :=
  construct_ydeg_zero (zeroInit 0)

/-- C13: `compute` never modifies the change-of-basis pair or the dimensions.  After any
sequence of calls of `compute`, with any arguments, any classifier and integral routines
and whether each call returns or raises, `A2`, `A2Inv`, `ydeg`, `N1` and `N2` are those
of the object the sequence started from (in particular those set by the constructor). -/
theorem compute_preserves_basis {R : Type} [Field R] {deg : Nat} (fns : ScalarFns R)
    (codes : FluxCodes) (ext : Externals R deg) (calls : List (R × R × R × R))
    (s : Occultation R deg) :
    (calls.foldl (fun st c =>
        (Occultation.compute fns codes ext c.1 c.2.1 c.2.2.1 c.2.2.2 st).2) s).A2 = s.A2 ∧
      (calls.foldl (fun st c =>
        (Occultation.compute fns codes ext c.1 c.2.1 c.2.2.1 c.2.2.2 st).2) s).A2Inv
          = s.A2Inv ∧
      (calls.foldl (fun st c =>
        (Occultation.compute fns codes ext c.1 c.2.1 c.2.2.1 c.2.2.2 st).2) s).ydeg = s.ydeg ∧
      (calls.foldl (fun st c =>
        (Occultation.compute fns codes ext c.1 c.2.1 c.2.2.1 c.2.2.2 st).2) s).N1 = s.N1 ∧
      (calls.foldl (fun st c =>
        (Occultation.compute fns codes ext c.1 c.2.1 c.2.2.1 c.2.2.2 st).2) s).N2 = s.N2 := by
  induction calls generalizing s with
  | nil => exact ⟨rfl, rfl, rfl, rfl, rfl⟩
  | cons c calls ih =>
    obtain ⟨h1, h2, h3, h4, h5⟩ := compute_frame fns codes ext c.1 c.2.1 c.2.2.1 c.2.2.2 s
    obtain ⟨i1, i2, i3, i4, i5⟩ :=
      ih (Occultation.compute fns codes ext c.1 c.2.1 c.2.2.1 c.2.2.2 s).2
    rw [List.foldl_cons, i1, i2, i3, i4, i5, h1, h2, h3, h4, h5]
    exact ⟨rfl, rfl, rfl, rfl, rfl⟩

/-- C14: `computeI` carries no state between calls.  The matrix left by
`computeI(b, theta)` is the one the loops build from the zero matrix, whatever `I`
contained before the call, in particular after any sequence of earlier `computeI` calls
with other arguments. -/
theorem computeI_stateless {R : Type} [Field R] (fns : ScalarFns R) (ydeg : Nat) (b theta : R)
    (I_old I_old' : Matrix (Fin (N2_of ydeg)) (Fin (N1_of ydeg)) R) (earlier : List (R × R)) :
    computeI fns ydeg b theta I_old = computeI fns ydeg b theta I_old' ∧
      computeI fns ydeg b theta
          (earlier.foldl (fun I c => computeI fns ydeg c.1 c.2 I) I_old)
        = computeI fns ydeg b theta I_old ∧
      computeI fns ydeg b theta I_old = (computeI_loop ydeg (dipole fns b theta)).I ∧
      (computeI_loop ydeg (dipole fns b theta)).I
        = (forLoop 0 ((ydeg : Int) + 1)
            (fun l1 st => forLoop (-l1) (l1 + 1)
              (fun m1 st => computeI_body (dipole fns b theta) l1 m1 st) st)
            ({ I := 0, n1 := 0, n2 := 0, log := [] } : ILoop R ydeg)).I :=
  ⟨rfl, rfl, rfl, rfl⟩

/-! ## The writes of the double loops -/

/-- A loop can be cut at any point of its range. -/
theorem forLoop_split {σ : Type} (lo x hi : Int) (h1 : lo ≤ x) (h2 : x ≤ hi)
    (body : Int → σ → σ) (init : σ) :
    forLoop lo hi body init = forLoop x hi body (forLoop lo x body init) := by
  unfold forLoop
  obtain ⟨a, ha⟩ : ∃ a : Nat, x = lo + a := ⟨(x - lo).toNat, by omega⟩
  obtain ⟨b, hb⟩ : ∃ b : Nat, hi = x + b := ⟨(hi - x).toNat, by omega⟩
  subst ha
  subst hb
  rw [show lo + (a : Int) + (b : Int) - lo = ((a + b : Nat) : Int) by push_cast; ring,
    show lo + (a : Int) - lo = ((a : Nat) : Int) by ring,
    show lo + (a : Int) + (b : Int) - (lo + (a : Int)) = ((b : Nat) : Int) by ring,
    Int.toNat_ofNat, Int.toNat_ofNat, Int.toNat_ofNat, List.range_add, List.foldl_append,
    List.foldl_map]
  congr 1
  funext st k
  congr 1
  push_cast
  ring

/-- In a double loop over the pairs `(l, m)`, `-l ≤ m ≤ l`, whose body increments a
counter started at `0`, the counter is `l^2 + l + m` on entry to the iteration `(l, m)`
(and `l^2 + l + (l + 1)` on exit of the inner loop). -/
theorem nested_counter {σ : Type} (col : σ → Int) (body : Int → Int → σ → σ) (init : σ)
    (hcol0 : col init = 0) (hcol : ∀ l m st, col (body l m st) = col st + 1)
    (l m : Int) (hl : 0 ≤ l) (hm1 : -l ≤ m) :
    col (forLoop (-l) m (fun m st => body l m st)
      (forLoop 0 l (fun l st => forLoop (-l) (l + 1) (fun m st => body l m st) st) init))
      = l * l + l + m := by
  have inner : ∀ (l m : Int) (st : σ), -l ≤ m →
      col (forLoop (-l) m (fun m st => body l m st) st) = col st + (m + l) := by
    intro l m st hm
    have h := forLoop_invariant (fun x s => col s = col st + (x + l)) (-l) m hm
      (fun m st => body l m st) st (by show col st = col st + (-l + l); ring)
      (by
        intro x s _ _ ih
        show col (body l x s) = col st + (x + 1 + l)
        rw [hcol, ih]
        ring)
    exact h
  have outer := forLoop_invariant (fun x s => col s = x * x) 0 l hl
    (fun l st => forLoop (-l) (l + 1) (fun m st => body l m st) st) init
    (by show col init = 0 * 0; rw [hcol0]; ring)
    (by
      intro x s hx _ ih
      show col (forLoop (-x) (x + 1) (fun m st => body x m st) s) = (x + 1) * (x + 1)
      rw [inner x (x + 1) s (by omega), ih]
      ring)
  rw [inner l m _ hm1, outer]
  ring

/-- In a double loop over the pairs `(l, m)`, `0 ≤ l < L`, `-l ≤ m ≤ l`, whose body
increments a counter and appends to a log the list `E l m` of writes into the column of
the counter, the log on exit holds exactly the writes of the pairs in range, and no
write occurs twice. -/
theorem nested_log {σ : Type} (col : σ → Int) (log : σ → List (Int × Int))
    (body : Int → Int → σ → σ) (E : Int → Int → List (Int × Int)) (L : Int) (hL : 0 ≤ L)
    (init : σ) (hcol0 : col init = 0) (hlog0 : log init = [])
    (hcol : ∀ l m st, col (body l m st) = col st + 1)
    (hlog : ∀ l m st, 0 ≤ l → -l ≤ m → m ≤ l → col st = l * l + l + m →
      log (body l m st) = log st ++ E l m)
    (hE : ∀ l m, 0 ≤ l → l < L → -l ≤ m → m ≤ l →
      (E l m).Nodup ∧ ∀ e ∈ E l m, e.2 = l * l + l + m) :
    (∀ e, e ∈ log (forLoop 0 L
          (fun l st => forLoop (-l) (l + 1) (fun m st => body l m st) st) init) ↔
        ∃ l m, 0 ≤ l ∧ l < L ∧ -l ≤ m ∧ m ≤ l ∧ e ∈ E l m) ∧
      (log (forLoop 0 L
        (fun l st => forLoop (-l) (l + 1) (fun m st => body l m st) st) init)).Nodup := by
  have inner : ∀ l st, 0 ≤ l → l < L →
      (col st = l * l + l + -l ∧
        (∀ e, e ∈ log st ↔ ∃ l' m', 0 ≤ l' ∧ -l' ≤ m' ∧ m' ≤ l' ∧
          (l' < l ∨ (l' = l ∧ m' < -l)) ∧ e ∈ E l' m') ∧ (log st).Nodup) →
      (col (forLoop (-l) (l + 1) (fun m st => body l m st) st) = l * l + l + (l + 1) ∧
        (∀ e, e ∈ log (forLoop (-l) (l + 1) (fun m st => body l m st) st) ↔
          ∃ l' m', 0 ≤ l' ∧ -l' ≤ m' ∧ m' ≤ l' ∧
            (l' < l ∨ (l' = l ∧ m' < l + 1)) ∧ e ∈ E l' m') ∧
        (log (forLoop (-l) (l + 1) (fun m st => body l m st) st)).Nodup) := by
    intro l st hl hlL h
    refine forLoop_invariant (fun m st =>
      col st = l * l + l + m ∧
        (∀ e, e ∈ log st ↔ ∃ l' m', 0 ≤ l' ∧ -l' ≤ m' ∧ m' ≤ l' ∧
          (l' < l ∨ (l' = l ∧ m' < m)) ∧ e ∈ E l' m') ∧ (log st).Nodup)
      (-l) (l + 1) (by omega) _ st h ?_
    rintro m st' hm1 hm2 ⟨h1, h2, h3⟩
    have hlg := hlog l m st' hl hm1 (by omega) h1
    refine ⟨by rw [hcol, h1]; ring, ?_, ?_⟩
    · intro e
      rw [hlg, List.mem_append, h2 e]
      constructor
      · rintro (⟨l', m', g1, g2, g3, g4, g5⟩ | g)
        · exact ⟨l', m', g1, g2, g3, by omega, g5⟩
        · exact ⟨l, m, hl, hm1, by omega, by omega, g⟩
      · rintro ⟨l', m', g1, g2, g3, g4, g5⟩
        by_cases hcase : l' = l ∧ m' = m
        · obtain ⟨rfl, rfl⟩ := hcase
          exact Or.inr g5
        · exact Or.inl ⟨l', m', g1, g2, g3, by omega, g5⟩
    · rw [hlg, List.nodup_append]
      refine ⟨h3, (hE l m hl hlL hm1 (by omega)).1, ?_⟩
      intro e he1 he2
      obtain ⟨l', m', g1, g2, g3, g4, g5⟩ := (h2 e).1 he1
      have c1 := (hE l' m' g1 (by omega) g2 g3).2 e g5
      have c2 := (hE l m hl hlL hm1 (by omega)).2 e he2
      have hlt : l' * l' + l' + m' < l * l + l + m := by
        rcases g4 with g | ⟨rfl, g⟩
        · exact index_lt_of_degree_lt g1 g3 g hm1
        · omega
      omega
  have outer := forLoop_invariant (fun l st =>
      col st = l * l + l + -l ∧
        (∀ e, e ∈ log st ↔ ∃ l' m', 0 ≤ l' ∧ -l' ≤ m' ∧ m' ≤ l' ∧
          (l' < l ∨ (l' = l ∧ m' < -l)) ∧ e ∈ E l' m') ∧ (log st).Nodup) 0 L hL
      (fun l st => forLoop (-l) (l + 1) (fun m st => body l m st) st) init
      ⟨by simpa using hcol0, by
        intro e
        rw [hlog0]
        constructor
        · intro h
          exact absurd h (List.not_mem_nil e)
        · rintro ⟨l', m', g1, g2, g3, g4, _⟩
          omega, by rw [hlog0]; exact List.nodup_nil⟩
      (by
        intro l st hl1 hl2 h
        obtain ⟨h1, h2, h3⟩ := inner l st hl1 hl2 h
        refine ⟨by rw [h1]; ring, ?_, h3⟩
        intro e
        rw [h2 e]
        constructor
        · rintro ⟨l', m', g1, g2, g3, g4, g5⟩
          exact ⟨l', m', g1, g2, g3, by omega, g5⟩
        · rintro ⟨l', m', g1, g2, g3, g4, g5⟩
          exact ⟨l', m', g1, g2, g3, by omega, g5⟩)
  obtain ⟨_, h2, h3⟩ := outer
  refine ⟨?_, h3⟩
  intro e
  rw [h2 e]
  constructor
  · rintro ⟨l', m', g1, g2, g3, g4, g5⟩
    exact ⟨l', m', g1, by omega, g2, g3, g5⟩
  · rintro ⟨l', m', g1, g2, g3, g4, g5⟩
    exact ⟨l', m', g1, g3, g4, by omega, g5⟩

/-! ## The branches of `computeA2`, with the divisions carried out -/

/-- The pairs `(l, m)` of the loop of `computeA2` fall into the six branches of its body:
`nu = 2 t` even; `(1, 0)`; `mu = 1` with `l` even; `mu = 1` with `l` odd; `mu = 3`; and
`nu = 2 t + 1` with `mu ≥ 5`. -/
theorem pair_cases (l m : Int) (hm1 : -l ≤ m) (hm2 : m ≤ l) :
    (∃ t, 0 ≤ t ∧ t ≤ l ∧ m = 2 * t - l) ∨ (l = 1 ∧ m = 0) ∨
      (2 ≤ l ∧ l % 2 = 0 ∧ m = l - 1) ∨ (3 ≤ l ∧ l % 2 = 1 ∧ m = l - 1) ∨
      (2 ≤ l ∧ m = l - 3) ∨ (∃ t, 0 ≤ t ∧ t + 3 ≤ l ∧ m = 2 * t + 1 - l) := by
  rcases Int.emod_two_eq_zero_or_one (l + m) with h | h
  · exact Or.inl ⟨(l + m) / 2, by omega, by omega, by omega⟩
  · by_cases h1 : l - m = 1
    · rcases Int.emod_two_eq_zero_or_one l with g | g
      · exact Or.inr (Or.inr (Or.inl ⟨by omega, g, by omega⟩))
      · by_cases h2 : l = 1
        · exact Or.inr (Or.inl ⟨h2, by omega⟩)
        · exact Or.inr (Or.inr (Or.inr (Or.inl ⟨by omega, g, by omega⟩)))
    · by_cases h3 : l - m = 3
      · exact Or.inr (Or.inr (Or.inr (Or.inr (Or.inl ⟨by omega, by omega⟩))))
      · exact Or.inr (Or.inr (Or.inr (Or.inr (Or.inr
          ⟨(l + m - 1) / 2, by omega, by omega, by omega⟩))))

/-- The body of the loop of `computeA2` for `nu = 2 t` even: one assignment, on the
diagonal, of `(mu + 2) / 2 = l - t + 1`. -/
theorem body_even {R : Type} [Ring R] {ydeg : Nat} (l t : Int) (st : A2Loop R ydeg) :
    computeA2_body l (2 * t - l) st =
      { A2InvDense := assignCoeff st.A2InvDense st.n st.n ((l - t + 1 : Int) : R)
        n := st.n + 1
        log := st.log ++ [(st.n, st.n)] } := by
  have e1 : (l + (2 * t - l)).tmod 2 = 0 := by
    rw [show l + (2 * t - l) = 2 * t by ring]; exact Int.mul_tmod_right 2 t
  have e2 : (l - (2 * t - l) + 2).tdiv 2 = l - t + 1 := by
    rw [show l - (2 * t - l) + 2 = 2 * (l - t + 1) by ring]
    exact Int.mul_tdiv_cancel_left _ (by norm_num)
  simp only [computeA2_body, e1, if_true, e2]

/-- The body of the loop of `computeA2` at `(1, 0)`: one assignment, on the diagonal,
of `1`. -/
theorem body_z {R : Type} [Ring R] {ydeg : Nat} (st : A2Loop R ydeg) :
    computeA2_body 1 0 st =
      { A2InvDense := assignCoeff st.A2InvDense st.n st.n ((1 : Int) : R)
        n := st.n + 1
        log := st.log ++ [(st.n, st.n)] } := by
  have c1 : ¬ ((1 : Int) + 0).tmod 2 = 0 := by decide
  simp only [computeA2_body, c1, if_false, true_and, if_true]

/-- The body of the loop of `computeA2` for `mu = 1`, `l` even: one assignment, of `3`
in row `l^2 + 3`. -/
theorem body_mu1_even {R : Type} [Ring R] {ydeg : Nat} (l : Int) (hl : 2 ≤ l)
    (hev : l % 2 = 0) (st : A2Loop R ydeg) :
    computeA2_body l (l - 1) st =
      { A2InvDense := assignCoeff st.A2InvDense (l * l + 3) st.n ((3 : Int) : R)
        n := st.n + 1
        log := st.log ++ [(l * l + 3, st.n)] } := by
  have c1 : ¬ (l + (l - 1)).tmod 2 = 0 := by rw [tmod_two_of_nonneg (by omega)]; omega
  have c2 : ¬ (l = 1 ∧ l - 1 = 0) := by omega
  have c3 : l - (l - 1) = 1 ∧ l.tmod 2 = 0 :=
    ⟨by ring, by rw [tmod_two_of_nonneg (by omega)]; exact hev⟩
  simp only [computeA2_body, if_neg c1, if_neg c2, if_pos c3]

/-- The body of the loop of `computeA2` for `mu = 1`, `l ≥ 3` odd: three assignments, of
`-1`, `1`, `4` in rows `1 + (l - 2)^2`, `l^2 + 1`, `l^2 + 5`. -/
theorem body_mu1_odd {R : Type} [Ring R] {ydeg : Nat} (l : Int) (hl : 3 ≤ l)
    (hodd : l % 2 = 1) (st : A2Loop R ydeg) :
    computeA2_body l (l - 1) st =
      { A2InvDense :=
          assignCoeff
            (assignCoeff
              (assignCoeff st.A2InvDense (1 + (l - 2) * (l - 2)) st.n ((-1 : Int) : R))
              (l * l + 1) st.n ((1 : Int) : R))
            (l * l + 5) st.n ((4 : Int) : R)
        n := st.n + 1
        log := st.log ++ [(1 + (l - 2) * (l - 2), st.n), (l * l + 1, st.n), (l * l + 5, st.n)] } := by
  have c1 : ¬ (l + (l - 1)).tmod 2 = 0 := by rw [tmod_two_of_nonneg (by omega)]; omega
  have c2 : ¬ (l = 1 ∧ l - 1 = 0) := by omega
  have c3 : ¬ (l - (l - 1) = 1 ∧ l.tmod 2 = 0) := by
    rw [tmod_two_of_nonneg (by omega)]; omega
  have c4 : l - (l - 1) = 1 ∧ l.tmod 2 = 1 :=
    ⟨by ring, by rw [tmod_two_of_nonneg (by omega)]; exact hodd⟩
  simp only [computeA2_body, if_neg c1, if_neg c2, if_neg c3, if_pos c4]

/-- The body of the loop of `computeA2` for `mu = 3`: one assignment, on the diagonal
`l^2 + (2 l - 3)`, of `-(mu + 3) / 2 = -3`. -/
theorem body_mu3 {R : Type} [Ring R] {ydeg : Nat} (l : Int) (hl : 2 ≤ l)
    (st : A2Loop R ydeg) :
    computeA2_body l (l - 3) st =
      { A2InvDense := assignCoeff st.A2InvDense (l * l + (2 * l - 3)) st.n ((-3 : Int) : R)
        n := st.n + 1
        log := st.log ++ [(l * l + (2 * l - 3), st.n)] } := by
  have c1 : ¬ (l + (l - 3)).tmod 2 = 0 := by rw [tmod_two_of_nonneg (by omega)]; omega
  have c2 : ¬ (l = 1 ∧ l - 3 = 0) := by omega
  have c3 : ¬ (l - (l - 3) = 1 ∧ l.tmod 2 = 0) := by omega
  have c4 : ¬ (l - (l - 3) = 1 ∧ l.tmod 2 = 1) := by omega
  have c5 : ¬ (l - (l - 3) ≠ 3) := by omega
  have e1 : l + (l - 3) + ((l - (l - 3) + (l + (l - 3))) * (l - (l - 3) + (l + (l - 3)))).tdiv 4
      = l * l + (2 * l - 3) := by
    rw [show (l - (l - 3) + (l + (l - 3))) * (l - (l - 3) + (l + (l - 3))) = 4 * (l * l) by ring,
      Int.mul_tdiv_cancel_left _ (by norm_num)]
    ring
  have e2 : (-(l - (l - 3) + 3)).tdiv 2 = -3 := by
    rw [show -(l - (l - 3) + 3) = 2 * (-3) by ring]
    exact Int.mul_tdiv_cancel_left _ (by norm_num)
  simp only [computeA2_body, if_neg c1, if_neg c2, if_neg c3, if_neg c4, if_neg c5, e1, e2]

/-- The body of the loop of `computeA2` for `nu = 2 t + 1` and `mu ≥ 5`, with
`j = (mu - 3) / 2 = l - t - 2`: three assignments, of `j`, `-j`, `-(j + 3)` in rows
`nu + (l - 2)^2`, `nu + 4 + l^2`, `nu + l^2`. -/
theorem body_mu5 {R : Type} [Ring R] {ydeg : Nat} (l t : Int) (ht : 0 ≤ t) (htl : t + 3 ≤ l)
    (st : A2Loop R ydeg) :
    computeA2_body l (2 * t + 1 - l) st =
      { A2InvDense :=
          assignCoeff
            (assignCoeff
              (assignCoeff st.A2InvDense ((l - 2) * (l - 2) + (2 * t + 1)) st.n
                ((l - t - 2 : Int) : R))
              (l * l + (2 * t + 5)) st.n ((-(l - t - 2) : Int) : R))
            (l * l + (2 * t + 1)) st.n ((-(l - t + 1) : Int) : R)
        n := st.n + 1
        log := st.log ++ [((l - 2) * (l - 2) + (2 * t + 1), st.n), (l * l + (2 * t + 5), st.n),
          (l * l + (2 * t + 1), st.n)] } := by
  have c1 : ¬ (l + (2 * t + 1 - l)).tmod 2 = 0 := by rw [tmod_two_of_nonneg (by omega)]; omega
  have c2 : ¬ (l = 1 ∧ 2 * t + 1 - l = 0) := by omega
  have c3 : ¬ (l - (2 * t + 1 - l) = 1 ∧ l.tmod 2 = 0) := by omega
  have c4 : ¬ (l - (2 * t + 1 - l) = 1 ∧ l.tmod 2 = 1) := by omega
  have c5 : l - (2 * t + 1 - l) ≠ 3 := by omega
  have e1 : l + (2 * t + 1 - l)
      + ((l - (2 * t + 1 - l) - 4 + (l + (2 * t + 1 - l)))
          * (l - (2 * t + 1 - l) - 4 + (l + (2 * t + 1 - l)))).tdiv 4
      = (l - 2) * (l - 2) + (2 * t + 1) := by
    rw [show (l - (2 * t + 1 - l) - 4 + (l + (2 * t + 1 - l)))
          * (l - (2 * t + 1 - l) - 4 + (l + (2 * t + 1 - l))) = 4 * ((l - 2) * (l - 2)) by ring,
      Int.mul_tdiv_cancel_left _ (by norm_num)]
    ring
  have e0 : ((l - (2 * t + 1 - l) + (l + (2 * t + 1 - l)))
      * (l - (2 * t + 1 - l) + (l + (2 * t + 1 - l)))).tdiv 4 = l * l := by
    rw [show (l - (2 * t + 1 - l) + (l + (2 * t + 1 - l)))
          * (l - (2 * t + 1 - l) + (l + (2 * t + 1 - l))) = 4 * (l * l) by ring,
      Int.mul_tdiv_cancel_left _ (by norm_num)]
  have e2 : l + (2 * t + 1 - l) + 4 + l * l = l * l + (2 * t + 5) := by ring
  have e3 : l + (2 * t + 1 - l) + l * l = l * l + (2 * t + 1) := by ring
  have f1 : (l - (2 * t + 1 - l) - 3).tdiv 2 = l - t - 2 := by
    rw [show l - (2 * t + 1 - l) - 3 = 2 * (l - t - 2) by ring]
    exact Int.mul_tdiv_cancel_left _ (by norm_num)
  have f2 : (-(l - (2 * t + 1 - l) - 3)).tdiv 2 = -(l - t - 2) := by
    rw [show -(l - (2 * t + 1 - l) - 3) = 2 * (-(l - t - 2)) by ring]
    exact Int.mul_tdiv_cancel_left _ (by norm_num)
  have f3 : (-(l - (2 * t + 1 - l) + 3)).tdiv 2 = -(l - t + 1) := by
    rw [show -(l - (2 * t + 1 - l) + 3) = 2 * (-(l - t + 1)) by ring]
    exact Int.mul_tdiv_cancel_left _ (by norm_num)
  simp only [computeA2_body, if_neg c1, if_neg c2, if_neg c3, if_neg c4, if_pos c5, e1, e0, e2,
    e3, f1, f2, f3]

/-- The writes of one iteration of the loop of `computeA2` depend on the state only
through the column counter. -/
theorem computeA2_body_log {R : Type} [Ring R] {ydeg : Nat} (l m : Int) (st : A2Loop R ydeg)
    (hn : st.n = l * l + l + m) :
    (computeA2_body l m st).log = st.log ++
      (computeA2_body l m
        ({ A2InvDense := 0, n := l * l + l + m, log := [] } : A2Loop R ydeg)).log := by
  simp only [computeA2_body]
  split_ifs <;> simp [hn]

/-- The counter after one iteration of the loop of `computeA2`. -/
theorem computeA2_body_n {R : Type} [Ring R] {ydeg : Nat} (l m : Int) (st : A2Loop R ydeg) :
    (computeA2_body l m st).n = st.n + 1 := by
  simp only [computeA2_body]
  split_ifs <;> rfl

/-- The writes of the iteration `(l, m)` of the loop of `computeA2`: between one and
three, into distinct rows of column `l^2 + l + m`, all inside the matrix; a single one on
the diagonal when `nu` is even; and every write off the diagonal is in a column with `nu`
odd and a row `l'^2 + nu'` with `nu'` odd. -/
theorem computeA2_writes (R : Type) [Ring R] (ydeg : Nat) (l m : Int) (hl : 0 ≤ l)
    (hl2 : l < (ydeg : Int) + 2) (hm1 : -l ≤ m) (hm2 : m ≤ l) :
    1 ≤ (computeA2_body l m
        ({ A2InvDense := 0, n := l * l + l + m, log := [] } : A2Loop R ydeg)).log.length ∧
      (computeA2_body l m
        ({ A2InvDense := 0, n := l * l + l + m, log := [] } : A2Loop R ydeg)).log.length ≤ 3 ∧
      (computeA2_body l m
        ({ A2InvDense := 0, n := l * l + l + m, log := [] } : A2Loop R ydeg)).log.Nodup ∧
      (∀ e ∈ (computeA2_body l m
          ({ A2InvDense := 0, n := l * l + l + m, log := [] } : A2Loop R ydeg)).log,
        e.2 = l * l + l + m ∧ 0 ≤ e.1 ∧ e.1 < ((ydeg : Int) + 2) * ((ydeg : Int) + 2)) ∧
      ((l + m) % 2 = 0 →
        (computeA2_body l m
          ({ A2InvDense := 0, n := l * l + l + m, log := [] } : A2Loop R ydeg)).log
          = [(l * l + l + m, l * l + l + m)]) ∧
      ∀ e ∈ (computeA2_body l m
          ({ A2InvDense := 0, n := l * l + l + m, log := [] } : A2Loop R ydeg)).log,
        e.1 ≠ l * l + l + m →
          (l + m) % 2 = 1 ∧
            ∃ l' nu' : Int, 0 ≤ l' ∧ 0 ≤ nu' ∧ nu' ≤ 2 * l' ∧ nu' % 2 = 1 ∧
              e.1 = l' * l' + nu' := by
  have hb : (l + 1) * (l + 1) ≤ ((ydeg : Int) + 2) * ((ydeg : Int) + 2) := by nlinarith
  have hb' : (l + 1) * (l + 1) = l * l + 2 * l + 1 := by ring
  have hsq : (l - 2) * (l - 2) = l * l - 4 * l + 4 := by ring
  have hll : 0 ≤ l * l := mul_nonneg hl hl
  have hsq0 : 0 ≤ (l - 2) * (l - 2) := mul_self_nonneg _
  rcases pair_cases l m hm1 hm2 with ⟨t, ht0, ht1, rfl⟩ | ⟨rfl, rfl⟩ | ⟨h2, hev, rfl⟩ |
    ⟨h3, hodd, rfl⟩ | ⟨h2, rfl⟩ | ⟨t, ht0, ht1, rfl⟩
  · rw [body_even]
    refine ⟨by simp, by simp, by simp, ?_, fun _ => by simp, ?_⟩
    · intro e he
      simp only [List.nil_append, List.mem_singleton] at he
      subst he
      exact ⟨rfl, by show 0 ≤ l * l + l + (2 * t - l); omega,
        by show l * l + l + (2 * t - l) < _; omega⟩
    · intro e he hne
      simp only [List.nil_append, List.mem_singleton] at he
      subst he
      exact absurd rfl hne
  · rw [body_z]
    refine ⟨by simp, by simp, by simp, ?_, fun h => by omega, ?_⟩
    · intro e he
      simp only [List.nil_append, List.mem_singleton] at he
      subst he
      exact ⟨rfl, by show (0 : Int) ≤ 1 * 1 + 1 + 0; omega,
        by show (1 : Int) * 1 + 1 + 0 < _; omega⟩
    · intro e he hne
      simp only [List.nil_append, List.mem_singleton] at he
      subst he
      exact absurd rfl hne
  · rw [body_mu1_even l h2 hev]
    refine ⟨by simp, by simp, by simp, ?_, fun h => by omega, ?_⟩
    · intro e he
      simp only [List.nil_append, List.mem_singleton] at he
      subst he
      exact ⟨rfl, by show 0 ≤ l * l + 3; omega, by show l * l + 3 < _; omega⟩
    · intro e he _
      simp only [List.nil_append, List.mem_singleton] at he
      subst he
      exact ⟨by omega, l, 3, by omega, by omega, by omega, by omega, rfl⟩
  · rw [body_mu1_odd l h3 hodd]
    refine ⟨by simp, by simp, ?_, ?_, fun h => by omega, ?_⟩
    · simp only [List.nil_append, List.nodup_cons, List.mem_cons, List.mem_singleton,
        Prod.mk.injEq, and_true, List.not_mem_nil, not_false_eq_true, List.nodup_nil, or_false]
      omega
    · intro e he
      simp only [List.nil_append, List.mem_cons, List.mem_singleton, List.not_mem_nil,
        or_false] at he
      rcases he with rfl | rfl | rfl
      · exact ⟨rfl, by show 0 ≤ 1 + (l - 2) * (l - 2); omega,
          by show 1 + (l - 2) * (l - 2) < _; omega⟩
      · exact ⟨rfl, by show 0 ≤ l * l + 1; omega, by show l * l + 1 < _; omega⟩
      · exact ⟨rfl, by show 0 ≤ l * l + 5; omega, by show l * l + 5 < _; omega⟩
    · intro e he _
      simp only [List.nil_append, List.mem_cons, List.mem_singleton, List.not_mem_nil,
        or_false] at he
      rcases he with rfl | rfl | rfl
      · exact ⟨by omega, l - 2, 1, by omega, by omega, by omega, by omega,
          by show 1 + (l - 2) * (l - 2) = _; ring⟩
      · exact ⟨by omega, l, 1, by omega, by omega, by omega, by omega, rfl⟩
      · exact ⟨by omega, l, 5, by omega, by omega, by omega, by omega, rfl⟩
  · rw [body_mu3 l h2]
    refine ⟨by simp, by simp, by simp, ?_, fun h => by omega, ?_⟩
    · intro e he
      simp only [List.nil_append, List.mem_singleton] at he
      subst he
      exact ⟨by show l * l + l + (l - 3) = l * l + l + (l - 3); rfl,
        by show 0 ≤ l * l + (2 * l - 3); omega, by show l * l + (2 * l - 3) < _; omega⟩
    · intro e he hne
      simp only [List.nil_append, List.mem_singleton] at he
      subst he
      exact absurd (by show l * l + (2 * l - 3) = l * l + l + (l - 3); ring) hne
  · rw [body_mu5 l t ht0 ht1]
    refine ⟨by simp, by simp, ?_, ?_, fun h => by omega, ?_⟩
    · simp only [List.nil_append, List.nodup_cons, List.mem_cons, List.mem_singleton,
        Prod.mk.injEq, and_true, List.not_mem_nil, not_false_eq_true, List.nodup_nil, or_false]
      omega
    · intro e he
      simp only [List.nil_append, List.mem_cons, List.mem_singleton, List.not_mem_nil,
        or_false] at he
      rcases he with rfl | rfl | rfl
      · exact ⟨rfl, by show 0 ≤ (l - 2) * (l - 2) + (2 * t + 1); omega,
          by show (l - 2) * (l - 2) + (2 * t + 1) < _; omega⟩
      · exact ⟨rfl, by show 0 ≤ l * l + (2 * t + 5); omega,
          by show l * l + (2 * t + 5) < _; omega⟩
      · exact ⟨rfl, by show 0 ≤ l * l + (2 * t + 1); omega,
          by show l * l + (2 * t + 1) < _; omega⟩
    · intro e he _
      simp only [List.nil_append, List.mem_cons, List.mem_singleton, List.not_mem_nil,
        or_false] at he
      rcases he with rfl | rfl | rfl
      · exact ⟨by omega, l - 2, 2 * t + 1, by omega, by omega, by omega, by omega, rfl⟩
      · exact ⟨by omega, l, 2 * t + 5, by omega, by omega, by omega, by omega, rfl⟩
      · exact ⟨by omega, l, 2 * t + 1, by omega, by omega, by omega, by omega, rfl⟩

/-- One more assignment of a nonzero value into column `n`: the nonzero entries of the
column stay the rows listed. -/
theorem assign_nonzero_iff {R : Type} [Zero R] {r c : Nat} (M : Matrix (Fin r) (Fin c) R)
    (L : List (Int × Int)) (i n : Int) (v : R) (hv : v ≠ 0) (a : Fin r) (b : Fin c)
    (hb : ((b : Nat) : Int) = n) (hM : M a b ≠ 0 ↔ (((a : Nat) : Int), n) ∈ L) :
    assignCoeff M i n v a b ≠ 0 ↔ (((a : Nat) : Int), n) ∈ L ++ [(i, n)] := by
  unfold assignCoeff
  rw [List.mem_append, List.mem_singleton, Prod.mk.injEq]
  by_cases h : ((a : Nat) : Int) = i
  · rw [if_pos ⟨h, hb⟩]
    exact ⟨fun _ => Or.inr ⟨h, rfl⟩, fun _ => hv⟩
  · rw [if_neg (fun g => h g.1), hM]
    exact ⟨Or.inl, fun g => g.elim id (fun g' => absurd g'.1 h)⟩

/-- The zero matrix has no nonzero entry. -/
theorem zero_nonzero_iff {R : Type} [Zero R] {r c : Nat} (n : Int) (a : Fin r) (b : Fin c) :
    (0 : Matrix (Fin r) (Fin c) R) a b ≠ 0 ↔ (((a : Nat) : Int), n) ∈ ([] : List (Int × Int)) := by
  simp

/-- The nonzero entries of a column of `A2InvFull` are the writes of its iteration. -/
theorem A2InvFull_nonzero_iff (R : Type) [Ring R] [CharZero R] (ydeg : Nat) (l m : Int)
    (hl : 0 ≤ l) (hl2 : l < (ydeg : Int) + 2) (hm1 : -l ≤ m) (hm2 : m ≤ l)
    (a b : Fin (N2_of ydeg)) (hb : ((b : Nat) : Int) = l * l + l + m) :
    A2InvFull R ydeg a b ≠ 0 ↔
      (((a : Nat) : Int), l * l + l + m) ∈ (computeA2_body l m
        ({ A2InvDense := 0, n := l * l + l + m, log := [] } : A2Loop R ydeg)).log := by
  rw [A2InvFull_col R ydeg l m hl hl2 hm1 hm2 a b hb]
  rcases pair_cases l m hm1 hm2 with ⟨t, ht0, ht1, rfl⟩ | ⟨rfl, rfl⟩ | ⟨h2, hev, rfl⟩ |
    ⟨h3, hodd, rfl⟩ | ⟨h2, rfl⟩ | ⟨t, ht0, ht1, rfl⟩
  · rw [body_even]
    exact assign_nonzero_iff _ _ _ _ _ (Int.cast_ne_zero.2 (by omega)) a b hb
      (zero_nonzero_iff _ a b)
  · rw [body_z]
    exact assign_nonzero_iff _ _ _ _ _ (Int.cast_ne_zero.2 (by omega)) a b hb
      (zero_nonzero_iff _ a b)
  · rw [body_mu1_even l h2 hev]
    exact assign_nonzero_iff _ _ _ _ _ (Int.cast_ne_zero.2 (by omega)) a b hb
      (zero_nonzero_iff _ a b)
  · rw [body_mu1_odd l h3 hodd]
    exact assign_nonzero_iff _ _ _ _ _ (Int.cast_ne_zero.2 (by omega)) a b hb
      (assign_nonzero_iff _ _ _ _ _ (Int.cast_ne_zero.2 (by omega)) a b hb
        (assign_nonzero_iff _ _ _ _ _ (Int.cast_ne_zero.2 (by omega)) a b hb
          (zero_nonzero_iff _ a b)))
  · rw [body_mu3 l h2]
    exact assign_nonzero_iff _ _ _ _ _ (Int.cast_ne_zero.2 (by omega)) a b hb
      (zero_nonzero_iff _ a b)
  · rw [body_mu5 l t ht0 ht1]
    exact assign_nonzero_iff _ _ _ _ _ (Int.cast_ne_zero.2 (by omega)) a b hb
      (assign_nonzero_iff _ _ _ _ _ (Int.cast_ne_zero.2 (by omega)) a b hb
        (assign_nonzero_iff _ _ _ _ _ (Int.cast_ne_zero.2 (by omega)) a b hb
          (zero_nonzero_iff _ a b)))

/-- A single iteration of a loop. -/
theorem forLoop_single {σ : Type} (x : Int) (body : Int → σ → σ) (init : σ) :
    forLoop x (x + 1) body init = body x init := by
  unfold forLoop
  rw [show x + 1 - x = 1 by ring]
  simp [List.range_succ]

/-- The writes of the whole loop of `computeA2` are those of the pairs `(l, m)` in range,
and none occurs twice. -/
theorem computeA2_loop_log (R : Type) [Ring R] (ydeg : Nat) :
    (∀ e, e ∈ (computeA2_loop R ydeg).log ↔
        ∃ l m, 0 ≤ l ∧ l < (ydeg : Int) + 2 ∧ -l ≤ m ∧ m ≤ l ∧
          e ∈ (computeA2_body l m
            ({ A2InvDense := 0, n := l * l + l + m, log := [] } : A2Loop R ydeg)).log) ∧
      (computeA2_loop R ydeg).log.Nodup :=
  nested_log (fun st : A2Loop R ydeg => st.n) (fun st => st.log)
    (fun l m st => computeA2_body l m st)
    (fun l m => (computeA2_body l m
      ({ A2InvDense := 0, n := l * l + l + m, log := [] } : A2Loop R ydeg)).log)
    ((ydeg : Int) + 2) (by omega) { A2InvDense := 0, n := 0, log := [] } rfl rfl
    (fun l m st => computeA2_body_n l m st)
    (fun l m st _ _ _ hn => computeA2_body_log l m st hn)
    (fun l m hl hl2 hm1 hm2 =>
      ⟨(computeA2_writes R ydeg l m hl hl2 hm1 hm2).2.2.1,
        fun e he => ((computeA2_writes R ydeg l m hl hl2 hm1 hm2).2.2.2.1 e he).1⟩)

/-! ## The claims about the loop of `computeA2` -/

/-- C24: for every `ydeg`, the column `n = l^2 + l + m` of the populated matrix
`A2InvFull` is written by between one and three assignments, to pairwise distinct rows,
and its nonzero entries are exactly the entries written: at least one and at most
three.  A column with `nu = l + m` even has its single nonzero entry on the diagonal;
every nonzero entry off the diagonal lies in a column with `nu` odd and in a row
`l'^2 + nu'` whose own `nu'` is odd.  No assignment of the whole loop overwrites
another. -/
theorem A2InvFull_sparsity {R : Type} [Ring R] [CharZero R] (ydeg : Nat) (l m : Int)
    (hl : 0 ≤ l) (hl2 : l < (ydeg : Int) + 2) (hm1 : -l ≤ m) (hm2 : m ≤ l) :
    (1 ≤ (computeA2_body l m
        ({ A2InvDense := 0, n := l * l + l + m, log := [] } : A2Loop R ydeg)).log.length ∧
      (computeA2_body l m
        ({ A2InvDense := 0, n := l * l + l + m, log := [] } : A2Loop R ydeg)).log.length ≤ 3 ∧
      (computeA2_body l m
        ({ A2InvDense := 0, n := l * l + l + m, log := [] } : A2Loop R ydeg)).log.Nodup) ∧
      (∀ a b : Fin (N2_of ydeg), ((b : Nat) : Int) = l * l + l + m →
        (A2InvFull R ydeg a b ≠ 0 ↔
          (((a : Nat) : Int), l * l + l + m) ∈ (computeA2_body l m
            ({ A2InvDense := 0, n := l * l + l + m, log := [] } : A2Loop R ydeg)).log)) ∧
      (∃ a b : Fin (N2_of ydeg), ((b : Nat) : Int) = l * l + l + m ∧
        A2InvFull R ydeg a b ≠ 0) ∧
      (∀ (b : Fin (N2_of ydeg)) (s : Finset (Fin (N2_of ydeg))),
        ((b : Nat) : Int) = l * l + l + m → (∀ a ∈ s, A2InvFull R ydeg a b ≠ 0) →
          s.card ≤ 3) ∧
      ((l + m) % 2 = 0 → ∀ a b : Fin (N2_of ydeg), ((b : Nat) : Int) = l * l + l + m →
        (A2InvFull R ydeg a b ≠ 0 ↔ a = b)) ∧
      (∀ a b : Fin (N2_of ydeg), ((b : Nat) : Int) = l * l + l + m → a ≠ b →
        A2InvFull R ydeg a b ≠ 0 →
          (l + m) % 2 = 1 ∧
            ∃ l' nu' : Int, 0 ≤ l' ∧ 0 ≤ nu' ∧ nu' ≤ 2 * l' ∧ nu' % 2 = 1 ∧
              ((a : Nat) : Int) = l' * l' + nu') ∧
      (computeA2_loop R ydeg).log.Nodup := by
  obtain ⟨w1, w2, w3, w4, w5, w6⟩ := computeA2_writes R ydeg l m hl hl2 hm1 hm2
  have hnz := A2InvFull_nonzero_iff R ydeg l m hl hl2 hm1 hm2
  have hN : ((N2_of ydeg : Nat) : Int) = ((ydeg : Int) + 2) * ((ydeg : Int) + 2) := by
    unfold N2_of
    push_cast
    ring
  have hn0 : 0 ≤ l * l + l + m := by nlinarith
  have hnlt : l * l + l + m < ((ydeg : Int) + 2) * ((ydeg : Int) + 2) :=
    index_lt_sq hl hl2 hm2
  refine ⟨⟨w1, w2, w3⟩, hnz, ?_, ?_, ?_, ?_, (computeA2_loop_log R ydeg).2⟩
  · obtain ⟨e, he⟩ := List.exists_mem_of_length_pos (Nat.lt_of_lt_of_le Nat.zero_lt_one w1)
    obtain ⟨g1, g2, g3⟩ := w4 e he
    have ha : e.1.toNat < N2_of ydeg := by omega
    have hb : (l * l + l + m).toNat < N2_of ydeg := by omega
    refine ⟨⟨e.1.toNat, ha⟩, ⟨(l * l + l + m).toNat, hb⟩, Int.toNat_of_nonneg hn0, ?_⟩
    rw [hnz _ _ (Int.toNat_of_nonneg hn0)]
    have e1 : ((((⟨e.1.toNat, ha⟩ : Fin (N2_of ydeg)) : Nat) : Int), l * l + l + m) = e :=
      Prod.ext (Int.toNat_of_nonneg g2) g1.symm
    rw [e1]
    exact he
  · intro b s hb hs
    have hinj : Set.InjOn (fun a : Fin (N2_of ydeg) => (((a : Nat) : Int), l * l + l + m))
        (s : Set (Fin (N2_of ydeg))) := by
      intro x _ y _ hxy
      simp only [Prod.mk.injEq, and_true] at hxy
      exact Fin.ext (by exact_mod_cast hxy)
    have hmaps : ∀ a ∈ s, (fun a : Fin (N2_of ydeg) => (((a : Nat) : Int), l * l + l + m)) a
        ∈ (computeA2_body l m
          ({ A2InvDense := 0, n := l * l + l + m, log := [] } : A2Loop R ydeg)).log.toFinset := by
      intro a ha
      rw [List.mem_toFinset]
      exact (hnz a b hb).1 (hs a ha)
    exact le_trans (Finset.card_le_card_of_injOn _ hmaps hinj)
      (le_trans (List.toFinset_card_le _) w2)
  · intro hev a b hb
    rw [hnz a b hb, w5 hev, List.mem_singleton, Prod.mk.injEq]
    constructor
    · rintro ⟨h, _⟩
      exact Fin.ext (by have : ((a : Nat) : Int) = ((b : Nat) : Int) := by rw [h, hb]
                        exact_mod_cast this)
    · rintro rfl
      exact ⟨hb, rfl⟩
  · intro a b hb hab hne
    have hmem := (hnz a b hb).1 hne
    exact w6 _ hmem (by
      show ((a : Nat) : Int) ≠ l * l + l + m
      intro h
      apply hab
      exact Fin.ext (by have : ((a : Nat) : Int) = ((b : Nat) : Int) := by rw [h, hb]
                        exact_mod_cast this))

/-- C24, instantiated over the rationals: the column of `(l, m) = (3, 2)` for `ydeg = 2`,
which is written three times. -/
theorem A2InvFull_sparsity_witness :
    (1 ≤ (computeA2_body 3 2
        ({ A2InvDense := 0, n := 3 * 3 + 3 + 2, log := [] } : A2Loop ℚ 2)).log.length ∧
      (computeA2_body 3 2
        ({ A2InvDense := 0, n := 3 * 3 + 3 + 2, log := [] } : A2Loop ℚ 2)).log.length ≤ 3 ∧
      (computeA2_body 3 2
        ({ A2InvDense := 0, n := 3 * 3 + 3 + 2, log := [] } : A2Loop ℚ 2)).log.Nodup) ∧
      ∃ a b : Fin (N2_of 2), ((b : Nat) : Int) = 3 * 3 + 3 + 2 ∧ A2InvFull ℚ 2 a b ≠ 0 :=
  ⟨(A2InvFull_sparsity 2 3 2 (by decide) (by decide) (by decide) (by decide)).1,
    (A2InvFull_sparsity 2 3 2 (by decide) (by decide) (by decide) (by decide)).2.2.1⟩

/-- C25: every integer division in `computeA2` is exact in the branch where it is
evaluated.  When `nu` is even, `mu + 2` is even and the coefficient assigned is its exact
half.  In the final branch `mu` is odd and at least `3`, `mu - 3` and `mu + 3` are even,
`(mu - 4 + nu)^2` and `(mu + nu)^2` are multiples of `4`, and the row indices written are
`nu + (l - 2)^2`, `nu + 4 + l^2` and `nu + l^2`. -/
theorem computeA2_divisions_exact {R : Type} [Ring R] {ydeg : Nat} (l m : Int)
    (hm1 : -l ≤ m) (hm2 : m ≤ l) (st : A2Loop R ydeg) :
    ((l + m).tmod 2 = 0 →
        2 * (l - m + 2).tdiv 2 = l - m + 2 ∧
        computeA2_body l m st =
          { A2InvDense :=
              assignCoeff st.A2InvDense st.n st.n (((l - m + 2).tdiv 2 : Int) : R)
            n := st.n + 1
            log := st.log ++ [(st.n, st.n)] }) ∧
      (¬ (l + m).tmod 2 = 0 → ¬ (l = 1 ∧ m = 0) → ¬ (l - m = 1 ∧ l.tmod 2 = 0) →
        ¬ (l - m = 1 ∧ l.tmod 2 = 1) →
        3 ≤ l - m ∧ (l - m) % 2 = 1 ∧
        2 * (l - m - 3).tdiv 2 = l - m - 3 ∧
        2 * (-(l - m - 3)).tdiv 2 = -(l - m - 3) ∧
        2 * (-(l - m + 3)).tdiv 2 = -(l - m + 3) ∧
        4 * ((l - m - 4 + (l + m)) * (l - m - 4 + (l + m))).tdiv 4
          = (l - m - 4 + (l + m)) * (l - m - 4 + (l + m)) ∧
        4 * ((l - m + (l + m)) * (l - m + (l + m))).tdiv 4
          = (l - m + (l + m)) * (l - m + (l + m)) ∧
        l + m + ((l - m - 4 + (l + m)) * (l - m - 4 + (l + m))).tdiv 4
          = l + m + (l - 2) * (l - 2) ∧
        l + m + 4 + ((l - m + (l + m)) * (l - m + (l + m))).tdiv 4 = l + m + 4 + l * l ∧
        l + m + ((l - m + (l + m)) * (l - m + (l + m))).tdiv 4 = l + m + l * l ∧
        (computeA2_body l m st).log = st.log ++
          (if l - m ≠ 3 then
            [(l + m + (l - 2) * (l - 2), st.n), (l + m + 4 + l * l, st.n),
              (l + m + l * l, st.n)]
          else [(l + m + l * l, st.n)])) := by
  have hl : 0 ≤ l := by omega
  have q1 : ((l - m - 4 + (l + m)) * (l - m - 4 + (l + m))).tdiv 4 = (l - 2) * (l - 2) := by
    rw [show (l - m - 4 + (l + m)) * (l - m - 4 + (l + m)) = 4 * ((l - 2) * (l - 2)) by ring,
      Int.mul_tdiv_cancel_left _ (by norm_num)]
  have q2 : ((l - m + (l + m)) * (l - m + (l + m))).tdiv 4 = l * l := by
    rw [show (l - m + (l + m)) * (l - m + (l + m)) = 4 * (l * l) by ring,
      Int.mul_tdiv_cancel_left _ (by norm_num)]
  constructor
  · intro hev
    have hev' : (l + m) % 2 = 0 := by rw [← tmod_two_of_nonneg (by omega)]; exact hev
    obtain ⟨k, hk⟩ : ∃ k, l - m + 2 = 2 * k := ⟨(l - m + 2) / 2, by omega⟩
    have hd : (l - m + 2).tdiv 2 = k := by
      rw [hk]
      exact Int.mul_tdiv_cancel_left _ (by norm_num)
    refine ⟨by rw [hd, hk], ?_⟩
    simp only [computeA2_body, if_pos hev]
  · intro h1 h2 h3 h4
    have hodd : (l + m) % 2 = 1 := by
      rw [tmod_two_of_nonneg (by omega)] at h1
      omega
    have hmu : l - m ≠ 1 := by
      rw [tmod_two_of_nonneg hl] at h3 h4
      omega
    obtain ⟨k, hk⟩ : ∃ k, l - m - 3 = 2 * k := ⟨(l - m - 3) / 2, by omega⟩
    have d1 : (l - m - 3).tdiv 2 = k := by
      rw [hk]
      exact Int.mul_tdiv_cancel_left _ (by norm_num)
    have d2 : (-(l - m - 3)).tdiv 2 = -k := by
      rw [hk, show -(2 * k) = 2 * (-k) by ring]
      exact Int.mul_tdiv_cancel_left _ (by norm_num)
    have d3 : (-(l - m + 3)).tdiv 2 = -(k + 3) := by
      rw [show -(l - m + 3) = 2 * (-(k + 3)) by linarith]
      exact Int.mul_tdiv_cancel_left _ (by norm_num)
    refine ⟨by omega, by omega, by rw [d1, hk], by rw [d2, hk]; ring, by rw [d3]; linarith,
      by rw [q1]; ring, by rw [q2]; ring, by rw [q1], by rw [q2], by rw [q2], ?_⟩
    simp only [computeA2_body, if_neg h1, if_neg h2, if_neg h3, if_neg h4, q1, q2]
    split_ifs <;> rfl

/-- C25, instantiated: the pair `(l, m) = (4, -1)` (`mu = 5`, `nu = 3`) on the rationals,
with the column counter at `19`. -/
theorem computeA2_divisions_exact_witness :
    3 ≤ (4 : Int) - -1 ∧ ((4 : Int) - -1) % 2 = 1 ∧
      2 * ((4 : Int) - -1 - 3).tdiv 2 = 4 - -1 - 3 ∧
      2 * (-((4 : Int) - -1 - 3)).tdiv 2 = -(4 - -1 - 3) ∧
      2 * (-((4 : Int) - -1 + 3)).tdiv 2 = -(4 - -1 + 3) :=
  ⟨((computeA2_divisions_exact 4 (-1) (by decide) (by decide)
      ({ A2InvDense := 0, n := 19, log := [] } : A2Loop ℚ 3)).2
      (by decide) (by decide) (by decide) (by decide)).1,
    ((computeA2_divisions_exact 4 (-1) (by decide) (by decide)
      ({ A2InvDense := 0, n := 19, log := [] } : A2Loop ℚ 3)).2
      (by decide) (by decide) (by decide) (by decide)).2.1,
    ((computeA2_divisions_exact 4 (-1) (by decide) (by decide)
      ({ A2InvDense := 0, n := 19, log := [] } : A2Loop ℚ 3)).2
      (by decide) (by decide) (by decide) (by decide)).2.2.1,
    ((computeA2_divisions_exact 4 (-1) (by decide) (by decide)
      ({ A2InvDense := 0, n := 19, log := [] } : A2Loop ℚ 3)).2
      (by decide) (by decide) (by decide) (by decide)).2.2.2.1,
    ((computeA2_divisions_exact 4 (-1) (by decide) (by decide)
      ({ A2InvDense := 0, n := 19, log := [] } : A2Loop ℚ 3)).2
      (by decide) (by decide) (by decide) (by decide)).2.2.2.2.1⟩

/-- C28: for every `ydeg`, every matrix write of `computeA2` is in bounds: each row
index `i` and column index `n` written satisfies `0 ≤ i < N2` and `0 ≤ n < N2`.  The
running column counter equals `l^2 + l + m` on entry to the iteration `(l, m)`, the
state reached by running the outer loop up to `l` and the inner loop up to `m`, from
which the rest of the loop runs; on exit it is `N2`. -/
theorem computeA2_in_bounds (R : Type) [Ring R] (ydeg : Nat) :
    (∀ e ∈ (computeA2_loop R ydeg).log,
        0 ≤ e.1 ∧ e.1 < ((ydeg : Int) + 2) * ((ydeg : Int) + 2) ∧
        0 ≤ e.2 ∧ e.2 < ((ydeg : Int) + 2) * ((ydeg : Int) + 2)) ∧
      (∀ l m : Int, 0 ≤ l → l < (ydeg : Int) + 2 → -l ≤ m → m ≤ l →
        (forLoop (-l) m (fun m st => computeA2_body l m st)
          (forLoop 0 l
            (fun l st => forLoop (-l) (l + 1) (fun m st => computeA2_body l m st) st)
            ({ A2InvDense := 0, n := 0, log := [] } : A2Loop R ydeg))).n = l * l + l + m ∧
        computeA2_loop R ydeg =
          forLoop (l + 1) ((ydeg : Int) + 2)
            (fun l st => forLoop (-l) (l + 1) (fun m st => computeA2_body l m st) st)
            (forLoop (m + 1) (l + 1) (fun m st => computeA2_body l m st)
              (computeA2_body l m
                (forLoop (-l) m (fun m st => computeA2_body l m st)
                  (forLoop 0 l
                    (fun l st =>
                      forLoop (-l) (l + 1) (fun m st => computeA2_body l m st) st)
                    ({ A2InvDense := 0, n := 0, log := [] } : A2Loop R ydeg)))))) ∧
      (computeA2_loop R ydeg).n = ((ydeg : Int) + 2) * ((ydeg : Int) + 2) ∧
      ((N2_of ydeg : Nat) : Int) = ((ydeg : Int) + 2) * ((ydeg : Int) + 2) := by
  refine ⟨?_, ?_, ?_, ?_⟩
  · intro e he
    obtain ⟨l, m, hl, hl2, hm1, hm2, hmem⟩ := ((computeA2_loop_log R ydeg).1 e).1 he
    obtain ⟨g1, g2, g3⟩ := (computeA2_writes R ydeg l m hl hl2 hm1 hm2).2.2.2.1 e hmem
    have hn0 : 0 ≤ l * l + l + m := by nlinarith
    have hnlt : l * l + l + m < ((ydeg : Int) + 2) * ((ydeg : Int) + 2) :=
      index_lt_sq hl hl2 hm2
    exact ⟨g2, g3, by omega, by omega⟩
  · intro l m hl hl2 hm1 hm2
    refine ⟨nested_counter (fun st : A2Loop R ydeg => st.n)
      (fun l m st => computeA2_body l m st) _ rfl (fun l m st => computeA2_body_n l m st)
      l m hl hm1, ?_⟩
    unfold computeA2_loop
    rw [forLoop_split 0 l ((ydeg : Int) + 2) hl (by omega),
      forLoop_split l (l + 1) ((ydeg : Int) + 2) (by omega) (by omega), forLoop_single]
    congr 1
    rw [forLoop_split (-l) m (l + 1) hm1 (by omega),
      forLoop_split m (m + 1) (l + 1) (by omega) (by omega), forLoop_single]
  · have h := nested_counter (fun st : A2Loop R ydeg => st.n)
      (fun l m st => computeA2_body l m st) { A2InvDense := 0, n := 0, log := [] } rfl
      (fun l m st => computeA2_body_n l m st) ((ydeg : Int) + 2) (-((ydeg : Int) + 2))
      (by omega) (by omega)
    rw [show forLoop (-((ydeg : Int) + 2)) (-((ydeg : Int) + 2))
        (fun m st => computeA2_body ((ydeg : Int) + 2) m st) = fun st => st from by
      funext st
      unfold forLoop
      simp] at h
    unfold computeA2_loop
    exact h.trans (by ring)
  · unfold N2_of
    push_cast
    ring

/-! ## The claims about the loops of `computeI` -/

/-- The parity test `is_even` on a sum. -/
theorem is_even_iff (n : Int) : is_even n = true ↔ Even n := by
  unfold is_even
  rw [decide_eq_true_iff, ← Int.dvd_iff_tmod_eq_zero, even_iff_two_dvd]

/-- C23, as stated, fails: at `(l1, m1) = (1, 0)`, where `l1 + m1` is odd, the dipole term
`(l2, m2) = (1, 1)`, whose `l2 + m2` is even, is added at row `n = 7` only (for `b = 0`,
`theta = 0` and a cosine of `1` it is `3/2`), and is not redistributed to the rows
`n - 4 l + 2 = 1`, `n - 2 = 5`, `n + 2 = 9`. -/
theorem computeI_inner_counterexample :
    Odd ((1 : Int) + 0) ∧ Even ((1 : Int) + 1) ∧
      (computeI_inner (dipole stubFns 0 0) 1 0 (if is_even ((1 : Int) + 0) then false else true)
          1 1 ({ I := 0, n1 := 2, n2 := 3, log := [] } : ILoop ℚ 1)).I
        = addCoeff 0 7 2 (3 / 2) ∧
      (computeI_inner (dipole stubFns 0 0) 1 0 (if is_even ((1 : Int) + 0) then false else true)
          1 1 ({ I := 0, n1 := 2, n2 := 3, log := [] } : ILoop ℚ 1)).I
        ≠ subCoeff (subCoeff (addCoeff 0 1 2 (3 / 2)) 5 2 (3 / 2)) 9 2 (3 / 2) := by
  have e : (computeI_inner (dipole stubFns 0 0) 1 0
      (if is_even ((1 : Int) + 0) then false else true)
      1 1 ({ I := 0, n1 := 2, n2 := 3, log := [] } : ILoop ℚ 1)).I
      = addCoeff 0 7 2 (3 / 2) := by
    have e1 : is_even ((1 : Int) + 0) = false := rfl
    have e2 : is_even ((1 : Int) + 1) = true := rfl
    have e3 : vecCoeff (dipole stubFns 0 0) 3 = 3 / 2 := by
      show dipole stubFns 0 0 3 = 3 / 2
      simp [dipole, stubFns]
    simp only [computeI_inner, e1, e2, e3]
    rfl
  refine ⟨by decide, by decide, e, ?_⟩
  rw [e]
  intro h
  have h2 := congrFun (congrFun h (⟨7, by decide⟩ : Fin (N2_of 1))) (⟨2, by decide⟩ : Fin (N1_of 1))
  simp [addCoeff, subCoeff] at h2

/-- C23, amended: in `computeI`, for every basis index `n1 = (l1, m1)` and dipole term
`n2 = (l2, m2)`, with `l = l1 + l2` and `n = l^2 + l + m1 + m2`: when `l1 + m1` is odd
and `l2 + m2` is odd, `p(n2)` is added to `I(n - 4 l + 2, n1)` and subtracted from
`I(n - 2, n1)` and from `I(n + 2, n1)` instead of being placed at row `n`; in every
other case `p(n2)` is added to `I(n, n1)` only. -/
theorem computeI_inner_redistribution {R : Type} [Field R] {ydeg : Nat} (p : Fin 4 → R)
    (l1 m1 l2 m2 : Int) (st : ILoop R ydeg) :
    (Odd (l1 + m1) ∧ Odd (l2 + m2) →
        (computeI_inner p l1 m1 (if is_even (l1 + m1) then false else true) l2 m2 st).I
          = subCoeff
              (subCoeff
                (addCoeff st.I
                  ((l1 + l2) * (l1 + l2) + (l1 + l2) + m1 + m2 - 4 * (l1 + l2) + 2) st.n1
                  (vecCoeff p st.n2))
                ((l1 + l2) * (l1 + l2) + (l1 + l2) + m1 + m2 - 2) st.n1 (vecCoeff p st.n2))
              ((l1 + l2) * (l1 + l2) + (l1 + l2) + m1 + m2 + 2) st.n1 (vecCoeff p st.n2)) ∧
      (¬ (Odd (l1 + m1) ∧ Odd (l2 + m2)) →
        (computeI_inner p l1 m1 (if is_even (l1 + m1) then false else true) l2 m2 st).I
          = addCoeff st.I ((l1 + l2) * (l1 + l2) + (l1 + l2) + m1 + m2) st.n1
              (vecCoeff p st.n2)) := by
  constructor
  · rintro ⟨h1, h2⟩
    have e1 : is_even (l1 + m1) = false := by
      rw [← Bool.not_eq_true, is_even_iff, Int.not_even_iff_odd]
      exact h1
    have e2 : is_even (l2 + m2) = false := by
      rw [← Bool.not_eq_true, is_even_iff, Int.not_even_iff_odd]
      exact h2
    simp only [computeI_inner, e1, e2]
    rfl
  · intro h
    by_cases h1 : is_even (l1 + m1) = true
    · simp only [computeI_inner, h1]
      rfl
    · have e1 : is_even (l1 + m1) = false := by simpa using h1
      have h1' : Odd (l1 + m1) := by
        rw [← Int.not_even_iff_odd, ← is_even_iff]
        exact h1
      have e2 : is_even (l2 + m2) = true := by
        rw [is_even_iff]
        by_contra hc
        exact h ⟨h1', Int.not_even_iff_odd.1 hc⟩
      simp only [computeI_inner, e1, e2]
      rfl

/-- C26: for every real `b` in `[-1, 1]` and every real `theta`, the illumination
direction `(x, y, z) = (-sqrt(1 - b^2) sin(theta), sqrt(1 - b^2) cos(theta), -b)` used by
`computeI` is a unit vector, the dipole is `p = [0, 1.5 x, 1.5 z, 1.5 y]`, and so
`p(0) = 0` and `p(1)^2 + p(2)^2 + p(3)^2 = 9/4`. -/
theorem dipole_normalized (b theta : ℝ) (hb1 : -1 ≤ b) (hb2 : b ≤ 1) :
    (-Real.sqrt (1 - b * b) * Real.sin theta) ^ 2 + (Real.sqrt (1 - b * b) * Real.cos theta) ^ 2
        + (-b) ^ 2 = 1 ∧
      dipole { sqrt := Real.sqrt, sin := Real.sin, cos := Real.cos } b theta
        = ![0, (3 / 2) * (-Real.sqrt (1 - b * b) * Real.sin theta), (3 / 2) * (-b),
            (3 / 2) * (Real.sqrt (1 - b * b) * Real.cos theta)] ∧
      dipole { sqrt := Real.sqrt, sin := Real.sin, cos := Real.cos } b theta 0 = 0 ∧
      dipole { sqrt := Real.sqrt, sin := Real.sin, cos := Real.cos } b theta 1 ^ 2
        + dipole { sqrt := Real.sqrt, sin := Real.sin, cos := Real.cos } b theta 2 ^ 2
        + dipole { sqrt := Real.sqrt, sin := Real.sin, cos := Real.cos } b theta 3 ^ 2
        = 9 / 4 := by
  have hnn : 0 ≤ 1 - b * b := by nlinarith
  have hs : Real.sqrt (1 - b * b) ^ 2 = 1 - b * b := Real.sq_sqrt hnn
  have htrig := Real.sin_sq_add_cos_sq theta
  have hunit : (-Real.sqrt (1 - b * b) * Real.sin theta) ^ 2
      + (Real.sqrt (1 - b * b) * Real.cos theta) ^ 2 + (-b) ^ 2 = 1 := by
    have : (-Real.sqrt (1 - b * b) * Real.sin theta) ^ 2
        + (Real.sqrt (1 - b * b) * Real.cos theta) ^ 2 + (-b) ^ 2
        = Real.sqrt (1 - b * b) ^ 2 * (Real.sin theta ^ 2 + Real.cos theta ^ 2) + b * b := by
      ring
    rw [this, hs, htrig]
    ring
  refine ⟨hunit, rfl, rfl, ?_⟩
  show ((3 / 2 : ℝ) * (-Real.sqrt (1 - b * b) * Real.sin theta)) ^ 2
    + ((3 / 2 : ℝ) * (-b)) ^ 2 + ((3 / 2 : ℝ) * (Real.sqrt (1 - b * b) * Real.cos theta)) ^ 2
    = 9 / 4
  linear_combination (9 / 4 : ℝ) * hunit

/-- C26, instantiated at `b = 0`, `theta = 0`. -/
theorem dipole_normalized_witness :
    dipole { sqrt := Real.sqrt, sin := Real.sin, cos := Real.cos } (0 : ℝ) 0 0 = 0 ∧
      dipole { sqrt := Real.sqrt, sin := Real.sin, cos := Real.cos } (0 : ℝ) 0 1 ^ 2
        + dipole { sqrt := Real.sqrt, sin := Real.sin, cos := Real.cos } (0 : ℝ) 0 2 ^ 2
        + dipole { sqrt := Real.sqrt, sin := Real.sin, cos := Real.cos } (0 : ℝ) 0 3 ^ 2
        = 9 / 4 :=
  (dipole_normalized 0 0 (by norm_num) (by norm_num)).2.2

/-- The writes of one iteration of the outer loops of `computeI`: the four dipole terms
go to the rows `n1`, `c - 1`, `c`, `c + 1` when `l1 + m1` is even, and to the rows `n1`,
`c - 1`, `c - 4 (l1 + 1) + 2`, `c - 2`, `c + 2`, `c + 1` when it is odd, where
`c = (l1 + 1)^2 + (l1 + 1) + m1`. -/
theorem computeI_body_log {R : Type} [Field R] {ydeg : Nat} (p : Fin 4 → R) (l1 m1 : Int)
    (st : ILoop R ydeg) :
    (computeI_body p l1 m1 st).log = st.log ++
      (if (l1 + m1).tmod 2 = 0 then
        [(l1 * l1 + l1 + m1, st.n1),
          ((l1 + 1) * (l1 + 1) + (l1 + 1) + m1 + -1, st.n1),
          ((l1 + 1) * (l1 + 1) + (l1 + 1) + m1 + 0, st.n1),
          ((l1 + 1) * (l1 + 1) + (l1 + 1) + m1 + 1, st.n1)]
      else
        [(l1 * l1 + l1 + m1, st.n1),
          ((l1 + 1) * (l1 + 1) + (l1 + 1) + m1 + -1, st.n1),
          ((l1 + 1) * (l1 + 1) + (l1 + 1) + m1 + 0 - 4 * (l1 + 1) + 2, st.n1),
          ((l1 + 1) * (l1 + 1) + (l1 + 1) + m1 + 0 - 2, st.n1),
          ((l1 + 1) * (l1 + 1) + (l1 + 1) + m1 + 0 + 2, st.n1),
          ((l1 + 1) * (l1 + 1) + (l1 + 1) + m1 + 1, st.n1)]) := by
  have e0 : is_even (0 + 0) = true := rfl
  have e1 : is_even (1 + -1) = true := rfl
  have e2 : is_even (1 + 0) = false := rfl
  have e3 : is_even (1 + 1) = true := rfl
  have e0' : is_even 0 = true := rfl
  have e2' : is_even 1 = false := rfl
  rw [computeI_body_eq]
  by_cases hpar : (l1 + m1).tmod 2 = 0
  · have ho : (if is_even (l1 + m1) then false else true) = false := by simp [is_even, hpar]
    simp only [ho, computeI_inner, e0, e1, e2, e3, Bool.not_true, Bool.not_false,
      Bool.and_false, Bool.false_and, Bool.false_eq_true, if_false, add_zero, if_pos hpar,
      List.append_assoc, List.singleton_append, List.cons_append, List.nil_append]
  · have ho : (if is_even (l1 + m1) then false else true) = true := by simp [is_even, hpar]
    simp only [ho, computeI_inner, e0, e1, e2, e3, e0', e2', Bool.not_true, Bool.not_false,
      Bool.and_false, Bool.true_and, Bool.and_self, Bool.false_eq_true, if_false, if_true,
      add_zero, if_neg hpar, List.append_assoc, List.singleton_append, List.cons_append,
      List.nil_append]

/-- The writes of the iteration `(l1, m1)` of the outer loops of `computeI` go to
pairwise distinct rows of column `l1^2 + l1 + m1`, all inside the matrix. -/
theorem computeI_writes {R : Type} [Field R] (ydeg : Nat) (p : Fin 4 → R) (l1 m1 : Int)
    (hl : 0 ≤ l1) (hl2 : l1 < (ydeg : Int) + 1) (hm1 : -l1 ≤ m1) (hm2 : m1 ≤ l1) :
    (computeI_body p l1 m1
        ({ I := 0, n1 := l1 * l1 + l1 + m1, n2 := 0, log := [] } : ILoop R ydeg)).log.Nodup ∧
      ∀ e ∈ (computeI_body p l1 m1
          ({ I := 0, n1 := l1 * l1 + l1 + m1, n2 := 0, log := [] } : ILoop R ydeg)).log,
        e.2 = l1 * l1 + l1 + m1 ∧ 0 ≤ e.1 ∧ e.1 < ((ydeg : Int) + 2) * ((ydeg : Int) + 2) := by
  have hb : (l1 + 2) * (l1 + 2) ≤ ((ydeg : Int) + 2) * ((ydeg : Int) + 2) := by nlinarith
  have hb' : (l1 + 2) * (l1 + 2) = l1 * l1 + 4 * l1 + 4 := by ring
  have hc : (l1 + 1) * (l1 + 1) = l1 * l1 + 2 * l1 + 1 := by ring
  have hll : 0 ≤ l1 * l1 := mul_nonneg hl hl
  have hll' : l1 ≤ l1 * l1 := by nlinarith
  have h2l : 2 * l1 - 1 ≤ l1 * l1 := by nlinarith [sq_nonneg (l1 - 1)]
  rw [computeI_body_log]
  by_cases hpar : (l1 + m1).tmod 2 = 0
  · rw [if_pos hpar]
    constructor
    · simp only [List.nil_append, List.nodup_cons, List.mem_cons, List.mem_singleton,
        Prod.mk.injEq, and_true, List.not_mem_nil, not_false_eq_true, List.nodup_nil, or_false]
      omega
    · intro e he
      simp only [List.nil_append, List.mem_cons, List.mem_singleton, List.not_mem_nil,
        or_false] at he
      rcases he with rfl | rfl | rfl | rfl
      · exact ⟨rfl, by show 0 ≤ l1 * l1 + l1 + m1; omega,
          by show l1 * l1 + l1 + m1 < _; omega⟩
      · exact ⟨rfl, by show 0 ≤ (l1 + 1) * (l1 + 1) + (l1 + 1) + m1 + -1; omega,
          by show (l1 + 1) * (l1 + 1) + (l1 + 1) + m1 + -1 < _; omega⟩
      · exact ⟨rfl, by show 0 ≤ (l1 + 1) * (l1 + 1) + (l1 + 1) + m1 + 0; omega,
          by show (l1 + 1) * (l1 + 1) + (l1 + 1) + m1 + 0 < _; omega⟩
      · exact ⟨rfl, by show 0 ≤ (l1 + 1) * (l1 + 1) + (l1 + 1) + m1 + 1; omega,
          by show (l1 + 1) * (l1 + 1) + (l1 + 1) + m1 + 1 < _; omega⟩
  · rw [if_neg hpar]
    have hodd : (l1 + m1) % 2 = 1 := by
      rw [tmod_two_of_nonneg (by omega)] at hpar
      omega
    constructor
    · simp only [List.nil_append, List.nodup_cons, List.mem_cons, List.mem_singleton,
        Prod.mk.injEq, and_true, List.not_mem_nil, not_false_eq_true, List.nodup_nil, or_false]
      omega
    · intro e he
      simp only [List.nil_append, List.mem_cons, List.mem_singleton, List.not_mem_nil,
        or_false] at he
      rcases he with rfl | rfl | rfl | rfl | rfl | rfl
      · exact ⟨rfl, by show 0 ≤ l1 * l1 + l1 + m1; omega,
          by show l1 * l1 + l1 + m1 < _; omega⟩
      · exact ⟨rfl, by show 0 ≤ (l1 + 1) * (l1 + 1) + (l1 + 1) + m1 + -1; omega,
          by show (l1 + 1) * (l1 + 1) + (l1 + 1) + m1 + -1 < _; omega⟩
      · exact ⟨rfl,
          by show 0 ≤ (l1 + 1) * (l1 + 1) + (l1 + 1) + m1 + 0 - 4 * (l1 + 1) + 2; omega,
          by show (l1 + 1) * (l1 + 1) + (l1 + 1) + m1 + 0 - 4 * (l1 + 1) + 2 < _; omega⟩
      · exact ⟨rfl, by show 0 ≤ (l1 + 1) * (l1 + 1) + (l1 + 1) + m1 + 0 - 2; omega,
          by show (l1 + 1) * (l1 + 1) + (l1 + 1) + m1 + 0 - 2 < _; omega⟩
      · exact ⟨rfl, by show 0 ≤ (l1 + 1) * (l1 + 1) + (l1 + 1) + m1 + 0 + 2; omega,
          by show (l1 + 1) * (l1 + 1) + (l1 + 1) + m1 + 0 + 2 < _; omega⟩
      · exact ⟨rfl, by show 0 ≤ (l1 + 1) * (l1 + 1) + (l1 + 1) + m1 + 1; omega,
          by show (l1 + 1) * (l1 + 1) + (l1 + 1) + m1 + 1 < _; omega⟩

/-- The writes of the whole loop of `computeI` are those of the pairs `(l1, m1)` in
range, and none occurs twice. -/
theorem computeI_loop_log {R : Type} [Field R] (ydeg : Nat) (p : Fin 4 → R) :
    (∀ e, e ∈ (computeI_loop ydeg p).log ↔
        ∃ l1 m1, 0 ≤ l1 ∧ l1 < (ydeg : Int) + 1 ∧ -l1 ≤ m1 ∧ m1 ≤ l1 ∧
          e ∈ (computeI_body p l1 m1
            ({ I := 0, n1 := l1 * l1 + l1 + m1, n2 := 0, log := [] } : ILoop R ydeg)).log) ∧
      (computeI_loop ydeg p).log.Nodup :=
  nested_log (fun st : ILoop R ydeg => st.n1) (fun st => st.log)
    (fun l m st => computeI_body p l m st)
    (fun l1 m1 => (computeI_body p l1 m1
      ({ I := 0, n1 := l1 * l1 + l1 + m1, n2 := 0, log := [] } : ILoop R ydeg)).log)
    ((ydeg : Int) + 1) (by omega) { I := 0, n1 := 0, n2 := 0, log := [] } rfl rfl
    (fun l m st => computeI_body_n1 p l m st)
    (fun l m st _ _ _ hn => by
      have hn' : st.n1 = l * l + l + m := hn
      show (computeI_body p l m st).log = st.log ++ (computeI_body p l m _).log
      rw [computeI_body_log, computeI_body_log, hn']
      rfl)
    (fun l m hl hl2 hm1 hm2 =>
      ⟨(computeI_writes ydeg p l m hl hl2 hm1 hm2).1,
        fun e he => ((computeI_writes ydeg p l m hl hl2 hm1 hm2).2 e he).1⟩)

/-- The counter `n2` after one iteration of the inner loops of `computeI`. -/
theorem computeI_inner_n2 {R : Type} [Field R] {ydeg : Nat} (p : Fin 4 → R) (l1 m1 : Int)
    (odd1 : Bool) (l2 m2 : Int) (st : ILoop R ydeg) :
    (computeI_inner p l1 m1 odd1 l2 m2 st).n2 = st.n2 + 1 := by
  simp only [computeI_inner]
  split_ifs <;> rfl

/-- C29: for every `ydeg`, every access to `I` in `computeI` is in bounds.  Every write
has its row in `[0, N2)` and its column in `[0, N1)`; on entry to the iteration
`(l1, m1)` the column counter `n1` equals `l1^2 + l1 + m1 < N1`, and the rows written
there are `n` and, in the redistributed case, `n - 4 l + 2`, `n - 2` and `n + 2`; on
entry to the inner iteration `(l2, m2)` the dipole counter `n2` equals
`l2^2 + l2 + m2`, which stays in `0..3`. -/
theorem computeI_in_bounds {R : Type} [Field R] (ydeg : Nat) (p : Fin 4 → R) :
    (∀ e ∈ (computeI_loop ydeg p).log,
        0 ≤ e.1 ∧ e.1 < ((ydeg : Int) + 2) * ((ydeg : Int) + 2) ∧
        0 ≤ e.2 ∧ e.2 < ((ydeg : Int) + 1) * ((ydeg : Int) + 1)) ∧
      (∀ l1 m1 : Int, 0 ≤ l1 → l1 < (ydeg : Int) + 1 → -l1 ≤ m1 → m1 ≤ l1 →
        (forLoop (-l1) m1 (fun m st => computeI_body p l1 m st)
          (forLoop 0 l1
            (fun l st => forLoop (-l) (l + 1) (fun m st => computeI_body p l m st) st)
            ({ I := 0, n1 := 0, n2 := 0, log := [] } : ILoop R ydeg))).n1
          = l1 * l1 + l1 + m1 ∧
        l1 * l1 + l1 + m1 < ((ydeg : Int) + 1) * ((ydeg : Int) + 1) ∧
        ∀ e ∈ (computeI_body p l1 m1
            ({ I := 0, n1 := l1 * l1 + l1 + m1, n2 := 0, log := [] } : ILoop R ydeg)).log,
          e.2 = l1 * l1 + l1 + m1 ∧ 0 ≤ e.1 ∧
            e.1 < ((ydeg : Int) + 2) * ((ydeg : Int) + 2)) ∧
      (∀ (l1 m1 : Int) (odd1 : Bool) (st : ILoop R ydeg) (l2 m2 : Int),
        0 ≤ l2 → l2 < 2 → -l2 ≤ m2 → m2 ≤ l2 →
        (forLoop (-l2) m2 (fun m2 st => computeI_inner p l1 m1 odd1 l2 m2 st)
          (forLoop 0 l2
            (fun l2 st =>
              forLoop (-l2) (l2 + 1) (fun m2 st => computeI_inner p l1 m1 odd1 l2 m2 st) st)
            { st with n2 := 0 })).n2 = l2 * l2 + l2 + m2 ∧
        0 ≤ l2 * l2 + l2 + m2 ∧ l2 * l2 + l2 + m2 ≤ 3) ∧
      ((N2_of ydeg : Nat) : Int) = ((ydeg : Int) + 2) * ((ydeg : Int) + 2) ∧
      ((N1_of ydeg : Nat) : Int) = ((ydeg : Int) + 1) * ((ydeg : Int) + 1) := by
  refine ⟨?_, ?_, ?_, ?_, ?_⟩
  · intro e he
    obtain ⟨l, m, hl, hl2, hm1, hm2, hmem⟩ := ((computeI_loop_log ydeg p).1 e).1 he
    obtain ⟨g1, g2, g3⟩ := (computeI_writes ydeg p l m hl hl2 hm1 hm2).2 e hmem
    have hn0 : 0 ≤ l * l + l + m := by nlinarith
    have hnlt : l * l + l + m < ((ydeg : Int) + 1) * ((ydeg : Int) + 1) :=
      index_lt_sq hl hl2 hm2
    exact ⟨g2, g3, by omega, by omega⟩
  · intro l1 m1 hl hl2 hm1 hm2
    exact ⟨nested_counter (fun st : ILoop R ydeg => st.n1)
        (fun l m st => computeI_body p l m st) _ rfl (fun l m st => computeI_body_n1 p l m st)
        l1 m1 hl hm1,
      index_lt_sq hl hl2 hm2, (computeI_writes ydeg p l1 m1 hl hl2 hm1 hm2).2⟩
  · intro l1 m1 odd1 st l2 m2 hl hl2 hm1 hm2
    refine ⟨nested_counter (fun st : ILoop R ydeg => st.n2)
        (fun l2 m2 st => computeI_inner p l1 m1 odd1 l2 m2 st) { st with n2 := 0 } rfl
        (fun l2 m2 st => computeI_inner_n2 p l1 m1 odd1 l2 m2 st) l2 m2 hl hm1, ?_, ?_⟩
    · nlinarith
    · have h01 : l2 = 0 ∨ l2 = 1 := by omega
      rcases h01 with rfl | rfl <;> omega
  · unfold N2_of
    push_cast
    ring
  · unfold N1_of
    push_cast
    ring

/-- C30: the accumulating loop of `computeI` equals a closed form in which every entry
receives at most one contribution (no write of the loop occurs twice).  In column
`n1 = l1^2 + l1 + m1`, with `c = (l1 + 1)^2 + (l1 + 1) + m1`: `I(c - 1, n1) = p(1)` and
`I(c + 1, n1) = p(3)`; if `l1 + m1` is even, `I(c, n1) = p(2)`; if `l1 + m1` is odd,
`I(l1^2 - l1 + m1, n1) = p(2)`, `I(c - 2, n1) = -p(2)`, `I(c + 2, n1) = -p(2)` and
`I(c, n1) = 0`; every other entry of the column, `I(n1, n1)` included, is `0`. -/
theorem computeI_closed_form {R : Type} [Field R] (fns : ScalarFns R) (ydeg : Nat)
    (b theta : R) (I_old : Matrix (Fin (N2_of ydeg)) (Fin (N1_of ydeg)) R) :
    (computeI_loop ydeg (dipole fns b theta)).log.Nodup ∧
      ∀ l1 m1 : Int, 0 ≤ l1 → l1 ≤ (ydeg : Int) → -l1 ≤ m1 → m1 ≤ l1 →
        ∀ n1 : Fin (N1_of ydeg), ((n1 : Nat) : Int) = l1 * l1 + l1 + m1 →
          (∀ a : Fin (N2_of ydeg),
            computeI fns ydeg b theta I_old a n1 =
              if ((a : Nat) : Int) = (l1 + 1) * (l1 + 1) + (l1 + 1) + m1 - 1 then
                dipole fns b theta 1
              else if ((a : Nat) : Int) = (l1 + 1) * (l1 + 1) + (l1 + 1) + m1 + 1 then
                dipole fns b theta 3
              else if (l1 + m1) % 2 = 0 then
                (if ((a : Nat) : Int) = (l1 + 1) * (l1 + 1) + (l1 + 1) + m1 then
                  dipole fns b theta 2
                else 0)
              else if ((a : Nat) : Int) = l1 * l1 - l1 + m1 then dipole fns b theta 2
              else if ((a : Nat) : Int) = (l1 + 1) * (l1 + 1) + (l1 + 1) + m1 - 2 then
                -dipole fns b theta 2
              else if ((a : Nat) : Int) = (l1 + 1) * (l1 + 1) + (l1 + 1) + m1 + 2 then
                -dipole fns b theta 2
              else 0) ∧
          (∀ a : Fin (N2_of ydeg), ((a : Nat) : Int) = l1 * l1 + l1 + m1 →
            computeI fns ydeg b theta I_old a n1 = 0) ∧
          ((l1 + m1) % 2 = 1 →
            ∀ a : Fin (N2_of ydeg),
              ((a : Nat) : Int) = (l1 + 1) * (l1 + 1) + (l1 + 1) + m1 →
                computeI fns ydeg b theta I_old a n1 = 0) := by
  refine ⟨(computeI_loop_log ydeg (dipole fns b theta)).2, ?_⟩
  intro l1 m1 hl hl2 hm1 hm2 n1 hn1
  have hp0 : dipole fns b theta 0 = 0 := rfl
  have hc : (l1 + 1) * (l1 + 1) = l1 * l1 + 2 * l1 + 1 := by ring
  have key : ∀ a : Fin (N2_of ydeg),
      computeI fns ydeg b theta I_old a n1 =
        if ((a : Nat) : Int) = (l1 + 1) * (l1 + 1) + (l1 + 1) + m1 - 1 then
          dipole fns b theta 1
        else if ((a : Nat) : Int) = (l1 + 1) * (l1 + 1) + (l1 + 1) + m1 + 1 then
          dipole fns b theta 3
        else if (l1 + m1) % 2 = 0 then
          (if ((a : Nat) : Int) = (l1 + 1) * (l1 + 1) + (l1 + 1) + m1 then
            dipole fns b theta 2
          else 0)
        else if ((a : Nat) : Int) = l1 * l1 - l1 + m1 then dipole fns b theta 2
        else if ((a : Nat) : Int) = (l1 + 1) * (l1 + 1) + (l1 + 1) + m1 - 2 then
          -dipole fns b theta 2
        else if ((a : Nat) : Int) = (l1 + 1) * (l1 + 1) + (l1 + 1) + m1 + 2 then
          -dipole fns b theta 2
        else 0 := by
    intro a
    unfold computeI
    rw [computeI_loop_col ydeg _ l1 m1 hl (by omega) hm1 hm2 a n1 hn1, hp0, ite_self, zero_add]
    by_cases hpar : (l1 + m1).tmod 2 = 0
    · have hev : (l1 + m1) % 2 = 0 := by rw [← tmod_two_of_nonneg (by omega)]; exact hpar
      rw [if_pos hpar]
      by_cases h1 : ((a : Nat) : Int) = (l1 + 1) * (l1 + 1) + (l1 + 1) + m1 - 1
      · rw [if_pos h1]
        repeat (first | rw [if_pos (by omega)] | rw [if_neg (by omega)])
        simp
      · rw [if_neg h1]
        by_cases h2 : ((a : Nat) : Int) = (l1 + 1) * (l1 + 1) + (l1 + 1) + m1 + 1
        · rw [if_pos h2]
          repeat (first | rw [if_pos (by omega)] | rw [if_neg (by omega)])
          simp
        · rw [if_neg h2, if_pos hev]
          by_cases h3 : ((a : Nat) : Int) = (l1 + 1) * (l1 + 1) + (l1 + 1) + m1
          · rw [if_pos h3]
            repeat (first | rw [if_pos (by omega)] | rw [if_neg (by omega)])
            simp
          · rw [if_neg h3]
            repeat (first | rw [if_pos (by omega)] | rw [if_neg (by omega)])
            simp
    · have hodd : (l1 + m1) % 2 = 1 := by
        rw [tmod_two_of_nonneg (by omega)] at hpar
        omega
      rw [if_neg hpar]
      by_cases h1 : ((a : Nat) : Int) = (l1 + 1) * (l1 + 1) + (l1 + 1) + m1 - 1
      · rw [if_pos h1]
        repeat (first | rw [if_pos (by omega)] | rw [if_neg (by omega)])
        simp
      · rw [if_neg h1]
        by_cases h2 : ((a : Nat) : Int) = (l1 + 1) * (l1 + 1) + (l1 + 1) + m1 + 1
        · rw [if_pos h2]
          repeat (first | rw [if_pos (by omega)] | rw [if_neg (by omega)])
          simp
        · rw [if_neg h2, if_neg (by omega : ¬ (l1 + m1) % 2 = 0)]
          by_cases h3 : ((a : Nat) : Int) = l1 * l1 - l1 + m1
          · rw [if_pos h3]
            repeat (first | rw [if_pos (by omega)] | rw [if_neg (by omega)])
            simp
          · rw [if_neg h3]
            by_cases h4 : ((a : Nat) : Int) = (l1 + 1) * (l1 + 1) + (l1 + 1) + m1 - 2
            · rw [if_pos h4]
              repeat (first | rw [if_pos (by omega)] | rw [if_neg (by omega)])
              simp
            · rw [if_neg h4]
              by_cases h5 : ((a : Nat) : Int) = (l1 + 1) * (l1 + 1) + (l1 + 1) + m1 + 2
              · rw [if_pos h5]
                repeat (first | rw [if_pos (by omega)] | rw [if_neg (by omega)])
                simp
              · rw [if_neg h5]
                repeat (first | rw [if_pos (by omega)] | rw [if_neg (by omega)])
                simp
  refine ⟨key, ?_, ?_⟩
  · intro a ha
    rw [key a]
    repeat (first | rw [if_pos (by omega)] | rw [if_neg (by omega)])
    by_cases hev : (l1 + m1) % 2 = 0
    · rw [if_pos hev, if_neg (by omega)]
    · rw [if_neg hev]
      repeat (first | rw [if_pos (by omega)] | rw [if_neg (by omega)])
  · intro hodd a ha
    rw [key a]
    repeat (first | rw [if_pos (by omega)] | rw [if_neg (by omega)])

end occultation
end reflected
end starry

/-! ## The factorial tables -/

namespace fact

/-- The rational value of a decimal literal as a quotient of an integer by a power of
ten. -/
theorem Decimal.toRat_eq (d : Decimal) :
    d.toRat = ((d.mantissa * 10 ^ d.exponent.toNat : Int) : ℚ)
      / ((10 ^ (-d.exponent).toNat : Nat) : ℚ) := by
  unfold Decimal.toRat
  rcases le_total 0 d.exponent with h | h
  · have e1 : (-d.exponent).toNat = 0 := by omega
    rw [e1]
    conv_lhs => rw [← Int.toNat_of_nonneg h]
    push_cast
    rw [zpow_natCast]
    simp
  · have e1 : d.exponent.toNat = 0 := by omega
    have e2 : d.exponent = -(((-d.exponent).toNat : Nat) : Int) := by omega
    rw [e1]
    conv_lhs => rw [e2]
    push_cast
    rw [zpow_neg, zpow_natCast]
    simp [div_eq_mul_inv]

/-- From the integer form of the accuracy test to the rational one. -/
theorem accuracy_of_int (m : Int) (q : Nat) (F : Nat) (hq : 0 < q)
    (h : |m - (F : Int) * q| * 10 ^ 24 ≤ (F : Int) * q) :
    |(m : ℚ) / (q : ℚ) - (F : ℚ)| ≤ (F : ℚ) / 10 ^ 24 := by
  have hq' : (0 : ℚ) < q := by exact_mod_cast hq
  have e : (m : ℚ) / q - F = ((m - (F : Int) * q : Int) : ℚ) / q := by
    push_cast
    field_simp
    ring
  rw [e, abs_div, abs_of_pos hq', div_le_div_iff₀ hq' (by positivity)]
  have h' : ((|m - (F : Int) * q| * 10 ^ 24 : Int) : ℚ) ≤ (((F : Int) * q : Int) : ℚ) := by
    exact_mod_cast h
  push_cast at h'
  push_cast
  linarith

set_option maxRecDepth 1000000 in
/-- Every row of `fact_table`, checked in integer arithmetic: row `i` is labelled `i`
and its value is within `10^-24` of `i!`, relatively. -/
theorem fact_table_check :
    (fact_table.enum.all fun p =>
      decide (p.2.n = (p.1 : Int)) &&
      decide (|p.2.f.mantissa * 10 ^ p.2.f.exponent.toNat
          - (Nat.factorial p.1 : Int) * (10 ^ (-p.2.f.exponent).toNat : Nat)| * 10 ^ 24
        ≤ (Nat.factorial p.1 : Int) * (10 ^ (-p.2.f.exponent).toNat : Nat))) = true := by
  decide

/-- The table `fact_table` has 171 rows. -/
theorem fact_table_length : fact_table.length = 171 := by
  rfl

/-- Row `i` of `fact_table` is labelled `i` and holds `i!` to a relative error of
`10^-24`. -/
theorem fact_table_row (i : Nat) (hi : i < 171) :
    ∃ e, fact_table[i]? = some e ∧ e.n = (i : Int) ∧
      |e.f.toRat - (Nat.factorial i : ℚ)| ≤ (Nat.factorial i : ℚ) / 10 ^ 24 := by
  have hi' : i < fact_table.length := by rw [fact_table_length]; exact hi
  have hget : fact_table[i]? = some fact_table[i] := List.getElem?_eq_getElem hi'
  refine ⟨fact_table[i], hget, ?_⟩
  have hmem : (i, fact_table[i]) ∈ fact_table.enum := by
    rw [List.mk_mem_enum_iff_getElem?]
    exact hget
  have h := List.all_eq_true.1 fact_table_check _ hmem
  simp only [Bool.and_eq_true, decide_eq_true_eq] at h
  refine ⟨h.1, ?_⟩
  rw [Decimal.toRat_eq]
  exact accuracy_of_int _ _ _ (by positivity) h.2

/-- The read of row `n` of `fact_table`, for `0 ≤ n ≤ 170`. -/
theorem tableAt_fact (n : Int) (h0 : 0 ≤ n) (h1 : n ≤ 170) :
    ∃ e, fact_table[n.toNat]? = some e ∧ e.n = n ∧ tableAt fact_table n = some e.f ∧
      |e.f.toRat - (Nat.factorial n.toNat : ℚ)| ≤ (Nat.factorial n.toNat : ℚ) / 10 ^ 24 := by
  obtain ⟨e, he, hn, hacc⟩ := fact_table_row n.toNat (by omega)
  refine ⟨e, he, by omega, ?_, hacc⟩
  unfold tableAt
  rw [if_pos h0, he]
  rfl

/-- C15: `factorial(n)` returns `NAN` if and only if `n < 0` or `n > 170`; for
`0 ≤ n ≤ 170` it returns the value of the row of `fact_table` with index `n`, whose
label is `n` and whose value, read as an exact decimal, is `n!` to a relative error of
at most `10^-24`. -/
theorem factorial_table_accuracy (n : Int) :
    ((∃ out, factorial n = some (Double.nan, out)) ↔ (n < 0 ∨ n > 170)) ∧
      (0 ≤ n ∧ n ≤ 170 →
        ∃ e, fact_table[n.toNat]? = some e ∧ e.n = n ∧
          factorial n = some (Double.num e.f, []) ∧
          |e.f.toRat - (Nat.factorial n.toNat : ℚ)| ≤ (Nat.factorial n.toNat : ℚ) / 10 ^ 24) := by
  have hin : 0 ≤ n ∧ n ≤ 170 →
      ∃ e, fact_table[n.toNat]? = some e ∧ e.n = n ∧
        factorial n = some (Double.num e.f, []) ∧
        |e.f.toRat - (Nat.factorial n.toNat : ℚ)| ≤ (Nat.factorial n.toNat : ℚ) / 10 ^ 24 := by
    rintro ⟨h0, h1⟩
    obtain ⟨e, he, hn, ht, hacc⟩ := tableAt_fact n h0 h1
    refine ⟨e, he, hn, ?_, hacc⟩
    unfold factorial STARRY_MAX_FACT
    rw [if_neg (by omega), ht]
    rfl
  refine ⟨⟨?_, ?_⟩, hin⟩
  · rintro ⟨out, h⟩
    by_contra hc
    obtain ⟨e, _, _, he, _⟩ := hin (by omega)
    rw [he] at h
    simp at h
  · intro h
    refine ⟨["ERROR: Factorial argument out of bounds."], ?_⟩
    unfold factorial STARRY_MAX_FACT
    rw [if_pos h]

set_option maxRecDepth 100000 in
/-- The table `half_fact_table` has 342 rows. -/
theorem half_fact_table_length : half_fact_table.length = 342 := by
  rfl

set_option maxRecDepth 1000000 in
/-- Row `i` of `half_fact_table` is labelled `2 i - 341`, checked row by row. -/
theorem half_fact_table_labels :
    (half_fact_table.enum.all fun p => decide (p.2.n = 2 * (p.1 : Int) - 341)) = true := by
  decide

/-- Row `i` of `half_fact_table` is labelled `2 i - 341`. -/
theorem half_fact_table_row (i : Nat) (hi : i < 342) :
    ∃ e, half_fact_table[i]? = some e ∧ e.n = 2 * (i : Int) - 341 := by
  have hi' : i < half_fact_table.length := by rw [half_fact_table_length]; exact hi
  have hget : half_fact_table[i]? = some half_fact_table[i] :=
    List.getElem?_eq_getElem hi'
  refine ⟨half_fact_table[i], hget, ?_⟩
  have hmem : (i, half_fact_table[i]) ∈ half_fact_table.enum := by
    rw [List.mk_mem_enum_iff_getElem?]
    exact hget
  have h := List.all_eq_true.1 half_fact_table_labels _ hmem
  simpa using h

/-- C16: `half_factorial(n)` returns `NAN` if and only if `n < -341` or `n > 341`; for
even `n` in range it returns `INFINITY` when `n < 0` and `factorial(n / 2)` when
`n ≥ 0`; for odd `n` in range the index `(n + 341) / 2` lies inside the 342 rows of
`half_fact_table` and the value returned is that of the row labelled `n`. -/
theorem half_factorial_cases (n : Int) :
    ((∃ out, half_factorial n = some (Double.nan, out)) ↔ (n < -341 ∨ n > 341)) ∧
      (-341 ≤ n ∧ n ≤ 341 ∧ n % 2 = 0 ∧ n < 0 → half_factorial n = some (Double.inf, [])) ∧
      (-341 ≤ n ∧ n ≤ 341 ∧ n % 2 = 0 ∧ 0 ≤ n →
        half_factorial n = factorial (n / 2) ∧
          ∃ e, fact_table[(n / 2).toNat]? = some e ∧ e.n = n / 2 ∧
            half_factorial n = some (Double.num e.f, [])) ∧
      (-341 ≤ n ∧ n ≤ 341 ∧ n % 2 = 1 →
        half_fact_table.length = 342 ∧ 0 ≤ (n + 341) / 2 ∧ (n + 341) / 2 < 342 ∧
          ∃ e, half_fact_table[((n + 341) / 2).toNat]? = some e ∧ e.n = n ∧
            half_factorial n = some (Double.num e.f, [])) := by
  have hpar : n.tmod 2 = 0 ↔ n % 2 = 0 := by
    rw [← Int.dvd_iff_tmod_eq_zero, Int.dvd_iff_emod_eq_zero]
  have hinf : -341 ≤ n ∧ n ≤ 341 ∧ n % 2 = 0 ∧ n < 0 → half_factorial n = some (Double.inf, []) := by
    rintro ⟨h0, h1, h2, h3⟩
    unfold half_factorial STARRY_MAX_HALF_FACT
    rw [if_neg (by omega), if_pos (hpar.2 h2), if_pos h3]
  have heven : -341 ≤ n ∧ n ≤ 341 ∧ n % 2 = 0 ∧ 0 ≤ n →
      half_factorial n = factorial (n / 2) ∧
        ∃ e, fact_table[(n / 2).toNat]? = some e ∧ e.n = n / 2 ∧
          half_factorial n = some (Double.num e.f, []) := by
    rintro ⟨h0, h1, h2, h3⟩
    have hdiv : n.tdiv 2 = n / 2 := Int.tdiv_eq_ediv h3 (by norm_num)
    obtain ⟨e, he, hn, ht, _⟩ := tableAt_fact (n / 2) (by omega) (by omega)
    have hh : half_factorial n = some (Double.num e.f, []) := by
      unfold half_factorial STARRY_MAX_HALF_FACT
      rw [if_neg (by omega), if_pos (hpar.2 h2), if_neg (by omega), hdiv, ht]
      rfl
    have hf : factorial (n / 2) = some (Double.num e.f, []) := by
      unfold factorial STARRY_MAX_FACT
      rw [if_neg (by omega), ht]
      rfl
    exact ⟨hh.trans hf.symm, e, he, hn, hh⟩
  have hodd : -341 ≤ n ∧ n ≤ 341 ∧ n % 2 = 1 →
      half_fact_table.length = 342 ∧ 0 ≤ (n + 341) / 2 ∧ (n + 341) / 2 < 342 ∧
        ∃ e, half_fact_table[((n + 341) / 2).toNat]? = some e ∧ e.n = n ∧
          half_factorial n = some (Double.num e.f, []) := by
    rintro ⟨h0, h1, h2⟩
    have hdiv : (n + 341).tdiv 2 = (n + 341) / 2 := Int.tdiv_eq_ediv (by omega) (by norm_num)
    obtain ⟨e, he, hn⟩ := half_fact_table_row ((n + 341) / 2).toNat (by omega)
    refine ⟨half_fact_table_length, by omega, by omega, e, he, by omega, ?_⟩
    unfold half_factorial STARRY_MAX_HALF_FACT tableAt
    rw [if_neg (by omega), if_neg (by rw [hpar]; omega), hdiv, if_pos (by omega), he]
    rfl
  refine ⟨⟨?_, ?_⟩, hinf, heven, hodd⟩
  · rintro ⟨out, h⟩
    by_contra hc
    rcases Int.emod_two_eq_zero_or_one n with h2 | h2
    · rcases lt_or_le n 0 with h3 | h3
      · rw [hinf ⟨by omega, by omega, h2, h3⟩] at h
        simp at h
      · obtain ⟨_, e, _, _, he⟩ := heven ⟨by omega, by omega, h2, h3⟩
        rw [he] at h
        simp at h
    · obtain ⟨_, _, _, e, _, _, he⟩ := hodd ⟨by omega, by omega, h2⟩
      rw [he] at h
      simp at h
  · intro h
    refine ⟨["ERROR: Half factorial argument out of bounds."], ?_⟩
    unfold half_factorial STARRY_MAX_HALF_FACT
    rw [if_pos h]

/-- From the integer form of the recurrence test to the rational one. -/
theorem recurrence_of_int (A B n : Int) (qa qb : Nat) (hqa : 0 < qa) (hqb : 0 < qb)
    (h : |2 * B * qa - n * A * qb| * 10 ^ 14 ≤ 42 * |B| * qa) :
    |(B : ℚ) / (qb : ℚ) - (n : ℚ) / 2 * ((A : ℚ) / (qa : ℚ))|
      ≤ 21 / 10 ^ 14 * |(B : ℚ) / (qb : ℚ)| := by
  have hqa' : (0 : ℚ) < qa := by exact_mod_cast hqa
  have hqb' : (0 : ℚ) < qb := by exact_mod_cast hqb
  have e : (B : ℚ) / qb - (n : ℚ) / 2 * ((A : ℚ) / qa)
      = ((2 * B * qa - n * A * qb : Int) : ℚ) / (2 * qa * qb) := by
    push_cast
    field_simp
    ring
  have e2 : 21 / 10 ^ 14 * |(B : ℚ) / (qb : ℚ)| = (21 * |(B : ℚ)|) / (10 ^ 14 * qb) := by
    rw [abs_div, abs_of_pos hqb']
    field_simp
  rw [e, e2, abs_div, abs_of_pos (by positivity : (0 : ℚ) < 2 * qa * qb),
    div_le_div_iff₀ (by positivity) (by positivity)]
  have h' : ((|2 * B * qa - n * A * qb| * 10 ^ 14 : Int) : ℚ) ≤ ((42 * |B| * qa : Int) : ℚ) := by
    exact_mod_cast h
  push_cast at h'
  push_cast
  nlinarith [mul_le_mul_of_nonneg_right h' hqb'.le]

/-- From the integer form of the sign test to the rational one. -/
theorem neg_of_int (A B : Int) (qa qb : Nat) (hqa : 0 < qa) (hqb : 0 < qb) (h : B * A < 0) :
    (B : ℚ) / (qb : ℚ) * ((A : ℚ) / (qa : ℚ)) < 0 := by
  have hqa' : (0 : ℚ) < qa := by exact_mod_cast hqa
  have hqb' : (0 : ℚ) < qb := by exact_mod_cast hqb
  have h' : ((B * A : Int) : ℚ) < 0 := by exact_mod_cast h
  push_cast at h'
  rw [div_mul_div_comm]
  exact div_neg_of_neg_of_pos h' (by positivity)

set_option maxRecDepth 1000000 in
/-- Every pair of consecutive rows of `half_fact_table`, checked in integer arithmetic:
the recurrence `h(n) = (n / 2) h(n - 2)` holds to a relative error of `2.1 * 10^-13`,
and the two values have opposite signs when the label of the second is negative. -/
theorem half_fact_table_pairs :
    ((List.range 341).all fun i =>
      match half_fact_table[i]?, half_fact_table[i + 1]? with
      | some a, some b =>
        decide (|2 * (b.f.mantissa * 10 ^ b.f.exponent.toNat) * (10 ^ (-a.f.exponent).toNat : Nat)
            - b.n * (a.f.mantissa * 10 ^ a.f.exponent.toNat) * (10 ^ (-b.f.exponent).toNat : Nat)|
              * 10 ^ 14
          ≤ 42 * |b.f.mantissa * 10 ^ b.f.exponent.toNat| * (10 ^ (-a.f.exponent).toNat : Nat)) &&
        decide (b.n < 0 →
          (b.f.mantissa * 10 ^ b.f.exponent.toNat) * (a.f.mantissa * 10 ^ a.f.exponent.toNat) < 0)
      | _, _ => false) = true := by
  decide

/-- Rows `i` and `i + 1` of `half_fact_table`: labels, recurrence and signs. -/
theorem half_fact_table_pair (i : Nat) (hi : i < 341) :
    ∃ a b, half_fact_table[i]? = some a ∧ half_fact_table[i + 1]? = some b ∧
      a.n = 2 * (i : Int) - 341 ∧ b.n = 2 * (i : Int) - 339 ∧
      |b.f.toRat - (b.n : ℚ) / 2 * a.f.toRat| ≤ 21 / 10 ^ 14 * |b.f.toRat| ∧
      (b.n < 0 → b.f.toRat * a.f.toRat < 0) := by
  obtain ⟨a, ha, hna⟩ := half_fact_table_row i (by omega)
  obtain ⟨b, hb, hnb⟩ := half_fact_table_row (i + 1) (by omega)
  have h := List.all_eq_true.1 half_fact_table_pairs i (List.mem_range.2 hi)
  rw [ha, hb] at h
  simp only [Bool.and_eq_true, decide_eq_true_eq] at h
  refine ⟨a, b, ha, hb, hna, by push_cast at hnb; omega, ?_, ?_⟩
  · rw [Decimal.toRat_eq, Decimal.toRat_eq]
    exact recurrence_of_int _ _ _ _ _ (by positivity) (by positivity) h.1
  · intro hneg
    rw [Decimal.toRat_eq, Decimal.toRat_eq]
    exact neg_of_int _ _ _ _ (by positivity) (by positivity) (h.2 hneg)

/-- From the rational form of the recurrence test, at tolerance `10^-14`, to the integer
one. -/
theorem recurrence_to_int (A B n : Int) (qa qb : Nat) (hqa : 0 < qa) (hqb : 0 < qb)
    (h : |(B : ℚ) / (qb : ℚ) - (n : ℚ) / 2 * ((A : ℚ) / (qa : ℚ))|
      ≤ 1 / 10 ^ 14 * |(B : ℚ) / (qb : ℚ)|) :
    |2 * B * qa - n * A * qb| * 10 ^ 14 ≤ 2 * |B| * qa := by
  have hqa' : (0 : ℚ) < qa := by exact_mod_cast hqa
  have hqb' : (0 : ℚ) < qb := by exact_mod_cast hqb
  have e : (B : ℚ) / qb - (n : ℚ) / 2 * ((A : ℚ) / qa)
      = ((2 * B * qa - n * A * qb : Int) : ℚ) / (2 * qa * qb) := by
    push_cast
    field_simp
    ring
  have e2 : 1 / 10 ^ 14 * |(B : ℚ) / (qb : ℚ)| = (1 * |(B : ℚ)|) / (10 ^ 14 * qb) := by
    rw [abs_div, abs_of_pos hqb']
    field_simp
  rw [e, e2, abs_div, abs_of_pos (by positivity : (0 : ℚ) < 2 * qa * qb),
    div_le_div_iff₀ (by positivity) (by positivity)] at h
  have h' : ((|2 * B * qa - n * A * qb| * 10 ^ 14 : Int) : ℚ) ≤ ((2 * |B| * qa : Int) : ℚ) := by
    push_cast
    push_cast at h
    have h3 : |(2 : ℚ) * B * qa - n * A * qb| * 10 ^ 14 * qb ≤ 2 * |(B : ℚ)| * qa * qb := by
      linarith
    exact le_of_mul_le_mul_right h3 hqb'
  exact_mod_cast h'

/-- A decimal with a positive mantissa has a positive value. -/
theorem Decimal.toRat_pos (d : Decimal) (h : 0 < d.mantissa) : 0 < d.toRat := by
  unfold Decimal.toRat
  have h' : (0 : ℚ) < d.mantissa := by exact_mod_cast h
  positivity

set_option maxRecDepth 1000000 in
/-- C17, as stated, fails at `n = -339`: the rows labelled `-341` and `-339` miss the
recurrence `h(-339) = (-339 / 2) h(-341)` by more than `10^-14` of `|h(-339)|`. -/
theorem half_fact_recurrence_counterexample :
    ∃ a b, half_fact_table[0]? = some a ∧ half_fact_table[1]? = some b ∧
      a.n = -341 ∧ b.n = -339 ∧
      ¬ (|b.f.toRat - (b.n : ℚ) / 2 * a.f.toRat| ≤ 1 / 10 ^ 14 * |b.f.toRat|) := by
  refine ⟨Entry.mk (-341) 5.648220884223258302751563e-306,
    Entry.mk (-339) (-9.573734398758691626495438e-304), rfl, rfl, rfl, rfl, ?_⟩
  intro h
  rw [Decimal.toRat_eq, Decimal.toRat_eq] at h
  have h2 := recurrence_to_int _ _ _ _ _ (by positivity) (by positivity) h
  revert h2
  decide

set_option maxRecDepth 1000000 in
/-- C17, amended: for every odd `n` with `-339 ≤ n ≤ 341` the rows of `half_fact_table`
labelled `n - 2` and `n`, read as exact decimals, satisfy
`|h(n) - (n / 2) h(n - 2)| ≤ 2.1 * 10^-13 * |h(n)|`; for negative `n` the two have
opposite signs, and `h(-1) > 0`. -/
theorem half_fact_recurrence (n : Int) (hodd : n % 2 = 1) (h0 : -339 ≤ n) (h1 : n ≤ 341) :
    (∃ a b, half_fact_table[((n - 2 + 341) / 2).toNat]? = some a ∧
        half_fact_table[((n + 341) / 2).toNat]? = some b ∧ a.n = n - 2 ∧ b.n = n ∧
        |b.f.toRat - (n : ℚ) / 2 * a.f.toRat| ≤ 21 / 10 ^ 14 * |b.f.toRat| ∧
        (n < 0 → b.f.toRat * a.f.toRat < 0)) ∧
      ∃ c, half_fact_table[170]? = some c ∧ c.n = -1 ∧ 0 < c.f.toRat := by
  constructor
  · obtain ⟨a, b, ha, hb, hna, hnb, hrec, hsign⟩ :=
      half_fact_table_pair ((n - 2 + 341) / 2).toNat (by omega)
    have e : ((n - 2 + 341) / 2).toNat + 1 = ((n + 341) / 2).toNat := by omega
    rw [e] at hb
    have hbn : b.n = n := by omega
    rw [hbn] at hrec hsign
    exact ⟨a, b, ha, hb, by omega, hbn, hrec, hsign⟩
  · exact ⟨Entry.mk (-1) 1.772453850905516103964032, rfl, rfl,
      Decimal.toRat_pos _ (by decide)⟩

/-- C17 amended, instantiated at `n = 1`: the rows labelled `-1` and `1`. -/
theorem half_fact_recurrence_witness :
    ∃ a b, half_fact_table[((1 - 2 + 341 : Int) / 2).toNat]? = some a ∧
      half_fact_table[((1 + 341 : Int) / 2).toNat]? = some b ∧ a.n = 1 - 2 ∧ b.n = 1 ∧
      |b.f.toRat - ((1 : Int) : ℚ) / 2 * a.f.toRat| ≤ 21 / 10 ^ 14 * |b.f.toRat| ∧
      ((1 : Int) < 0 → b.f.toRat * a.f.toRat < 0) :=
  (half_fact_recurrence 1 (by decide) (by decide) (by decide)).1

end fact

/-! ## The index parsers -/

namespace interface

/-- Storing into an `int` a value that fits one leaves it unchanged. -/
theorem wrap32_of_range (x : Int) (h0 : -2147483648 ≤ x) (h1 : x < 2147483648) :
    wrap32 x = x := by
  unfold wrap32
  omega

/-- Storing into a `ssize_t` a value that fits an `int` leaves it unchanged. -/
theorem wrap64_of_range (x : Int) (h0 : -2147483648 ≤ x) (h1 : x < 2147483648) :
    wrap64 x = x := by
  unfold wrap64
  omega

/-- The function `PyLong_AsSsize_t` returns the value of an integer that fits a `ssize_t`. -/
theorem PyLong_AsSsize_t_of_range (v : Int) (h0 : -9223372036854775808 ≤ v)
    (h1 : v < 9223372036854775808) : PyLong_AsSsize_t v = v := by
  unfold PyLong_AsSsize_t
  rw [if_pos ⟨h0, h1⟩]

/-- The cast `py::cast<int>` succeeds on a value that fits an `int`. -/
theorem cast_int_of_range (v : Int) (h0 : -2147483648 ≤ v) (h1 : v < 2147483648) :
    cast_int v = .ok v := by
  unfold cast_int
  rw [if_pos ⟨h0, h1⟩]

/-- A slice of step one whose bounds fit an `int` is read as it is written: an omitted
start is `smin`, an omitted stop is `smax`, and a given stop is made inclusive. -/
theorem reinterpret_slice_eq (start stop step : Option Int) (smin smax : Int)
    (hstep : step = none ∨ step = some 1)
    (hstart : ∀ v, start = some v → -2147483648 ≤ v ∧ v < 2147483648)
    (hstop : ∀ v, stop = some v → -2147483648 < v ∧ v ≤ 2147483648) :
    reinterpret_slice start stop step smin smax
      = .ok (start.getD smin, (stop.map fun v => v - 1).getD smax, 1) := by
  have hcond : step = none ∨ step.map PyLong_AsSsize_t = some 1 := by
    rcases hstep with h | h
    · exact Or.inl h
    · right
      rw [h]
      rfl
  have e1 : ∀ s : Option Int, (∀ v, s = some v → -2147483648 ≤ v ∧ v < 2147483648) →
      (match s with
        | none => smin
        | some v => wrap32 (PyLong_AsSsize_t v)) = s.getD smin := by
    intro s hs
    cases s with
    | none => rfl
    | some v =>
      obtain ⟨h0, h1⟩ := hs v rfl
      show wrap32 (PyLong_AsSsize_t v) = v
      rw [PyLong_AsSsize_t_of_range v (by omega) (by omega), wrap32_of_range v h0 h1]
  have e2 : ∀ s : Option Int, (∀ v, s = some v → -2147483648 < v ∧ v ≤ 2147483648) →
      (match s with
        | none => smax
        | some v => wrap32 (wrap64 (PyLong_AsSsize_t v - 1)))
        = (s.map fun v => v - 1).getD smax := by
    intro s hs
    cases s with
    | none => rfl
    | some v =>
      obtain ⟨h0, h1⟩ := hs v rfl
      show wrap32 (wrap64 (PyLong_AsSsize_t v - 1)) = v - 1
      rw [PyLong_AsSsize_t_of_range v (by omega) (by omega),
        wrap64_of_range (v - 1) (by omega) (by omega),
        wrap32_of_range (v - 1) (by omega) (by omega)]
  unfold reinterpret_slice
  simp only [e1 start hstart, e2 stop hstop]
  rw [if_pos hcond]

/-- A loop of step one whose body appends `f i` at every counter `i` of `[lo, bound)`
runs to its end within `bound - i` iterations and appends the values of `f` in
increasing order of the counter. -/
theorem forInt_append (f : Int → Int) (lo bound : Int) (hb : bound ≤ 2147483647)
    (body : Int → List Int → Outcome (List Int))
    (hbody : ∀ i inds, lo ≤ i → i < bound → body i inds = some (.ok (inds ++ [f i]))) :
    ∀ (fuel : Nat) (i : Int) (inds : List Int), lo ≤ i → -2147483648 ≤ i →
      fuel = (bound - i).toNat →
      forInt wrap32 fuel i bound 1 body inds
        = some (.ok (inds ++ (List.range fuel).map fun (k : Nat) => f (i + (k : Int)))) := by
  intro fuel
  induction fuel with
  | zero =>
    intro i inds _ _ hf
    have hi : ¬ i < bound := by omega
    unfold forInt
    rw [if_neg hi]
    simp
  | succ fuel ih =>
    intro i inds hlo himin hf
    have hi : i < bound := by omega
    unfold forInt
    rw [if_pos hi]
    simp only [hbody i inds hlo hi]
    rw [wrap32_of_range (i + 1) (by omega) (by omega),
      ih (i + 1) (inds ++ [f i]) (by omega) (by omega) (by omega)]
    rw [List.range_succ_eq_map, List.map_cons, List.map_map, List.append_assoc]
    have e : (fun k : Nat => f (i + 1 + (k : Int)))
        = ((fun k : Nat => f (i + (k : Int))) ∘ Nat.succ) := by
      funext k
      simp only [Function.comp]
      congr 1
      push_cast
      ring
    rw [e]
    simp

/-- The index of `(l, m)` is computed without overflow and accepted whenever
`0 ≤ l ≤ lmax` and `-l ≤ m ≤ l`. -/
theorem pushYlm_ok (lmax l m : Int) (hl0 : 0 ≤ l) (hl1 : l ≤ lmax)
    (hN : (lmax + 1) * (lmax + 1) < 2147483648) (hm0 : -l ≤ m) (hm1 : m ≤ l)
    (inds : List Int) :
    pushYlm (wrap32 (wrap32 (lmax + 1) * wrap32 (lmax + 1))) l m inds
      = some (.ok (inds ++ [l * l + l + m])) := by
  have h1 : lmax + 1 ≤ (lmax + 1) * (lmax + 1) := by nlinarith
  have h2 : (l + 1) * (l + 1) ≤ (lmax + 1) * (lmax + 1) := by nlinarith
  have h3 : 0 ≤ l * l := by nlinarith
  have h4 : (l + 1) * (l + 1) = l * l + 2 * l + 1 := by ring
  have eN : wrap32 (wrap32 (lmax + 1) * wrap32 (lmax + 1)) = (lmax + 1) * (lmax + 1) := by
    rw [wrap32_of_range (lmax + 1) (by omega) (by omega),
      wrap32_of_range _ (by omega) hN]
  have en : wrap32 (wrap32 (wrap32 (l * l) + l) + m) = l * l + l + m := by
    rw [wrap32_of_range (l * l) (by omega) (by omega),
      wrap32_of_range (l * l + l) (by omega) (by omega),
      wrap32_of_range (l * l + l + m) (by omega) (by omega)]
  unfold pushYlm
  simp only [eN, en]
  rw [if_neg (by omega)]

/-- The parser applied to the integer pair `(1, 2)` with `lmax = 2`, where `m > l`: the
index `4` is returned and no error is raised. -/
theorem get_Ylm_inds_pair_out_of_range :
    get_Ylm_inds 2 [PyObject.int_ 1, PyObject.int_ 2] = some (.ok [4]) :=
  rfl

/-- A value stored into an `int` lies in the range of an `int`. -/
theorem wrap32_range (x : Int) : -2147483648 ≤ wrap32 x ∧ wrap32 x < 2147483648 := by
  unfold wrap32
  omega

/-- A slice of step one as `reinterpret_slice` reads it: a given start is stored into an
`int` from the `ssize_t` returned by `PyLong_AsSsize_t`, a given stop likewise after the
subtraction of one, an omitted start is `smin` and an omitted stop is `smax`. -/
theorem reinterpret_slice_step_one (start stop step : Option Int) (smin smax : Int)
    (hstep : step = none ∨ step = some 1) :
    reinterpret_slice start stop step smin smax
      = .ok ((start.map fun v => wrap32 (PyLong_AsSsize_t v)).getD smin,
          (stop.map fun v => wrap32 (wrap64 (PyLong_AsSsize_t v - 1))).getD smax, 1) := by
  have hcond : step = none ∨ step.map PyLong_AsSsize_t = some 1 := by
    rcases hstep with h | h
    · exact Or.inl h
    · right
      rw [h]
      rfl
  unfold reinterpret_slice
  rw [if_pos hcond]
  cases start <;> cases stop <;> rfl

/-- C19, as stated, fails: for `(1, 4294967295:)` with `lmax = 3` no `m` satisfies
`max(start, -l) ≤ m ≤ min(stop - 1, l)`, so the claim gives the empty list, but the start
`4294967295` is stored into the `int` `mstart` as `-1` and `get_Ylm_inds` returns the
indices `[1, 2, 3]` of `m = -1, 0, 1`. -/
theorem get_Ylm_inds_int_slice_counterexample :
    get_Ylm_inds 3 [PyObject.int_ 1, PyObject.slice (some 4294967295) none none]
        = some (.ok [1, 2, 3]) ∧
      (¬ ∃ m : Int, max 4294967295 (-1) ≤ m ∧ m ≤ min 1 1) ∧
      get_Ylm_inds 3 [PyObject.int_ 1, PyObject.slice (some 4294967295) none none]
        ≠ some (.ok []) :=
  ⟨rfl, by
    rintro ⟨m, h1, h2⟩
    have e1 : max (4294967295 : Int) (-1) = 4294967295 := by decide
    have e2 : min (1 : Int) 1 = 1 := by decide
    rw [e1] at h1
    rw [e2] at h2
    omega, by
    intro h
    have e : get_Ylm_inds 3 [PyObject.int_ 1, PyObject.slice (some 4294967295) none none]
        = some (.ok [1, 2, 3]) := rfl
    rw [e] at h
    cases h⟩

/-- C19, amended: for an integer `0 ≤ l ≤ lmax` (with `(lmax + 1)^2` an `int`) and a slice
`start:stop` of step one, `get_Ylm_inds` returns, in increasing order of `m`, the indices
`l^2 + l + m` for `max(start, -l) ≤ m ≤ min(stop - 1, l)`, where `start` and `stop - 1`
are the values the code stores into its `int` variables: `-l` for an omitted start, `l`
for an omitted stop, `(int) PyLong_AsSsize_t(start)` and
`(int) (PyLong_AsSsize_t(stop) - 1)` otherwise.  The stored values are `start` and
`stop - 1` themselves whenever `-2^31 ≤ start < 2^31` and `-2^31 < stop ≤ 2^31`, negative
bounds included. -/
theorem get_Ylm_inds_int_slice (lmax l : Int) (start stop step : Option Int)
    (hl0 : 0 ≤ l) (hl1 : l ≤ lmax) (hN : (lmax + 1) * (lmax + 1) < 2147483648)
    (hstep : step = none ∨ step = some 1) :
    get_Ylm_inds lmax [PyObject.int_ l, PyObject.slice start stop step]
      = some (.ok ((List.range
          (min ((stop.map fun v => wrap32 (wrap64 (PyLong_AsSsize_t v - 1))).getD l) l + 1
            - max ((start.map fun v => wrap32 (PyLong_AsSsize_t v)).getD (-l)) (-l)).toNat).map
          fun (k : Nat) => l * l + l
            + (max ((start.map fun v => wrap32 (PyLong_AsSsize_t v)).getD (-l)) (-l)
              + (k : Int)))) ∧
      ((∀ v, start = some v → -2147483648 ≤ v ∧ v < 2147483648) →
        (start.map fun v => wrap32 (PyLong_AsSsize_t v)).getD (-l) = start.getD (-l)) ∧
      ((∀ v, stop = some v → -2147483648 < v ∧ v ≤ 2147483648) →
        (stop.map fun v => wrap32 (wrap64 (PyLong_AsSsize_t v - 1))).getD l
          = (stop.map fun v => v - 1).getD l) := by
  refine ⟨?_, ?_, ?_⟩
  · have h1 : lmax + 1 ≤ (lmax + 1) * (lmax + 1) := by nlinarith
    have hneg : wrap32 (-l) = -l := wrap32_of_range (-l) (by omega) (by omega)
    have ht : -2147483648 ≤ (stop.map fun v => wrap32 (wrap64 (PyLong_AsSsize_t v - 1))).getD l := by
      cases stop with
      | none => simp only [Option.map_none', Option.getD_none]; omega
      | some v =>
        simp only [Option.map_some', Option.getD_some]
        exact (wrap32_range _).1
    have hlo : (if (start.map fun v => wrap32 (PyLong_AsSsize_t v)).getD (-l) < -l then -l
        else (start.map fun v => wrap32 (PyLong_AsSsize_t v)).getD (-l))
        = max ((start.map fun v => wrap32 (PyLong_AsSsize_t v)).getD (-l)) (-l) := by
      split <;> omega
    have hhi : (if (stop.map fun v => wrap32 (wrap64 (PyLong_AsSsize_t v - 1))).getD l > l then l
        else (stop.map fun v => wrap32 (wrap64 (PyLong_AsSsize_t v - 1))).getD l)
        = min ((stop.map fun v => wrap32 (wrap64 (PyLong_AsSsize_t v - 1))).getD l) l := by
      split <;> omega
    unfold get_Ylm_inds
    simp only [List.length_cons, List.length_nil, ne_eq, not_true_eq_false, if_false,
      Nat.reduceAdd, cast_int_of_range l (by omega) (by omega), hneg,
      reinterpret_slice_step_one start stop step (-l) l hstep]
    unfold mLoop
    simp only [hneg, hlo, hhi]
    rw [wrap32_of_range
      (min ((stop.map fun v => wrap32 (wrap64 (PyLong_AsSsize_t v - 1))).getD l) l + 1)
      (by omega) (by omega)]
    rw [forInt_append (fun m => l * l + l + m) (-l) _ (by omega) _
      (fun m inds h0 h1 => pushYlm_ok lmax l m hl0 hl1 hN h0 (by omega) inds) _ _ []
      (by omega) (by omega) rfl]
    simp
  · intro hs
    cases start with
    | none => simp only [Option.map_none', Option.getD_none]
    | some v =>
      obtain ⟨h0, h1⟩ := hs v rfl
      simp only [Option.map_some', Option.getD_some]
      rw [PyLong_AsSsize_t_of_range v (by omega) (by omega), wrap32_of_range v h0 h1]
  · intro hs
    cases stop with
    | none => simp only [Option.map_none', Option.getD_none]
    | some v =>
      obtain ⟨h0, h1⟩ := hs v rfl
      simp only [Option.map_some', Option.getD_some]
      rw [PyLong_AsSsize_t_of_range v (by omega) (by omega),
        wrap64_of_range (v - 1) (by omega) (by omega),
        wrap32_of_range (v - 1) (by omega) (by omega)]

/-- C19 at the example of the claim: `(3, -3:0)` with `lmax = 3` gives `[9, 10, 11]`. -/
theorem get_Ylm_inds_int_slice_witness :
    get_Ylm_inds 3 [PyObject.int_ 3, PyObject.slice (some (-3)) (some 0) none]
      = some (.ok [9, 10, 11]) :=
  (get_Ylm_inds_int_slice 3 3 (some (-3)) (some 0) none (by decide) (by decide) (by decide)
    (Or.inl rfl)).1

/-- C20, as stated, fails: for `l = 2^31` and `lmax = 3` one has `l > lmax`, but the cast
`py::cast<int>` fails before the range test and `get_Ul_inds` raises `cast_error`, not
`IndexError`. -/
theorem get_Ul_inds_int_counterexample :
    ((2147483648 : Int) < 1 ∨ (2147483648 : Int) > 3) ∧
      get_Ul_inds (fun _ _ _ _ => none) 3 (PyObject.int_ 2147483648)
        = some (.error Error.cast_error) ∧
      ¬ ∃ msg, get_Ul_inds (fun _ _ _ _ => none) 3 (PyObject.int_ 2147483648)
        = some (.error (Error.IndexError msg)) :=
  ⟨Or.inr (by decide), rfl, by
    rintro ⟨msg, h⟩
    have e : get_Ul_inds (fun _ _ _ _ => none) 3 (PyObject.int_ 2147483648)
        = some (.error Error.cast_error) := rfl
    rw [e] at h
    cases h⟩

/-- C20, amended: applied to an integer `l`, `get_Ul_inds` returns `[l]` when
`1 ≤ l ≤ lmax` and `l` fits a C `int` (as it does whenever `lmax` is an `int`); it raises
`IndexError` with the message "Invalid value for `l`." if and only if `l < 1` or
`l > lmax`, and `l` fits a C `int`; and for an integer that does not fit a C `int` it
raises the `cast_error` of `py::cast<int>`. -/
theorem get_Ul_inds_int (compute : Int → Option Int → Option Int → Option Int →
      Option (Int × Int × Int × Int)) (lmax l : Int) :
    (1 ≤ l ∧ l ≤ lmax ∧ l < 2147483648 →
        get_Ul_inds compute lmax (PyObject.int_ l) = some (.ok [l])) ∧
      (lmax < 2147483648 → 1 ≤ l ∧ l ≤ lmax →
        get_Ul_inds compute lmax (PyObject.int_ l) = some (.ok [l])) ∧
      ((∃ msg, get_Ul_inds compute lmax (PyObject.int_ l)
          = some (.error (Error.IndexError msg))) ↔
        ((l < 1 ∨ l > lmax) ∧ -2147483648 ≤ l ∧ l < 2147483648)) ∧
      ((l < 1 ∨ l > lmax) ∧ -2147483648 ≤ l ∧ l < 2147483648 →
        get_Ul_inds compute lmax (PyObject.int_ l)
          = some (.error (Error.IndexError "Invalid value for `l`."))) ∧
      (l < -2147483648 ∨ 2147483648 ≤ l →
        get_Ul_inds compute lmax (PyObject.int_ l) = some (.error Error.cast_error)) := by
  have e : -2147483648 ≤ l → l < 2147483648 → get_Ul_inds compute lmax (PyObject.int_ l)
      = if l < 1 ∨ l > lmax then some (.error (Error.IndexError "Invalid value for `l`."))
        else some (.ok [l]) := by
    intro h0 h1
    unfold get_Ul_inds
    simp only [cast_int_of_range l h0 h1]
  have c : l < -2147483648 ∨ 2147483648 ≤ l →
      get_Ul_inds compute lmax (PyObject.int_ l) = some (.error Error.cast_error) := by
    intro h
    have hc : cast_int l = .error Error.cast_error := by
      unfold cast_int
      rw [if_neg (by omega)]
    unfold get_Ul_inds
    simp only [hc]
  refine ⟨fun h => ?_, fun hm h => ?_, ⟨fun h => ?_, fun h => ?_⟩, fun h => ?_, c⟩
  · rw [e (by omega) (by omega), if_neg (by omega)]
  · rw [e (by omega) (by omega), if_neg (by omega)]
  · obtain ⟨msg, hmsg⟩ := h
    by_cases hr : -2147483648 ≤ l ∧ l < 2147483648
    · refine ⟨?_, hr⟩
      by_contra hc
      rw [e hr.1 hr.2, if_neg hc] at hmsg
      cases hmsg
    · rw [c (by omega)] at hmsg
      cases hmsg
  · exact ⟨_, by rw [e h.2.1 h.2.2, if_pos h.1]⟩
  · rw [e h.2.1 h.2.2, if_pos h.1]

/-- C20 instantiated at `lmax = 3`: `l = 2` gives `[2]`, for a `slice.compute` that always
fails. -/
theorem get_Ul_inds_int_witness :
    get_Ul_inds (fun _ _ _ _ => none) 3 (PyObject.int_ 2) = some (.ok [2]) :=
  (get_Ul_inds_int (fun _ _ _ _ => none) 3 2).1 (by decide)

end interface

/-! ## The Taylor basis and the normalization of the Agol basis -/

namespace maps

/-- The loop of `computeTaylor`: started from a basis with `taylor(0) = 1`, it leaves
`taylor(k) = t^k / k!` for every `k`. -/
theorem taylor_loop {R : Type} [Field R] {ncol : Nat} (t : R) (taylor : Fin ncol → R)
    (h0 : ∀ k : Fin ncol, (k : Nat) = 0 → taylor k = 1) (k : Fin ncol) :
    starry.reflected.occultation.forLoop 1 (ncol : Int)
        (fun n taylor =>
          assignVec taylor n
            (starry.reflected.occultation.vecCoeff taylor (n - 1) * t / ((n : Int) : R)))
        taylor k
      = t ^ (k : Nat) / ((k : Nat).factorial : R) := by
  have hn : 1 ≤ (ncol : Int) := by
    have := k.2
    omega
  have h := starry.reflected.occultation.forLoop_invariant
    (fun (n : Int) (tay : Fin ncol → R) =>
      ∀ j : Fin ncol, ((j : Nat) : Int) < n → tay j = t ^ (j : Nat) / ((j : Nat).factorial : R))
    1 (ncol : Int) hn
    (fun n taylor =>
      assignVec taylor n
        (starry.reflected.occultation.vecCoeff taylor (n - 1) * t / ((n : Int) : R)))
    taylor
    (by
      intro j hj
      have hj0 : (j : Nat) = 0 := by omega
      rw [h0 j hj0, hj0]
      simp)
    (by
      intro n tay hn1 hn2 ih j hj
      simp only [assignVec]
      by_cases hjn : ((j : Nat) : Int) = n
      · rw [if_pos hjn]
        have hpos : 0 < (j : Nat) := by omega
        have hlt : (j : Nat) - 1 < ncol := by have := j.2; omega
        have hread : starry.reflected.occultation.vecCoeff tay (n - 1)
            = tay ⟨(j : Nat) - 1, hlt⟩ := by
          unfold starry.reflected.occultation.vecCoeff
          have hcond : 0 ≤ n - 1 ∧ (n - 1).toNat < ncol := by omega
          rw [dif_pos hcond]
          congr 1
          apply Fin.ext
          show (n - 1).toNat = (j : Nat) - 1
          omega
        rw [hread, ih ⟨(j : Nat) - 1, hlt⟩ (by show (((j : Nat) - 1 : Nat) : Int) < n; omega)]
        obtain ⟨i, hi⟩ : ∃ i, (j : Nat) = i + 1 := ⟨(j : Nat) - 1, by omega⟩
        have hn' : ((n : Int) : R) = ((i + 1 : Nat) : R) := by
          rw [← hjn, hi]
          push_cast
          ring
        simp only [hi, Nat.add_sub_cancel, hn', Nat.factorial_succ, pow_succ]
        push_cast
        rw [div_mul_eq_mul_div, div_div]
        congr 1
        ring
      · rw [if_neg hjn]
        exact ih j (by omega))
  exact h k (by have := k.2; omega)

/-- The basis left by `computeTaylor(t)` when the basis starts at `taylor(0) = 1` and
either `t` differs from the cached time or the cached basis is the one of the cached
time. -/
theorem computeTaylor_taylor {R : Type} [Field R] [DecidableEq R] {ncol : Nat} (t : R)
    (st : TaylorState R ncol) (h0 : ∀ k : Fin ncol, (k : Nat) = 0 → st.taylor k = 1)
    (hc : t ≠ st.taylort ∨
      ∀ k : Fin ncol, st.taylor k = st.taylort ^ (k : Nat) / ((k : Nat).factorial : R))
    (k : Fin ncol) :
    (computeTaylor t st).taylor k = t ^ (k : Nat) / ((k : Nat).factorial : R) := by
  unfold computeTaylor
  by_cases ht : t ≠ st.taylort
  · rw [if_pos ht]
    exact taylor_loop t st.taylor h0 k
  · rw [if_neg ht]
    rcases hc with hc | hc
    · exact absurd hc ht
    · rw [hc k, not_not.1 ht]

/-- The sum over `1 ≤ n < ncol` written over the columns `n = k + 1`, `k < ncol - 1`. -/
theorem sum_shift {R : Type} [Field R] {ncol : Nat} (f : Fin ncol → R) (g : Nat → R) :
    (∑ k : Fin (ncol - 1), f ⟨(k : Nat) + 1, Nat.add_lt_of_lt_sub k.2⟩ * g (k : Nat))
      = ∑ n : Fin ncol, if 1 ≤ (n : Nat) then f n * g ((n : Nat) - 1) else 0 := by
  cases ncol with
  | zero => simp
  | succ c =>
    have e : (∑ n : Fin (c + 1), if 1 ≤ (n : Nat) then f n * g ((n : Nat) - 1) else 0)
        = ∑ k : Fin c, f k.succ * g (k : Nat) := by
      rw [Fin.sum_univ_succ]
      simp
    rw [e]
    rfl

/-- The vectors returned by `contract` and `contract_deriv`, in closed form. -/
theorem contract_eq {R : Type} [Field R] [DecidableEq R] {rows ncol : Nat}
    (mat : Matrix (Fin rows) (Fin ncol) R) (t : R) (st : TaylorState R ncol)
    (h0 : ∀ k : Fin ncol, (k : Nat) = 0 → st.taylor k = 1)
    (hc : t ≠ st.taylort ∨
      ∀ k : Fin ncol, st.taylor k = st.taylort ^ (k : Nat) / ((k : Nat).factorial : R))
    (i : Fin rows) :
    (contract mat t st).1 i
        = ∑ n : Fin ncol, mat i n * (t ^ (n : Nat) / ((n : Nat).factorial : R)) ∧
      (contract_deriv mat t st).1 i
        = ∑ n : Fin ncol, if 1 ≤ (n : Nat) then
            mat i n * (t ^ ((n : Nat) - 1) / (((n : Nat) - 1).factorial : R)) else 0 := by
  constructor
  · show ∑ n : Fin ncol, mat i n * (computeTaylor t st).taylor n = _
    simp only [computeTaylor_taylor t st h0 hc]
  · rw [← sum_shift (fun n => mat i n) (fun k => t ^ k / (k.factorial : R))]
    show ∑ k : Fin (ncol - 1), mat i ⟨(k : Nat) + 1, _⟩ * (computeTaylor t st).taylor ⟨(k : Nat), _⟩
      = _
    simp only [computeTaylor_taylor t st h0 hc]

/-- C27: `computeTaylor` keeps the cached Taylor basis consistent.  If `taylor(0) = 1`
and, before the call, `taylor(n) = cache.taylort^n / n!` for every `0 ≤ n < ncol`, then
after `computeTaylor(t)` the cached time is `t` and `taylor(n) = t^n / n!` for every
`0 ≤ n < ncol`; when `t` equals `cache.taylort` nothing is modified. -/
theorem computeTaylor_consistent {R : Type} [Field R] [DecidableEq R] {ncol : Nat} (t : R)
    (st : TaylorState R ncol) (h0 : ∀ k : Fin ncol, (k : Nat) = 0 → st.taylor k = 1)
    (hcons : ∀ k : Fin ncol,
      st.taylor k = st.taylort ^ (k : Nat) / ((k : Nat).factorial : R)) :
    (computeTaylor t st).taylort = t ∧
      (∀ k : Fin ncol,
        (computeTaylor t st).taylor k = t ^ (k : Nat) / ((k : Nat).factorial : R)) ∧
      (t = st.taylort → computeTaylor t st = st) := by
  refine ⟨?_, computeTaylor_taylor t st h0 (Or.inr hcons), ?_⟩
  · unfold computeTaylor
    by_cases ht : t ≠ st.taylort
    · rw [if_pos ht]
    · rw [if_neg ht, not_not.1 ht]
  · intro ht
    unfold computeTaylor
    rw [if_neg (not_not.2 ht)]

/-- C27, instantiated over the rationals: the basis `[1, 0]` of the time `0`, moved to
the time `2`. -/
theorem computeTaylor_consistent_witness :
    (computeTaylor (2 : ℚ) ({ taylor := ![1, 0], taylort := 0 } : TaylorState ℚ 2)).taylort = 2 ∧
      (∀ k : Fin 2,
        (computeTaylor (2 : ℚ) ({ taylor := ![1, 0], taylort := 0 } : TaylorState ℚ 2)).taylor k
          = 2 ^ (k : Nat) / ((k : Nat).factorial : ℚ)) ∧
      ((2 : ℚ) = 0 →
        computeTaylor (2 : ℚ) ({ taylor := ![1, 0], taylort := 0 } : TaylorState ℚ 2)
          = { taylor := ![1, 0], taylort := 0 }) :=
  computeTaylor_consistent (2 : ℚ) ({ taylor := ![1, 0], taylort := 0 } : TaylorState ℚ 2)
    (by intro k hk; fin_cases k <;> simp_all)
    (by intro k; fin_cases k <;> norm_num [Nat.factorial])

/-- The derivative of the closed form of `contract`. -/
theorem hasDerivAt_taylor_sum {ncol : Nat} (a : Fin ncol → ℝ) (t : ℝ) :
    HasDerivAt (fun s : ℝ => ∑ n : Fin ncol, a n * (s ^ (n : Nat) / ((n : Nat).factorial : ℝ)))
      (∑ n : Fin ncol, if 1 ≤ (n : Nat) then
        a n * (t ^ ((n : Nat) - 1) / (((n : Nat) - 1).factorial : ℝ)) else 0) t := by
  have h : ∀ n ∈ (Finset.univ : Finset (Fin ncol)),
      HasDerivAt (fun s : ℝ => a n * (s ^ (n : Nat) / ((n : Nat).factorial : ℝ)))
        (if 1 ≤ (n : Nat) then
          a n * (t ^ ((n : Nat) - 1) / (((n : Nat) - 1).factorial : ℝ)) else 0) t := by
    intro n _
    have hd := ((hasDerivAt_pow (n : Nat) t).div_const ((n : Nat).factorial : ℝ)).const_mul (a n)
    convert hd using 1
    rcases Nat.eq_zero_or_pos (n : Nat) with h0 | hpos
    · simp [h0]
    · obtain ⟨k, hk⟩ : ∃ k, (n : Nat) = k + 1 := ⟨(n : Nat) - 1, by omega⟩
      have hk1 : ((k : ℝ) + 1) ≠ 0 := by positivity
      have hk2 : ((k.factorial : Nat) : ℝ) ≠ 0 := by positivity
      rw [if_pos (show 1 ≤ (n : Nat) from hpos), hk]
      simp only [Nat.add_sub_cancel, Nat.factorial_succ]
      push_cast
      field_simp
      ring
  have := HasDerivAt.sum h
  convert this using 1

/-- C21, as stated, fails: with the basis `[1, 0]` cached for the time `1`, a basis
that starts at `taylor(0) = 1`, `contract(mat, 1)` on the matrix `[1 1]` returns `1`,
not `1 * 1^0 / 0! + 1 * 1^1 / 1! = 2`. -/
theorem contract_stale_counterexample :
    ({ taylor := ![1, 0], taylort := 1 } : TaylorState ℝ 2).taylor 0 = 1 ∧
      (contract (Matrix.of ![![1, 1]] : Matrix (Fin 1) (Fin 2) ℝ) 1
          { taylor := ![1, 0], taylort := 1 }).1 0 = 1 ∧
      (contract (Matrix.of ![![1, 1]] : Matrix (Fin 1) (Fin 2) ℝ) 1
          { taylor := ![1, 0], taylort := 1 }).1 0
        ≠ ∑ n : Fin 2, (Matrix.of ![![1, 1]] : Matrix (Fin 1) (Fin 2) ℝ) 0 n
            * ((1 : ℝ) ^ (n : Nat) / ((n : Nat).factorial : ℝ)) := by
  have e : (contract (Matrix.of ![![1, 1]] : Matrix (Fin 1) (Fin 2) ℝ) 1
      { taylor := ![1, 0], taylort := 1 }).1 0 = 1 := by
    simp [contract, computeTaylor, Matrix.mulVec, Matrix.dotProduct, Fin.sum_univ_succ]
  refine ⟨rfl, e, ?_⟩
  rw [e]
  norm_num [Fin.sum_univ_succ, Nat.factorial]

/-- C21, amended: for a temporal map whose Taylor basis starts at `taylor(0) = 1` and,
when `t` equals the cached time, holds `taylor(n) = cache.taylort^n / n!`, the vector
`contract(mat, t)` is the sum over `0 ≤ n < ncol` of `mat[:, n] t^n / n!`, the vector
`contract_deriv(mat, t)` is the sum over `1 ≤ n < ncol` of
`mat[:, n] t^(n-1) / (n-1)!`, and `contract_deriv(mat, t)` is the derivative with
respect to `t` of `contract(mat, t)`, for every matrix with `ncol` columns and every
`t`. -/
theorem contract_deriv_is_derivative {rows ncol : Nat} (mat : Matrix (Fin rows) (Fin ncol) ℝ)
    (t : ℝ) (st : TaylorState ℝ ncol) (h0 : ∀ k : Fin ncol, (k : Nat) = 0 → st.taylor k = 1)
    (hc : t ≠ st.taylort ∨
      ∀ k : Fin ncol, st.taylor k = st.taylort ^ (k : Nat) / ((k : Nat).factorial : ℝ))
    (i : Fin rows) :
    (contract mat t st).1 i
        = ∑ n : Fin ncol, mat i n * (t ^ (n : Nat) / ((n : Nat).factorial : ℝ)) ∧
      (contract_deriv mat t st).1 i
        = (∑ n : Fin ncol, if 1 ≤ (n : Nat) then
            mat i n * (t ^ ((n : Nat) - 1) / (((n : Nat) - 1).factorial : ℝ)) else 0) ∧
      HasDerivAt (fun s => (contract mat s st).1 i) ((contract_deriv mat t st).1 i) t := by
  obtain ⟨h1, h2⟩ := contract_eq mat t st h0 hc i
  refine ⟨h1, h2, ?_⟩
  rw [h2]
  refine (hasDerivAt_taylor_sum (fun n => mat i n) t).congr_of_eventuallyEq ?_
  rcases hc with hc | hc
  · have hopen : {s : ℝ | s ≠ st.taylort} ∈ nhds t := isOpen_ne.mem_nhds hc
    filter_upwards [hopen] with s hs
    exact (contract_eq mat s st h0 (Or.inl hs) i).1
  · exact Filter.Eventually.of_forall fun s => (contract_eq mat s st h0 (Or.inr hc) i).1

/-- C21 amended, instantiated: the basis `[1, 0]` cached for the time `0`, the matrix
`[1 1]` and `t = 2`. -/
theorem contract_deriv_is_derivative_witness :
    (contract (Matrix.of ![![1, 1]] : Matrix (Fin 1) (Fin 2) ℝ) 2
        { taylor := ![1, 0], taylort := 0 }).1 0
        = ∑ n : Fin 2, (Matrix.of ![![1, 1]] : Matrix (Fin 1) (Fin 2) ℝ) 0 n
            * ((2 : ℝ) ^ (n : Nat) / ((n : Nat).factorial : ℝ)) ∧
      (contract_deriv (Matrix.of ![![1, 1]] : Matrix (Fin 1) (Fin 2) ℝ) 2
        { taylor := ![1, 0], taylort := 0 }).1 0
        = (∑ n : Fin 2, if 1 ≤ (n : Nat) then
            (Matrix.of ![![1, 1]] : Matrix (Fin 1) (Fin 2) ℝ) 0 n
              * ((2 : ℝ) ^ ((n : Nat) - 1) / (((n : Nat) - 1).factorial : ℝ)) else 0) ∧
      HasDerivAt
        (fun s => (contract (Matrix.of ![![1, 1]] : Matrix (Fin 1) (Fin 2) ℝ) s
          { taylor := ![1, 0], taylort := 0 }).1 0)
        ((contract_deriv (Matrix.of ![![1, 1]] : Matrix (Fin 1) (Fin 2) ℝ) 2
          { taylor := ![1, 0], taylort := 0 }).1 0) 2 :=
  contract_deriv_is_derivative (Matrix.of ![![1, 1]] : Matrix (Fin 1) (Fin 2) ℝ) 2
    ({ taylor := ![1, 0], taylort := 0 } : TaylorState ℝ 2)
    (by intro k hk; fin_cases k <;> simp_all) (Or.inl (by norm_num)) 0

/-- The default `normalizeC` over any field: both results are the arguments times the
common factor, and the normalized flux is `1` when the factor is defined. -/
theorem normalizeC_eq {R : Type} [Field R] {m r s : Nat} (pi : R) (hpi : pi ≠ 0)
    (c : Fin (m + 2) → R) (dcdu : Matrix (Fin r) (Fin s) R) (hc : c 0 + 2 * c 1 / 3 ≠ 0) :
    (∀ a, (normalizeC pi c dcdu).1 a = c a * (1 / (pi * (c 0 + 2 * c 1 / 3)))) ∧
      (∀ a b, (normalizeC pi c dcdu).2 a b = dcdu a b * (1 / (pi * (c 0 + 2 * c 1 / 3)))) ∧
      pi * ((normalizeC pi c dcdu).1 0 + 2 * (normalizeC pi c dcdu).1 1 / 3) = 1 := by
  refine ⟨fun a => rfl, fun a b => rfl, ?_⟩
  have hden : pi * (c 0 + 2 * c 1 / 3) ≠ 0 := mul_ne_zero hpi hc
  show pi * (c 0 * (1 / (pi * (c 0 + 2 * c 1 / 3)))
    + 2 * (c 1 * (1 / (pi * (c 0 + 2 * c 1 / 3)))) / 3) = 1
  rw [show pi * (c 0 * (1 / (pi * (c 0 + 2 * c 1 / 3)))
      + 2 * (c 1 * (1 / (pi * (c 0 + 2 * c 1 / 3)))) / 3)
    = (pi * (c 0 + 2 * c 1 / 3)) * (1 / (pi * (c 0 + 2 * c 1 / 3))) by ring]
  exact mul_one_div_cancel hden

/-- Two blocks of `lmax` rows that share a row are the same block. -/
theorem block_unique {k n lmax a : Int} (hk1 : k * lmax ≤ a) (hk2 : a < k * lmax + lmax)
    (hn1 : n * lmax ≤ a) (hn2 : a < n * lmax + lmax) : k = n := by
  have hl : 0 < lmax := by omega
  by_contra hne
  rcases lt_or_gt_of_ne hne with h | h
  · have : (k + 1) * lmax ≤ n * lmax := mul_le_mul_of_nonneg_right (by omega) hl.le
    have e : (k + 1) * lmax = k * lmax + lmax := by ring
    omega
  · have : (n + 1) * lmax ≤ k * lmax := mul_le_mul_of_nonneg_right (by omega) hl.le
    have e : (n + 1) * lmax = n * lmax + lmax := by ring
    omega

/-- The read of an entry inside the storage. -/
theorem matCoeff_fin {R : Type} [Zero R] {r c : Nat} (M : Matrix (Fin r) (Fin c) R)
    (a : Fin r) (b : Fin c) : matCoeff M ((a : Nat) : Int) ((b : Nat) : Int) = M a b := by
  unfold matCoeff
  have h : (0 ≤ ((a : Nat) : Int) ∧ ((a : Nat) : Int).toNat < r) ∧
      (0 ≤ ((b : Nat) : Int) ∧ ((b : Nat) : Int).toNat < c) :=
    ⟨⟨by omega, by simp⟩, ⟨by omega, by simp⟩⟩
  rw [dif_pos h]
  rfl

/-- The loop of the spectral `normalizeC` over any field: column `n` of `c` and block `n`
of `dcdu` are scaled by the factor computed from column `n` of the argument `c`. -/
theorem normalizeC_spectral_eq {R : Type} [Field R] {m r s : Nat} (pi : R) (ncol lmax : Nat)
    (c : Matrix (Fin (m + 2)) (Fin ncol) R) (dcdu : Matrix (Fin r) (Fin s) R) :
    (∀ (a : Fin (m + 2)) (n : Fin ncol),
        (normalizeC_spectral pi ncol lmax c dcdu).1 a n
          = c a n * (1 / (pi * (c 0 n + 2 * c 1 n / 3)))) ∧
      ∀ (n : Fin ncol) (a : Fin r) (j : Fin s),
        ((n : Nat) : Int) * lmax ≤ ((a : Nat) : Int) →
        ((a : Nat) : Int) < ((n : Nat) : Int) * lmax + lmax → (j : Nat) < lmax + 1 →
        (normalizeC_spectral pi ncol lmax c dcdu).2 a j
          = dcdu a j * (1 / (pi * (c 0 n + 2 * c 1 n / 3))) := by
  have h := starry.reflected.occultation.forLoop_invariant
    (fun (x : Int) (st : Matrix (Fin (m + 2)) (Fin ncol) R × Matrix (Fin r) (Fin s) R) =>
      (∀ (a : Fin (m + 2)) (n : Fin ncol),
        st.1 a n = if ((n : Nat) : Int) < x then c a n * (1 / (pi * (c 0 n + 2 * c 1 n / 3)))
          else c a n) ∧
      ∀ (n : Fin ncol) (a : Fin r) (j : Fin s),
        ((n : Nat) : Int) * lmax ≤ ((a : Nat) : Int) →
        ((a : Nat) : Int) < ((n : Nat) : Int) * lmax + lmax → (j : Nat) < lmax + 1 →
        st.2 a j = if ((n : Nat) : Int) < x then dcdu a j * (1 / (pi * (c 0 n + 2 * c 1 n / 3)))
          else dcdu a j)
    0 (ncol : Int) (by omega)
    (fun n st =>
      let norm : R := 1 / (pi * (matCoeff st.1 0 n + 2 * matCoeff st.1 1 n / 3))
      (scaleCol st.1 n norm,
        scaleBlock st.2 (n * (lmax : Int)) 0 (lmax : Int) ((lmax : Int) + 1) norm))
    (c, dcdu)
    ⟨fun a n => by rw [if_neg (by omega)], fun n a j _ _ _ => by rw [if_neg (by omega)]⟩
    (by
      rintro x st hx0 hx1 ⟨ih1, ih2⟩
      have hx : x.toNat < ncol := by omega
      have hxn : (((⟨x.toNat, hx⟩ : Fin ncol) : Nat) : Int) = x := by
        show ((x.toNat : Nat) : Int) = x
        omega
      have hr0 : matCoeff st.1 0 x = c 0 ⟨x.toNat, hx⟩ := by
        have := matCoeff_fin st.1 0 ⟨x.toNat, hx⟩
        rw [hxn] at this
        rw [show (0 : Int) = (((0 : Fin (m + 2)) : Nat) : Int) by simp, this, ih1,
          if_neg (by omega)]
      have hr1 : matCoeff st.1 1 x = c 1 ⟨x.toNat, hx⟩ := by
        have := matCoeff_fin st.1 1 ⟨x.toNat, hx⟩
        rw [hxn] at this
        rw [show (1 : Int) = (((1 : Fin (m + 2)) : Nat) : Int) by simp, this, ih1,
          if_neg (by omega)]
      constructor
      · intro a n
        simp only [scaleCol, hr0, hr1]
        by_cases hn : ((n : Nat) : Int) = x
        · have hnx : n = ⟨x.toNat, hx⟩ := Fin.ext (by show (n : Nat) = x.toNat; omega)
          rw [if_pos hn, if_pos (by omega), ih1, if_neg (by omega), hnx]
        · rw [if_neg hn, ih1]
          by_cases hlt : ((n : Nat) : Int) < x
          · rw [if_pos hlt, if_pos (by omega)]
          · rw [if_neg hlt, if_neg (by omega)]
      · intro n a j h1 h2 h3
        simp only [scaleBlock, hr0, hr1]
        by_cases hn : ((n : Nat) : Int) = x
        · have hnx : n = ⟨x.toNat, hx⟩ := Fin.ext (by show (n : Nat) = x.toNat; omega)
          rw [if_pos ⟨by rw [← hn]; exact h1, by rw [← hn]; exact h2, by omega, by omega⟩,
            if_pos (by omega), ih2 n a j h1 h2 h3, if_neg (by omega), hnx]
        · have hne : ¬ (x * (lmax : Int) ≤ ((a : Nat) : Int) ∧
              ((a : Nat) : Int) < x * (lmax : Int) + (lmax : Int) ∧
              (0 : Int) ≤ ((j : Nat) : Int) ∧ ((j : Nat) : Int) < 0 + ((lmax : Int) + 1)) := by
            rintro ⟨g1, g2, _, _⟩
            exact hn (block_unique h1 h2 g1 g2)
          rw [if_neg hne, ih2 n a j h1 h2 h3]
          by_cases hlt : ((n : Nat) : Int) < x
          · rw [if_pos hlt, if_pos (by omega)]
          · rw [if_neg hlt, if_neg (by omega)])
  obtain ⟨h1, h2⟩ := h
  constructor
  · intro a n
    have := h1 a n
    rw [if_pos (by have := n.2; omega)] at this
    exact this
  · intro n a j g1 g2 g3
    have := h2 n a j g1 g2 g3
    rw [if_pos (by have := n.2; omega)] at this
    exact this

/-- C22: `normalizeC` normalizes the Agol `c` basis and its derivatives by one common
factor.  Default specialization: for every `c` with `c(0) + 2 c(1) / 3 ≠ 0`, the new `c`
and `dcdu` are the old ones times `1 / (pi (c(0) + 2 c(1) / 3))`, so that afterwards
`pi (c(0) + 2 c(1) / 3) = 1`.  Spectral specialization: the same holds column by column,
column `n` of `c` and block `n` of `dcdu` (rows `n lmax` to `n lmax + lmax - 1`, columns
`0` to `lmax`) being multiplied by the factor of column `n`. -/
theorem normalizeC_common_factor {m r s : Nat} (c : Fin (m + 2) → ℝ)
    (dcdu : Matrix (Fin r) (Fin s) ℝ) (hc : c 0 + 2 * c 1 / 3 ≠ 0)
    {m' r' s' : Nat} (ncol lmax : Nat) (C : Matrix (Fin (m' + 2)) (Fin ncol) ℝ)
    (D : Matrix (Fin r') (Fin s') ℝ) (hC : ∀ n : Fin ncol, C 0 n + 2 * C 1 n / 3 ≠ 0) :
    ((∀ a, (normalizeC Real.pi c dcdu).1 a = c a * (1 / (Real.pi * (c 0 + 2 * c 1 / 3)))) ∧
      (∀ a b, (normalizeC Real.pi c dcdu).2 a b
        = dcdu a b * (1 / (Real.pi * (c 0 + 2 * c 1 / 3)))) ∧
      Real.pi * ((normalizeC Real.pi c dcdu).1 0 + 2 * (normalizeC Real.pi c dcdu).1 1 / 3)
        = 1) ∧
      ∀ n : Fin ncol,
        (∀ a, (normalizeC_spectral Real.pi ncol lmax C D).1 a n
          = C a n * (1 / (Real.pi * (C 0 n + 2 * C 1 n / 3)))) ∧
        (∀ (a : Fin r') (j : Fin s'), ((n : Nat) : Int) * lmax ≤ ((a : Nat) : Int) →
          ((a : Nat) : Int) < ((n : Nat) : Int) * lmax + lmax → (j : Nat) < lmax + 1 →
          (normalizeC_spectral Real.pi ncol lmax C D).2 a j
            = D a j * (1 / (Real.pi * (C 0 n + 2 * C 1 n / 3)))) ∧
        Real.pi * ((normalizeC_spectral Real.pi ncol lmax C D).1 0 n
          + 2 * (normalizeC_spectral Real.pi ncol lmax C D).1 1 n / 3) = 1 := by
  obtain ⟨h1, h2⟩ := normalizeC_spectral_eq Real.pi ncol lmax C D
  refine ⟨normalizeC_eq Real.pi Real.pi_ne_zero c dcdu hc, fun n => ⟨fun a => h1 a n, h2 n, ?_⟩⟩
  have hden : Real.pi * (C 0 n + 2 * C 1 n / 3) ≠ 0 := mul_ne_zero Real.pi_ne_zero (hC n)
  rw [h1 0 n, h1 1 n,
    show Real.pi * (C 0 n * (1 / (Real.pi * (C 0 n + 2 * C 1 n / 3)))
        + 2 * (C 1 n * (1 / (Real.pi * (C 0 n + 2 * C 1 n / 3)))) / 3)
      = (Real.pi * (C 0 n + 2 * C 1 n / 3)) * (1 / (Real.pi * (C 0 n + 2 * C 1 n / 3))) by
      ring]
  exact mul_one_div_cancel hden

/-- C22, instantiated: the basis `c = [1, 0]` with `dcdu = [1]`, and the one-column
spectral basis with the same entries. -/
theorem normalizeC_common_factor_witness :
    (∀ a, (normalizeC Real.pi (![1, 0] : Fin 2 → ℝ) (Matrix.of ![![1]] : Matrix (Fin 1) (Fin 1) ℝ)).1 a
        = (![1, 0] : Fin 2 → ℝ) a
          * (1 / (Real.pi * ((![1, 0] : Fin 2 → ℝ) 0 + 2 * (![1, 0] : Fin 2 → ℝ) 1 / 3)))) ∧
      (∀ a b, (normalizeC Real.pi (![1, 0] : Fin 2 → ℝ)
          (Matrix.of ![![1]] : Matrix (Fin 1) (Fin 1) ℝ)).2 a b
        = (Matrix.of ![![1]] : Matrix (Fin 1) (Fin 1) ℝ) a b
          * (1 / (Real.pi * ((![1, 0] : Fin 2 → ℝ) 0 + 2 * (![1, 0] : Fin 2 → ℝ) 1 / 3)))) ∧
      Real.pi * ((normalizeC Real.pi (![1, 0] : Fin 2 → ℝ)
            (Matrix.of ![![1]] : Matrix (Fin 1) (Fin 1) ℝ)).1 0
          + 2 * (normalizeC Real.pi (![1, 0] : Fin 2 → ℝ)
            (Matrix.of ![![1]] : Matrix (Fin 1) (Fin 1) ℝ)).1 1 / 3) = 1 :=
  (normalizeC_common_factor (![1, 0] : Fin 2 → ℝ) (Matrix.of ![![1]] : Matrix (Fin 1) (Fin 1) ℝ)
    (by norm_num) 1 1 (Matrix.of ![![1], ![0]] : Matrix (Fin 2) (Fin 1) ℝ)
    (Matrix.of ![![1]] : Matrix (Fin 1) (Fin 1) ℝ)
    (by intro n; fin_cases n; norm_num)).1

end maps
